import Mathlib

/-!
# TDA7419 register model, change tracking and transmission engine

A shallow embedding of `src/bitStorage.hpp` and of the numeric encoders, the level and
gain bindings and the transmission part of `src/TDA7419.cpp` / `src/tda7419.hpp`.

* `uint8_t` and `uint16_t` values are natural numbers; every place where the
  C++ code narrows a result carries an explicit `% 256` or `% 65536`.
* `int8_t` values are integers; a narrowing to `int8_t` or `uint8_t` is written
  `toInt8` or `toUInt8`.
* The single-bit methods of `bitStorage` shift `1 << bitPosition` in `int` without a
  bounds check; they take the width of `int` as a parameter and return `none` where C++
  gives the shift no value.
* `std::array<bitStorage, REGISTER_COUNT>` is a function on `Fin REGISTER_COUNT`.
* The object state of the driver is passed explicitly; the I2C transport and the
  `Serial` stream are passed next to it.
-/

set_option linter.dupNamespace false

namespace TDA7419

/-! ## `bitStorage.hpp` -/

/-- An 8-bit register value together with the previously saved value. -/
structure bitStorage where
  /-- Current 8-bit register value. -/
  value_ : Nat
  /-- Previously saved value used to detect changes. -/
  prevValue_ : Nat
deriving DecidableEq, Repr

namespace bitStorage

/-- The constructor `bitStorage() : value_(0), prevValue_(0)`. -/
def new : bitStorage := ⟨0, 0⟩

/-- The method `getValue`. -/
def getValue (b : bitStorage) : Nat := b.value_

/-- The method `setValue`: overwrites the current value, not the saved one. -/
def setValue (b : bitStorage) (value : Nat) : bitStorage :=
  { b with value_ := value % 256 }

/-- The bit mask `((uint16_t(1) << length) - 1) << bitPosition`, stored in a `uint16_t`. -/
def segmentMask (bitPosition length : Nat) : Nat :=
  (((1 <<< length) - 1) <<< bitPosition) % 65536

/-- The complement `~mask` of a 16-bit mask, as far as it meets an 8-bit or 16-bit operand. -/
def notMask (mask : Nat) : Nat := mask ^^^ 65535

/-- Whether the `int` expression `1 << bitPosition` has a value C++ defines, on a platform
whose `int` has `intBits` bits (16 on AVR, 32 on ESP32): `2^bitPosition` must be
representable in `int`. The single-bit methods below evaluate this shift without a bounds
check and return `none` where it has no defined value. -/
def shiftDefined (intBits bitPosition : Nat) : Bool := decide (bitPosition + 1 < intBits)

/-- The method `setBit`: `value_ |= (1 << bitPosition)`. -/
def setBit (intBits : Nat) (b : bitStorage) (bitPosition : Nat) : Option bitStorage :=
  if shiftDefined intBits bitPosition then
    some { b with value_ := (b.value_ ||| (1 <<< bitPosition)) % 256 }
  else none

/-- The method `clearBit`: `value_ &= ~(1 << bitPosition)`. -/
def clearBit (intBits : Nat) (b : bitStorage) (bitPosition : Nat) : Option bitStorage :=
  if shiftDefined intBits bitPosition then
    some { b with value_ := (b.value_ &&& notMask ((1 <<< bitPosition) % 65536)) % 256 }
  else none

/-- The method `isBitSet`. -/
def isBitSet (intBits : Nat) (b : bitStorage) (bitPosition : Nat) : Option Bool :=
  if shiftDefined intBits bitPosition then
    some ((b.value_ &&& (1 <<< bitPosition)) != 0)
  else none

/-- The method `toggleBit`: `value_ ^= (1 << bitPosition)`. -/
def toggleBit (intBits : Nat) (b : bitStorage) (bitPosition : Nat) : Option bitStorage :=
  if shiftDefined intBits bitPosition then
    some { b with value_ := (b.value_ ^^^ (1 <<< bitPosition)) % 256 }
  else none

/-- The method `writeBit`. -/
def writeBit (intBits : Nat) (b : bitStorage) (bitPosition : Nat) (value : Bool) :
    Option bitStorage :=
  if value then b.setBit intBits bitPosition else b.clearBit intBits bitPosition

/-- The method `clearSegment`. -/
def clearSegment (b : bitStorage) (bitPosition length : Nat) : bitStorage :=
  if length = 0 ∨ bitPosition > 7 ∨ bitPosition + length > 8 then b
  else { b with value_ := b.value_ &&& (notMask (segmentMask bitPosition length) % 256) }

/-- The method `readValueAtBit`. -/
def readValueAtBit (b : bitStorage) (bitPosition length : Nat) : Nat :=
  if length = 0 ∨ bitPosition > 7 ∨ bitPosition + length > 8 then 0
  else ((b.value_ &&& segmentMask bitPosition length) >>> bitPosition) % 256

/-- The method `writeValueAtBit`. -/
def writeValueAtBit (b : bitStorage) (bitPosition value length : Nat) : bitStorage :=
  if length = 0 ∨ bitPosition > 7 ∨ bitPosition + length > 8 then b
  else
    let mask := segmentMask bitPosition length
    { b with value_ :=
        ((b.value_ &&& notMask mask) ||| ((value <<< bitPosition) &&& mask)) % 256 }

/-- The method `isChanged`: `value_ != prevValue_`. -/
def isChanged (b : bitStorage) : Bool := b.value_ != b.prevValue_

/-- The method `clearChanged`: `prevValue_ = value_`. -/
def clearChanged (b : bitStorage) : bitStorage :=
  { b with prevValue_ := b.value_ }

end bitStorage

/-! ## Constants and enumerations of `tda7419.hpp` -/

def TDA7419_I2C_ADDRESS : Nat := 0x44
def SUBADDR_AUTOZERO_REMAIN_BIT : Nat := 0x40
def SUBADDR_AUTO_INCREMENT_BIT : Nat := 0x20

/-- Number of device registers. -/
abbrev REGISTER_COUNT : Nat := 17

/-- A valid index into the register array. -/
abbrev RegIndex := Fin REGISTER_COUNT

def REG_MAIN_SOURCE : RegIndex := 0
def REG_LOUDNESS_CONTROL : RegIndex := 1
def REG_SOFT_MUTE_CONTROL : RegIndex := 2
def REG_MASTER_VOLUME : RegIndex := 3
def REG_TREBLE_FILTER : RegIndex := 4
def REG_MIDDLE_FILTER : RegIndex := 5
def REG_BASS_FILTER : RegIndex := 6
def REG_SECOND_SOURCE : RegIndex := 7
def REG_SUB_MID_BASS : RegIndex := 8
def REG_MIXING_CONTROL : RegIndex := 9
def REG_SPEAKER_LF_LEVEL : RegIndex := 10
def REG_SPEAKER_RF_LEVEL : RegIndex := 11
def REG_SPEAKER_LR_LEVEL : RegIndex := 12
def REG_SPEAKER_RR_LEVEL : RegIndex := 13
def REG_MIXING_LEVEL : RegIndex := 14
def REG_SUBWOOFER_LEVEL : RegIndex := 15
def REG_SPECTRUM_ANALYZER : RegIndex := 16

def MIN_INPUT_GAIN : Nat := 0
def MAX_INPUT_GAIN : Nat := 15
def MIN_SPEAKER_VOLUME : Int := -80
def MAX_SPEAKER_VOLUME : Int := 15
def MIN_EQ_LEVEL : Int := -15
def MAX_EQ_LEVEL : Int := 15

/-- The enumeration `InputSource` (register 0 bits [2:0], register 7 bits [2:0]). -/
inductive InputSource where
  | QD | SE1 | SE2 | SE3 | Mute
deriving DecidableEq, Repr

/-- The underlying `uint8_t` of an `InputSource`. -/
def InputSource.toUInt8 : InputSource → Nat
  | .QD => 0
  | .SE1 => 1
  | .SE2 => 2
  | .SE3 => 3
  | .Mute => 4

/-- The enumeration `RearSpeakerSource` (register 7 bit 7). -/
inductive RearSpeakerSource where
  | mainSource | secondSource
deriving DecidableEq, Repr

/-- The underlying `uint8_t` of a `RearSpeakerSource`. -/
def RearSpeakerSource.toUInt8 : RearSpeakerSource → Nat
  | .mainSource => 0
  | .secondSource => 1

/-- The enumeration `SpeakerChannel` (registers 10..13). -/
inductive SpeakerChannel where
  | LeftFront | RightFront | LeftRear | RightRear
deriving DecidableEq, Repr

/-- The underlying `uint8_t` of a `SpeakerChannel`. -/
def SpeakerChannel.toUInt8 : SpeakerChannel → Nat
  | .LeftFront => 0
  | .RightFront => 1
  | .LeftRear => 2
  | .RightRear => 3

/-- The enumeration `LoudnessCenterFreq` (register 1 bits [5:4]). -/
inductive LoudnessCenterFreq where
  | Flat | Hz400 | Hz800 | Hz2400
deriving DecidableEq, Repr

/-- The underlying `uint8_t` of a `LoudnessCenterFreq`. -/
def LoudnessCenterFreq.toUInt8 : LoudnessCenterFreq → Nat
  | .Flat => 0
  | .Hz400 => 1
  | .Hz800 => 2
  | .Hz2400 => 3

/-- The enumeration `BassCenterFreq` (register 8 bits [5:4]). -/
inductive BassCenterFreq where
  | Hz60 | Hz80 | Hz100 | Hz200
deriving DecidableEq, Repr

/-- The underlying `uint8_t` of a `BassCenterFreq`. -/
def BassCenterFreq.toUInt8 : BassCenterFreq → Nat
  | .Hz60 => 0
  | .Hz80 => 1
  | .Hz100 => 2
  | .Hz200 => 3

/-- The enumeration `MiddleCenterFreq` (register 8 bits [3:2]). -/
inductive MiddleCenterFreq where
  | Hz500 | Hz1000 | Hz1500 | Hz2500
deriving DecidableEq, Repr

/-- The underlying `uint8_t` of a `MiddleCenterFreq`. -/
def MiddleCenterFreq.toUInt8 : MiddleCenterFreq → Nat
  | .Hz500 => 0
  | .Hz1000 => 1
  | .Hz1500 => 2
  | .Hz2500 => 3

/-- The enumeration `TrebleCenterFreq` (register 4 bits [6:5]). -/
inductive TrebleCenterFreq where
  | KHz10 | KHz12_5 | KHz15 | KHz17_5
deriving DecidableEq, Repr

/-- The underlying `uint8_t` of a `TrebleCenterFreq`. -/
def TrebleCenterFreq.toUInt8 : TrebleCenterFreq → Nat
  | .KHz10 => 0
  | .KHz12_5 => 1
  | .KHz15 => 2
  | .KHz17_5 => 3

/-- The enumeration `SubCutoffFreq` (register 8 bits [1:0]). -/
inductive SubCutoffFreq where
  | Flat | Hz80 | Hz120 | Hz160
deriving DecidableEq, Repr

/-- The underlying `uint8_t` of a `SubCutoffFreq`. -/
def SubCutoffFreq.toUInt8 : SubCutoffFreq → Nat
  | .Flat => 0
  | .Hz80 => 1
  | .Hz120 => 2
  | .Hz160 => 3

/-- The enumeration `MiddleQFactor` (register 5 bits [6:5]). -/
inductive MiddleQFactor where
  | Q0_5 | Q0_75 | Q1 | Q1_25
deriving DecidableEq, Repr

/-- The underlying `uint8_t` of a `MiddleQFactor`. -/
def MiddleQFactor.toUInt8 : MiddleQFactor → Nat
  | .Q0_5 => 0
  | .Q0_75 => 1
  | .Q1 => 2
  | .Q1_25 => 3

/-- The enumeration `BassQFactor` (register 6 bits [6:5]). -/
inductive BassQFactor where
  | Q1 | Q1_25 | Q1_5 | Q2
deriving DecidableEq, Repr

/-- The underlying `uint8_t` of a `BassQFactor`. -/
def BassQFactor.toUInt8 : BassQFactor → Nat
  | .Q1 => 0
  | .Q1_25 => 1
  | .Q1_5 => 2
  | .Q2 => 3

/-- The enumeration `MixingGainEffect` (register 9 bits [7:4]). -/
inductive MixingGainEffect where
  | dB4 | dB6 | dB8 | dB10 | dB12 | dB14 | dB16 | dB18 | dB20 | dB22
deriving DecidableEq, Repr

/-- The underlying `uint8_t` of a `MixingGainEffect`. -/
def MixingGainEffect.toUInt8 : MixingGainEffect → Nat
  | .dB4 => 0
  | .dB6 => 1
  | .dB8 => 2
  | .dB10 => 3
  | .dB12 => 4
  | .dB14 => 5
  | .dB16 => 6
  | .dB18 => 7
  | .dB20 => 8
  | .dB22 => 9

/-- The enumeration `SpectrumCouplingMode` (register 16 bits [7:6]). -/
inductive SpectrumCouplingMode where
  | DC_wo_HPF | AC_after_InGain | DC_w_HPF | AC_after_Bass
deriving DecidableEq, Repr

/-- The underlying `uint8_t` of a `SpectrumCouplingMode`. -/
def SpectrumCouplingMode.toUInt8 : SpectrumCouplingMode → Nat
  | .DC_wo_HPF => 0
  | .AC_after_InGain => 1
  | .DC_w_HPF => 2
  | .AC_after_Bass => 3

/-- The enumeration `SpectrumSource` (register 16 bit 2). -/
inductive SpectrumSource where
  | Bass | InGain
deriving DecidableEq, Repr

/-- The underlying `uint8_t` of a `SpectrumSource`. -/
def SpectrumSource.toUInt8 : SpectrumSource → Nat
  | .Bass => 0
  | .InGain => 1

/-- The enumeration `SpectrumFilterQ` (register 16 bit 0). -/
inductive SpectrumFilterQ where
  | Q3_5 | Q1_75
deriving DecidableEq, Repr

/-- The underlying `uint8_t` of a `SpectrumFilterQ`. -/
def SpectrumFilterQ.toUInt8 : SpectrumFilterQ → Nat
  | .Q3_5 => 0
  | .Q1_75 => 1

/-- The enumeration `SoftMuteTime` (register 2 bits [3:2]). -/
inductive SoftMuteTime where
  | Ms048 | Ms096 | Ms123
deriving DecidableEq, Repr

/-- The underlying `uint8_t` of a `SoftMuteTime`. -/
def SoftMuteTime.toUInt8 : SoftMuteTime → Nat
  | .Ms048 => 0
  | .Ms096 => 1
  | .Ms123 => 2

/-- The enumeration `SoftStepTime` (register 2 bits [6:4]). -/
inductive SoftStepTime where
  | Us160 | Us320 | Us640 | Us1280 | Us2560 | Us5120 | Us10240 | Us20480
deriving DecidableEq, Repr

/-- The underlying `uint8_t` of a `SoftStepTime`. -/
def SoftStepTime.toUInt8 : SoftStepTime → Nat
  | .Us160 => 0
  | .Us320 => 1
  | .Us640 => 2
  | .Us1280 => 3
  | .Us2560 => 4
  | .Us5120 => 5
  | .Us10240 => 6
  | .Us20480 => 7

/-! ## Integer conversions and `clampv` -/

/-- The conversion of an integer to `uint8_t`: reduction modulo 256. -/
def toUInt8 (x : Int) : Nat := (x % 256).toNat

/-- The conversion of an integer to `int8_t`: the value in -128..127 congruent modulo 256. -/
def toInt8 (x : Int) : Int := (x + 128) % 256 - 128

/-- The template `clampv`: `(value < lo) ? lo : ((value > hi) ? hi : value)`. -/
def clampv {T : Type} [LT T] [DecidableRel (fun a b : T => a < b)] (value lo hi : T) : T :=
  if value < lo then lo else if value > hi then hi else value

/-- The message a clamping setter prints on `Serial` (the value given and the clamped value),
printed only when `clampedValue != value`; the text is not modelled. -/
def clampNotice {T : Type} [DecidableEq T] (value clampedValue : T) : Option (T × T) :=
  if clampedValue ≠ value then some (value, clampedValue) else none

/-! ## The collaborators: I2C transport and `Serial` -/

/-- One bus transaction: everything between `beginTransmission(address)` and
`endTransmission()`, that is the device address and the bytes handed to `write`, in order. -/
structure Transaction where
  address : Nat
  bytes : List Nat
deriving DecidableEq, Repr

/-- The I2C transport `TwoWire` as the driver sees it (an external collaborator).
`sent` lists the transactions ended so far, oldest first. `respond` is the behaviour of
the bus: the status code `endTransmission()` returns (`0` is success), given all
transactions ended so far, the last of which is the one being ended. -/
structure TwoWire where
  sent : List Transaction
  respond : List Transaction → Nat

/-- The call sequence `beginTransmission(address); write(b) ...; endTransmission()` that
makes up the transaction `tx`: returns the status code and the transport afterwards. -/
def TwoWire.transmit (wire : TwoWire) (tx : Transaction) : Nat × TwoWire :=
  (wire.respond (wire.sent ++ [tx]), { wire with sent := wire.sent ++ [tx] })

/-- What the driver prints on `Serial` during a transmission; texts are not modelled. -/
inductive SerialEvent where
  /-- The dump of `printRegistersDebug`: per register its index, changed marker and value. -/
  | registersDebug (rows : List (Nat × Bool × Nat))
  /-- The line "TDA7419: Sending all registers". -/
  | sendingAll
  /-- The line "TDA7419: Sending changed registers". -/
  | sendingChanged
  /-- The line "TDA7419: Sending register " followed by the index. -/
  | sendingRegister (reg : Nat)
  /-- The output of `printTransmissionError`. -/
  | transmissionError (errorCode : Nat)
deriving DecidableEq, Repr

/-! ## The class `TDA7419` -/

/-- The data members of the class `TDA7419` (the transport reference `i2c` is passed
separately to the operations that use it). -/
structure TDA7419 where
  debug : Bool
  registers : RegIndex → bitStorage
  inputChanged : Bool

/-- The register indices in the order of the loop
`for (uint8_t reg = 0; reg < REGISTER_COUNT; ++reg)`. -/
def allRegisters : List RegIndex := List.finRange REGISTER_COUNT

/-- The registers the loop visits before it reaches `reg`: those with a smaller index,
in ascending order. -/
def registersBelow (reg : RegIndex) : List RegIndex := allRegisters.take reg.val

namespace TDA7419

/-- The bytes the constructor stores with `setValue`, for registers 0 to 16 in order. -/
def defaultValues : List Nat :=
  [0x1A, 0x08, 0xB7, 0x00, 0x80, 0x00, 0x00, 0x41, 0xE0, 0x27,
   0x00, 0x00, 0x00, 0x00, 0x00, 0x00, 0x1C]

/-- The power-on default byte the constructor stores into register `reg`. -/
def defaultValue (reg : RegIndex) : Nat := defaultValues.getD reg.val 0

/-- The constructor: every register is a default-constructed `bitStorage` on which
`setValue(default)` is called; `debug = false`, `inputChanged = true`. -/
def new : TDA7419 :=
  { debug := false
    registers := fun reg => bitStorage.new.setValue (defaultValue reg)
    inputChanged := true }

/-- Replaces register `reg` by `f` applied to it (`registers[reg].method(...)`). -/
def modifyRegister (dev : TDA7419) (reg : RegIndex) (f : bitStorage → bitStorage) : TDA7419 :=
  { dev with registers := fun i => if i = reg then f (dev.registers i) else dev.registers i }

/-- The setter `setMainSource`. Register 0, bits 0-2. -/
def setMainSource (dev : TDA7419) (source : InputSource) : TDA7419 :=
  { dev.modifyRegister REG_MAIN_SOURCE (fun b => b.writeValueAtBit 0 source.toUInt8 3) with
    inputChanged := true }

/-- The setter `setRearSpeakerSource`. Register 7, bit 7. -/
def setRearSpeakerSource (dev : TDA7419) (source : RearSpeakerSource) : TDA7419 :=
  { dev.modifyRegister REG_SECOND_SOURCE (fun b => b.writeValueAtBit 7 source.toUInt8 1) with
    inputChanged := true }

/-- The setter `setSecondSource`. Register 7, bits 0-2. -/
def setSecondSource (dev : TDA7419) (source : InputSource) : TDA7419 :=
  dev.modifyRegister REG_SECOND_SOURCE (fun b => b.writeValueAtBit 0 source.toUInt8 3)

/-- The rows `printRegistersDebug` prints. -/
def printRegistersDebug (dev : TDA7419) : SerialEvent :=
  .registersDebug (allRegisters.map fun reg =>
    (reg.val, (dev.registers reg).isChanged, (dev.registers reg).getValue))

end TDA7419

/-- The outcome of a send operation: the returned `bool`, the driver state, the
transport and the `Serial` output of the call. -/
structure SendResult where
  ok : Bool
  dev : TDA7419
  wire : TwoWire
  serial : List SerialEvent

namespace TDA7419

/-- The command byte of the full write:
`SUBADDR_AUTO_INCREMENT_BIT + (inputChanged ? 0 : SUBADDR_AUTOZERO_REMAIN_BIT)`. -/
def fullWriteCommand (dev : TDA7419) : Nat :=
  (SUBADDR_AUTO_INCREMENT_BIT + (if dev.inputChanged then 0 else SUBADDR_AUTOZERO_REMAIN_BIT)) % 256

/-- The transaction `sendAllRegisters` builds: the command byte, then `getValue()` of
every register in loop order. -/
def fullWriteTransaction (dev : TDA7419) : Transaction :=
  { address := TDA7419_I2C_ADDRESS
    bytes := dev.fullWriteCommand :: allRegisters.map fun reg => (dev.registers reg).getValue }

/-- The method `sendAllRegisters`. -/
def sendAllRegisters (dev : TDA7419) (wire : TwoWire) : SendResult :=
  let serial0 := if dev.debug then [dev.printRegistersDebug, SerialEvent.sendingAll] else []
  let (status, wire1) := wire.transmit dev.fullWriteTransaction
  if status != 0 then
    { ok := false, dev := dev, wire := wire1,
      serial := serial0 ++ [SerialEvent.transmissionError status] }
  else
    { ok := true
      dev := { dev with
        registers := fun reg => (dev.registers reg).clearChanged
        inputChanged := false }
      wire := wire1
      serial := serial0 }

/-- The method `begin`. -/
def begin (dev : TDA7419) (wire : TwoWire) : SendResult := dev.sendAllRegisters wire

/-- The sub-address byte of a single-register write:
`((reg == REG_MAIN_SOURCE && inputChanged) ? 0 : SUBADDR_AUTOZERO_REMAIN_BIT) + reg`. -/
def singleWriteSubAddress (dev : TDA7419) (reg : RegIndex) : Nat :=
  ((if reg = REG_MAIN_SOURCE ∧ dev.inputChanged = true then 0 else SUBADDR_AUTOZERO_REMAIN_BIT)
    + reg.val) % 256

/-- The transaction `sendChangedRegisters` builds for register `reg`: the sub-address
byte, then `getValue()` of the register. -/
def singleWriteTransaction (dev : TDA7419) (reg : RegIndex) : Transaction :=
  { address := TDA7419_I2C_ADDRESS
    bytes := [dev.singleWriteSubAddress reg, (dev.registers reg).getValue] }

/-- The loop of `sendChangedRegisters` over the register indices still to visit. -/
def sendChangedLoop : List RegIndex → TDA7419 → TwoWire → List SerialEvent → SendResult
  | [], dev, wire, serial => { ok := true, dev := dev, wire := wire, serial := serial }
  | reg :: rest, dev, wire, serial =>
    if (dev.registers reg).isChanged then
      let serial1 := if dev.debug then serial ++ [SerialEvent.sendingRegister reg.val] else serial
      let (status, wire1) := wire.transmit (dev.singleWriteTransaction reg)
      if status != 0 then
        { ok := false, dev := dev, wire := wire1,
          serial := serial1 ++ [SerialEvent.transmissionError status] }
      else
        sendChangedLoop rest (dev.modifyRegister reg bitStorage.clearChanged) wire1 serial1
    else
      sendChangedLoop rest dev wire serial

/-- The method `sendChangedRegisters`. -/
def sendChangedRegisters (dev : TDA7419) (wire : TwoWire) : SendResult :=
  let serial0 := if dev.debug then [dev.printRegistersDebug, SerialEvent.sendingChanged] else []
  sendChangedLoop allRegisters dev wire serial0

/-! ### Reference descriptions used in the statements -/

/-- The transactions of the changed registers among `regs`, in the order of `regs`,
as `sendChangedRegisters` builds them in state `dev`. -/
def changedTransactions (dev : TDA7419) (regs : List RegIndex) : List Transaction :=
  (regs.filter fun reg => (dev.registers reg).isChanged).map dev.singleWriteTransaction

/-- The state after `clearChanged()` was called on every register of `regs`. -/
def clearRegisters (dev : TDA7419) (regs : List RegIndex) : TDA7419 :=
  { dev with
    registers := fun i => if i ∈ regs then (dev.registers i).clearChanged else dev.registers i }

/-- The "Sending register" lines printed while the changed registers of `regs` are sent. -/
def sendingEvents (dev : TDA7419) (regs : List RegIndex) : List SerialEvent :=
  if dev.debug then
    (regs.filter fun reg => (dev.registers reg).isChanged).map
      fun reg => SerialEvent.sendingRegister reg.val
  else []

end TDA7419

/-! ## Numeric encoders and the level and gain bindings -/

namespace TDA7419

/-- The method `convertVolumeToRegisterValue` (it reads no data member). The result is
stored in a `uint8_t`. -/
def convertVolumeToRegisterValue (volume : Int) : Nat :=
  let volume := if volume < -80 then -80 else volume
  let volume := if volume > 15 then 15 else volume
  if volume ≥ 0 then toUInt8 volume
  else toUInt8 (|volume| + 16)

/-- The method `convertRegisterValueToVolume`: `static_cast<int8_t>(regValue)` below 16,
else `static_cast<int8_t>(regValue - 16) * -1`, stored in an `int8_t`. -/
def convertRegisterValueToVolume (regValue : Nat) : Int :=
  if regValue < 16 then toInt8 regValue
  else toInt8 (toInt8 ((regValue : Int) - 16) * -1)

/-- The method `convertEQLevelToRegisterValue`. The result is stored in a `uint8_t`. -/
def convertEQLevelToRegisterValue (gain : Int) : Nat :=
  let gain := if gain < -15 then -15 else gain
  let gain := if gain > 15 then 15 else gain
  if gain ≥ 0 then toUInt8 ((toUInt8 gain : Int) + 16)
  else toUInt8 |gain|

/-- The method `convertRegisterValueToEQLevel`: `static_cast<int8_t>(regValue) * -1` below
16, else `static_cast<int8_t>(regValue - 16)`, stored in an `int8_t`. -/
def convertRegisterValueToEQLevel (regValue : Nat) : Int :=
  if regValue < 16 then toInt8 (toInt8 regValue * -1)
  else toInt8 ((regValue : Int) - 16)

/-- The setter `setInputGain`. Register 0, bits 3-6. Prints `clampNotice gain clampedGain`. -/
def setInputGain (dev : TDA7419) (gain : Nat) : TDA7419 :=
  let clampedGain := clampv gain MIN_INPUT_GAIN MAX_INPUT_GAIN
  dev.modifyRegister REG_MAIN_SOURCE (fun b => b.writeValueAtBit 3 clampedGain 4)

/-- The getter `getInputGain`. -/
def getInputGain (dev : TDA7419) : Nat :=
  (dev.registers REG_MAIN_SOURCE).readValueAtBit 3 4

/-- The setter `setSecondSourceInputGain`. Register 7, bits 3-6. Prints
`clampNotice gain clampedGain`. -/
def setSecondSourceInputGain (dev : TDA7419) (gain : Nat) : TDA7419 :=
  let clampedGain := clampv gain MIN_INPUT_GAIN MAX_INPUT_GAIN
  dev.modifyRegister REG_SECOND_SOURCE (fun b => b.writeValueAtBit 3 clampedGain 4)

/-- The getter `getSecondSourceInputGain`. -/
def getSecondSourceInputGain (dev : TDA7419) : Nat :=
  (dev.registers REG_SECOND_SOURCE).readValueAtBit 3 4

/-- The setter `setLoudnessAttenuation`. Register 1, bits 0-3. Prints
`clampNotice attenuation clampedAttenuation`. -/
def setLoudnessAttenuation (dev : TDA7419) (attenuation : Nat) : TDA7419 :=
  let clampedAttenuation := clampv attenuation MIN_INPUT_GAIN MAX_INPUT_GAIN
  dev.modifyRegister REG_LOUDNESS_CONTROL (fun b => b.writeValueAtBit 0 clampedAttenuation 4)

/-- The getter `getLoudnessAttenuation`. -/
def getLoudnessAttenuation (dev : TDA7419) : Nat :=
  (dev.registers REG_LOUDNESS_CONTROL).readValueAtBit 0 4

/-- The setter `setMasterVolume`. Register 3, bits 0-6. Prints
`clampNotice volume clampedVolume`. -/
def setMasterVolume (dev : TDA7419) (volume : Int) : TDA7419 :=
  let clampedVolume := clampv volume MIN_SPEAKER_VOLUME MAX_SPEAKER_VOLUME
  dev.modifyRegister REG_MASTER_VOLUME
    (fun b => b.writeValueAtBit 0 (convertVolumeToRegisterValue clampedVolume) 7)

/-- The getter `getMasterVolume`. -/
def getMasterVolume (dev : TDA7419) : Int :=
  convertRegisterValueToVolume ((dev.registers REG_MASTER_VOLUME).readValueAtBit 0 7)

/-- The setter `setTrebleLevel`. Register 4, bits 0-4. Prints
`clampNotice level clampedLevel`. -/
def setTrebleLevel (dev : TDA7419) (level : Int) : TDA7419 :=
  let clampedLevel := clampv level MIN_EQ_LEVEL MAX_EQ_LEVEL
  dev.modifyRegister REG_TREBLE_FILTER
    (fun b => b.writeValueAtBit 0 (convertEQLevelToRegisterValue clampedLevel) 5)

/-- The getter `getTrebleLevel`. -/
def getTrebleLevel (dev : TDA7419) : Int :=
  convertRegisterValueToEQLevel ((dev.registers REG_TREBLE_FILTER).readValueAtBit 0 5)

/-- The setter `setMiddleLevel`. Register 5, bits 0-4. Prints
`clampNotice gain clampedGain`. -/
def setMiddleLevel (dev : TDA7419) (gain : Int) : TDA7419 :=
  let clampedGain := clampv gain MIN_EQ_LEVEL MAX_EQ_LEVEL
  dev.modifyRegister REG_MIDDLE_FILTER
    (fun b => b.writeValueAtBit 0 (convertEQLevelToRegisterValue clampedGain) 5)

/-- The getter `getMiddleLevel`. -/
def getMiddleLevel (dev : TDA7419) : Int :=
  convertRegisterValueToEQLevel ((dev.registers REG_MIDDLE_FILTER).readValueAtBit 0 5)

/-- The setter `setBassLevel`. Register 6, bits 0-4. Prints
`clampNotice level clampedLevel`. -/
def setBassLevel (dev : TDA7419) (level : Int) : TDA7419 :=
  let clampedLevel := clampv level MIN_EQ_LEVEL MAX_EQ_LEVEL
  dev.modifyRegister REG_BASS_FILTER
    (fun b => b.writeValueAtBit 0 (convertEQLevelToRegisterValue clampedLevel) 5)

/-- The getter `getBassLevel`. -/
def getBassLevel (dev : TDA7419) : Int :=
  convertRegisterValueToEQLevel ((dev.registers REG_BASS_FILTER).readValueAtBit 0 5)

/-- The register of a speaker channel:
`index = REG_SPEAKER_LF_LEVEL + static_cast<uint8_t>(channel)`. -/
def speakerIndex (channel : SpeakerChannel) : RegIndex :=
  ⟨(REG_SPEAKER_LF_LEVEL.val + channel.toUInt8) % 256, by cases channel <;> decide⟩

/-- The setter `setSpeakerVolume`. Register 10 + channel, bits 0-6. Prints
`clampNotice volume clampedVolume`. -/
def setSpeakerVolume (dev : TDA7419) (channel : SpeakerChannel) (volume : Int) : TDA7419 :=
  let clampedVolume := clampv volume MIN_SPEAKER_VOLUME MAX_SPEAKER_VOLUME
  dev.modifyRegister (speakerIndex channel)
    (fun b => b.writeValueAtBit 0 (convertVolumeToRegisterValue clampedVolume) 7)

/-- The getter `getSpeakerVolume`. -/
def getSpeakerVolume (dev : TDA7419) (channel : SpeakerChannel) : Int :=
  convertRegisterValueToVolume ((dev.registers (speakerIndex channel)).readValueAtBit 0 7)

/-- The setter `setMixingChannelVolume`. Register 14, bits 0-6. Prints
`clampNotice volume clampedVolume`. -/
def setMixingChannelVolume (dev : TDA7419) (volume : Int) : TDA7419 :=
  let clampedVolume := clampv volume MIN_SPEAKER_VOLUME MAX_SPEAKER_VOLUME
  dev.modifyRegister REG_MIXING_LEVEL
    (fun b => b.writeValueAtBit 0 (convertVolumeToRegisterValue clampedVolume) 7)

/-- The getter `getMixingChannelVolume`. -/
def getMixingChannelVolume (dev : TDA7419) : Int :=
  convertRegisterValueToVolume ((dev.registers REG_MIXING_LEVEL).readValueAtBit 0 7)

/-- The setter `setSubwooferVolume`. Register 15, bits 0-6. Prints
`clampNotice volume clampedVolume`. -/
def setSubwooferVolume (dev : TDA7419) (volume : Int) : TDA7419 :=
  let clampedVolume := clampv volume MIN_SPEAKER_VOLUME MAX_SPEAKER_VOLUME
  dev.modifyRegister REG_SUBWOOFER_LEVEL
    (fun b => b.writeValueAtBit 0 (convertVolumeToRegisterValue clampedVolume) 7)

/-- The getter `getSubwooferVolume`. -/
def getSubwooferVolume (dev : TDA7419) : Int :=
  convertRegisterValueToVolume ((dev.registers REG_SUBWOOFER_LEVEL).readValueAtBit 0 7)

end TDA7419

/-! ## The switch and selection bindings -/

namespace TDA7419

/-- The setter `setAutoZero`. Register 0, bit 7. -/
def setAutoZero (dev : TDA7419) (enable : Bool) : TDA7419 :=
  dev.modifyRegister REG_MAIN_SOURCE (fun b => b.writeValueAtBit 7 (if enable then 1 else 0) 1)

/-- The setter `setLoudnessCenterFreq`. Register 1, bits 4-5. -/
def setLoudnessCenterFreq (dev : TDA7419) (freq : LoudnessCenterFreq) : TDA7419 :=
  dev.modifyRegister REG_LOUDNESS_CONTROL (fun b => b.writeValueAtBit 4 freq.toUInt8 2)

/-- The setter `setLoudnessHighBoost`. Register 1, bit 6. -/
def setLoudnessHighBoost (dev : TDA7419) (enable : Bool) : TDA7419 :=
  dev.modifyRegister REG_LOUDNESS_CONTROL (fun b => b.writeValueAtBit 6 (if enable then 1 else 0) 1)

/-- The setter `setLoudnessSoftStep`. Register 1, bit 7. -/
def setLoudnessSoftStep (dev : TDA7419) (enable : Bool) : TDA7419 :=
  dev.modifyRegister REG_LOUDNESS_CONTROL (fun b => b.writeValueAtBit 7 (if enable then 1 else 0) 1)

/-- The setter `setSoftMute`. Register 2, bit 0. -/
def setSoftMute (dev : TDA7419) (enable : Bool) : TDA7419 :=
  dev.modifyRegister REG_SOFT_MUTE_CONTROL (fun b => b.writeValueAtBit 0 (if enable then 1 else 0) 1)

/-- The setter `setMutePinEnable`. Register 2, bit 1. -/
def setMutePinEnable (dev : TDA7419) (enable : Bool) : TDA7419 :=
  dev.modifyRegister REG_SOFT_MUTE_CONTROL (fun b => b.writeValueAtBit 1 (if enable then 1 else 0) 1)

/-- The setter `setSoftMuteTime`. Register 2, bits 2-3. -/
def setSoftMuteTime (dev : TDA7419) (time : SoftMuteTime) : TDA7419 :=
  dev.modifyRegister REG_SOFT_MUTE_CONTROL (fun b => b.writeValueAtBit 2 time.toUInt8 2)

/-- The setter `setSoftStepTime`. Register 2, bits 4-6. -/
def setSoftStepTime (dev : TDA7419) (time : SoftStepTime) : TDA7419 :=
  dev.modifyRegister REG_SOFT_MUTE_CONTROL (fun b => b.writeValueAtBit 4 time.toUInt8 3)

/-- The setter `setClockFastMode`. Register 2, bit 7. -/
def setClockFastMode (dev : TDA7419) (enable : Bool) : TDA7419 :=
  dev.modifyRegister REG_SOFT_MUTE_CONTROL (fun b => b.writeValueAtBit 7 (if enable then 1 else 0) 1)

/-- The setter `setMasterVolumeSoftStep`. Register 3, bit 7. -/
def setMasterVolumeSoftStep (dev : TDA7419) (enable : Bool) : TDA7419 :=
  dev.modifyRegister REG_MASTER_VOLUME (fun b => b.writeValueAtBit 7 (if enable then 1 else 0) 1)

/-- The setter `setTrebleCenterFreq`. Register 4, bits 5-6. -/
def setTrebleCenterFreq (dev : TDA7419) (freq : TrebleCenterFreq) : TDA7419 :=
  dev.modifyRegister REG_TREBLE_FILTER (fun b => b.writeValueAtBit 5 freq.toUInt8 2)

/-- The setter `setTrebleReferenceInternal`. Register 4, bit 7. -/
def setTrebleReferenceInternal (dev : TDA7419) (useInternalReference : Bool) : TDA7419 :=
  dev.modifyRegister REG_TREBLE_FILTER (fun b => b.writeValueAtBit 7 (if useInternalReference then 1 else 0) 1)

/-- The setter `setMiddleSoftStep`. Register 5, bit 7. -/
def setMiddleSoftStep (dev : TDA7419) (enable : Bool) : TDA7419 :=
  dev.modifyRegister REG_MIDDLE_FILTER (fun b => b.writeValueAtBit 7 (if enable then 1 else 0) 1)

/-- The setter `setMiddleQFactor`. Register 5, bits 5-6. -/
def setMiddleQFactor (dev : TDA7419) (q : MiddleQFactor) : TDA7419 :=
  dev.modifyRegister REG_MIDDLE_FILTER (fun b => b.writeValueAtBit 5 q.toUInt8 2)

/-- The setter `setBassSoftStep`. Register 6, bit 7. -/
def setBassSoftStep (dev : TDA7419) (enable : Bool) : TDA7419 :=
  dev.modifyRegister REG_BASS_FILTER (fun b => b.writeValueAtBit 7 (if enable then 1 else 0) 1)

/-- The setter `setBassQFactor`. Register 6, bits 5-6. -/
def setBassQFactor (dev : TDA7419) (q : BassQFactor) : TDA7419 :=
  dev.modifyRegister REG_BASS_FILTER (fun b => b.writeValueAtBit 5 q.toUInt8 2)

/-- The setter `setSmoothingFilter`. Register 8, bit 7. -/
def setSmoothingFilter (dev : TDA7419) (enable : Bool) : TDA7419 :=
  dev.modifyRegister REG_SUB_MID_BASS (fun b => b.writeValueAtBit 7 (if enable then 1 else 0) 1)

/-- The setter `setBassDcMode`. Register 8, bit 6. -/
def setBassDcMode (dev : TDA7419) (enable : Bool) : TDA7419 :=
  dev.modifyRegister REG_SUB_MID_BASS (fun b => b.writeValueAtBit 6 (if enable then 1 else 0) 1)

/-- The setter `setBassCenterFreq`. Register 8, bits 4-5. -/
def setBassCenterFreq (dev : TDA7419) (freq : BassCenterFreq) : TDA7419 :=
  dev.modifyRegister REG_SUB_MID_BASS (fun b => b.writeValueAtBit 4 freq.toUInt8 2)

/-- The setter `setMiddleCenterFreq`. Register 8, bits 2-3. -/
def setMiddleCenterFreq (dev : TDA7419) (freq : MiddleCenterFreq) : TDA7419 :=
  dev.modifyRegister REG_SUB_MID_BASS (fun b => b.writeValueAtBit 2 freq.toUInt8 2)

/-- The setter `setSubCutoffFreq`. Register 8, bits 0-1. -/
def setSubCutoffFreq (dev : TDA7419) (freq : SubCutoffFreq) : TDA7419 :=
  dev.modifyRegister REG_SUB_MID_BASS (fun b => b.writeValueAtBit 0 freq.toUInt8 2)

/-- The setter `setMixingGainEffect`. Register 9, bits 4-7. -/
def setMixingGainEffect (dev : TDA7419) (effect : MixingGainEffect) : TDA7419 :=
  dev.modifyRegister REG_MIXING_CONTROL (fun b => b.writeValueAtBit 4 effect.toUInt8 4)

/-- The setter `setSubwooferEnable`. Register 9, bit 3. -/
def setSubwooferEnable (dev : TDA7419) (enable : Bool) : TDA7419 :=
  dev.modifyRegister REG_MIXING_CONTROL (fun b => b.writeValueAtBit 3 (if enable then 1 else 0) 1)

/-- The setter `setMixingEnable`. Register 9, bit 2. -/
def setMixingEnable (dev : TDA7419) (enable : Bool) : TDA7419 :=
  dev.modifyRegister REG_MIXING_CONTROL (fun b => b.writeValueAtBit 2 (if enable then 1 else 0) 1)

/-- The setter `setMixToRightFront`. Register 9, bit 1. -/
def setMixToRightFront (dev : TDA7419) (enable : Bool) : TDA7419 :=
  dev.modifyRegister REG_MIXING_CONTROL (fun b => b.writeValueAtBit 1 (if enable then 1 else 0) 1)

/-- The setter `setMixToLeftFront`. Register 9, bit 0. -/
def setMixToLeftFront (dev : TDA7419) (enable : Bool) : TDA7419 :=
  dev.modifyRegister REG_MIXING_CONTROL (fun b => b.writeValueAtBit 0 (if enable then 1 else 0) 1)

/-- The setter `setMixingChannelSoftStep`. Register 14, bit 7. -/
def setMixingChannelSoftStep (dev : TDA7419) (enable : Bool) : TDA7419 :=
  dev.modifyRegister REG_MIXING_LEVEL (fun b => b.writeValueAtBit 7 (if enable then 1 else 0) 1)

/-- The setter `setSubwooferSoftStep`. Register 15, bit 7. -/
def setSubwooferSoftStep (dev : TDA7419) (enable : Bool) : TDA7419 :=
  dev.modifyRegister REG_SUBWOOFER_LEVEL (fun b => b.writeValueAtBit 7 (if enable then 1 else 0) 1)

/-- The setter `setSpectrumCouplingMode`. Register 16, bits 6-7. -/
def setSpectrumCouplingMode (dev : TDA7419) (mode : SpectrumCouplingMode) : TDA7419 :=
  dev.modifyRegister REG_SPECTRUM_ANALYZER (fun b => b.writeValueAtBit 6 mode.toUInt8 2)

/-- The setter `setExternalClock`. Register 16, bit 5. -/
def setExternalClock (dev : TDA7419) (useExternal : Bool) : TDA7419 :=
  dev.modifyRegister REG_SPECTRUM_ANALYZER (fun b => b.writeValueAtBit 5 (if useExternal then 1 else 0) 1)

/-- The setter `setSpectrumReset`. Register 16, bit 4. -/
def setSpectrumReset (dev : TDA7419) (enable : Bool) : TDA7419 :=
  dev.modifyRegister REG_SPECTRUM_ANALYZER (fun b => b.writeValueAtBit 4 (if enable then 1 else 0) 1)

/-- The setter `setSpectrumRun`. Register 16, bit 3. -/
def setSpectrumRun (dev : TDA7419) (enable : Bool) : TDA7419 :=
  dev.modifyRegister REG_SPECTRUM_ANALYZER (fun b => b.writeValueAtBit 3 (if enable then 1 else 0) 1)

/-- The setter `setSpectrumSource`. Register 16, bit 2. -/
def setSpectrumSource (dev : TDA7419) (source : SpectrumSource) : TDA7419 :=
  dev.modifyRegister REG_SPECTRUM_ANALYZER (fun b => b.writeValueAtBit 2 source.toUInt8 1)

/-- The setter `setSpectrumAutoReset`. Register 16, bit 1. -/
def setSpectrumAutoReset (dev : TDA7419) (enable : Bool) : TDA7419 :=
  dev.modifyRegister REG_SPECTRUM_ANALYZER (fun b => b.writeValueAtBit 1 (if enable then 1 else 0) 1)

/-- The setter `setSpectrumFilterQ`. Register 16, bit 0. -/
def setSpectrumFilterQ (dev : TDA7419) (filterQ : SpectrumFilterQ) : TDA7419 :=
  dev.modifyRegister REG_SPECTRUM_ANALYZER (fun b => b.writeValueAtBit 0 filterQ.toUInt8 1)

/-- The setter `setSpeakerSoftStep`. Register 10 + channel, bit 7. -/
def setSpeakerSoftStep (dev : TDA7419) (channel : SpeakerChannel) (enable : Bool) : TDA7419 :=
  dev.modifyRegister (speakerIndex channel)
    (fun b => b.writeValueAtBit 7 (if enable then 1 else 0) 1)

end TDA7419

/-! ## Sequences of public operations -/

/-- A call of one public setter, with its arguments. -/
inductive SetterCall where
  | setMainSource (source : InputSource)
  | setInputGain (gain : Nat)
  | setRearSpeakerSource (source : RearSpeakerSource)
  | setSecondSource (source : InputSource)
  | setSecondSourceInputGain (gain : Nat)
  | setLoudnessAttenuation (attenuation : Nat)
  | setMasterVolume (volume : Int)
  | setTrebleLevel (level : Int)
  | setMiddleLevel (gain : Int)
  | setBassLevel (level : Int)
  | setSpeakerSoftStep (channel : SpeakerChannel) (enable : Bool)
  | setSpeakerVolume (channel : SpeakerChannel) (volume : Int)
  | setMixingChannelVolume (volume : Int)
  | setSubwooferVolume (volume : Int)
  | setAutoZero (enable : Bool)
  | setLoudnessCenterFreq (freq : LoudnessCenterFreq)
  | setLoudnessHighBoost (enable : Bool)
  | setLoudnessSoftStep (enable : Bool)
  | setSoftMute (enable : Bool)
  | setMutePinEnable (enable : Bool)
  | setSoftMuteTime (time : SoftMuteTime)
  | setSoftStepTime (time : SoftStepTime)
  | setClockFastMode (enable : Bool)
  | setMasterVolumeSoftStep (enable : Bool)
  | setTrebleCenterFreq (freq : TrebleCenterFreq)
  | setTrebleReferenceInternal (useInternalReference : Bool)
  | setMiddleSoftStep (enable : Bool)
  | setMiddleQFactor (q : MiddleQFactor)
  | setBassSoftStep (enable : Bool)
  | setBassQFactor (q : BassQFactor)
  | setSmoothingFilter (enable : Bool)
  | setBassDcMode (enable : Bool)
  | setBassCenterFreq (freq : BassCenterFreq)
  | setMiddleCenterFreq (freq : MiddleCenterFreq)
  | setSubCutoffFreq (freq : SubCutoffFreq)
  | setMixingGainEffect (effect : MixingGainEffect)
  | setSubwooferEnable (enable : Bool)
  | setMixingEnable (enable : Bool)
  | setMixToRightFront (enable : Bool)
  | setMixToLeftFront (enable : Bool)
  | setMixingChannelSoftStep (enable : Bool)
  | setSubwooferSoftStep (enable : Bool)
  | setSpectrumCouplingMode (mode : SpectrumCouplingMode)
  | setExternalClock (useExternal : Bool)
  | setSpectrumReset (enable : Bool)
  | setSpectrumRun (enable : Bool)
  | setSpectrumSource (source : SpectrumSource)
  | setSpectrumAutoReset (enable : Bool)
  | setSpectrumFilterQ (filterQ : SpectrumFilterQ)

/-- A public operation that can change the driver state: a setter call, an assignment to
the public member `debug`, or a send operation on some transport. -/
inductive Operation where
  | setter (call : SetterCall)
  | assignDebug (value : Bool)
  | begin (wire : TwoWire)
  | sendAllRegisters (wire : TwoWire)
  | sendChangedRegisters (wire : TwoWire)

namespace TDA7419

/-- The driver state after the setter call `call`. -/
def applySetter (dev : TDA7419) (call : SetterCall) : TDA7419 :=
  match call with
  | .setMainSource source => dev.setMainSource source
  | .setInputGain gain => dev.setInputGain gain
  | .setRearSpeakerSource source => dev.setRearSpeakerSource source
  | .setSecondSource source => dev.setSecondSource source
  | .setSecondSourceInputGain gain => dev.setSecondSourceInputGain gain
  | .setLoudnessAttenuation attenuation => dev.setLoudnessAttenuation attenuation
  | .setMasterVolume volume => dev.setMasterVolume volume
  | .setTrebleLevel level => dev.setTrebleLevel level
  | .setMiddleLevel gain => dev.setMiddleLevel gain
  | .setBassLevel level => dev.setBassLevel level
  | .setSpeakerSoftStep channel enable => dev.setSpeakerSoftStep channel enable
  | .setSpeakerVolume channel volume => dev.setSpeakerVolume channel volume
  | .setMixingChannelVolume volume => dev.setMixingChannelVolume volume
  | .setSubwooferVolume volume => dev.setSubwooferVolume volume
  | .setAutoZero enable => dev.setAutoZero enable
  | .setLoudnessCenterFreq freq => dev.setLoudnessCenterFreq freq
  | .setLoudnessHighBoost enable => dev.setLoudnessHighBoost enable
  | .setLoudnessSoftStep enable => dev.setLoudnessSoftStep enable
  | .setSoftMute enable => dev.setSoftMute enable
  | .setMutePinEnable enable => dev.setMutePinEnable enable
  | .setSoftMuteTime time => dev.setSoftMuteTime time
  | .setSoftStepTime time => dev.setSoftStepTime time
  | .setClockFastMode enable => dev.setClockFastMode enable
  | .setMasterVolumeSoftStep enable => dev.setMasterVolumeSoftStep enable
  | .setTrebleCenterFreq freq => dev.setTrebleCenterFreq freq
  | .setTrebleReferenceInternal useInternalReference => dev.setTrebleReferenceInternal useInternalReference
  | .setMiddleSoftStep enable => dev.setMiddleSoftStep enable
  | .setMiddleQFactor q => dev.setMiddleQFactor q
  | .setBassSoftStep enable => dev.setBassSoftStep enable
  | .setBassQFactor q => dev.setBassQFactor q
  | .setSmoothingFilter enable => dev.setSmoothingFilter enable
  | .setBassDcMode enable => dev.setBassDcMode enable
  | .setBassCenterFreq freq => dev.setBassCenterFreq freq
  | .setMiddleCenterFreq freq => dev.setMiddleCenterFreq freq
  | .setSubCutoffFreq freq => dev.setSubCutoffFreq freq
  | .setMixingGainEffect effect => dev.setMixingGainEffect effect
  | .setSubwooferEnable enable => dev.setSubwooferEnable enable
  | .setMixingEnable enable => dev.setMixingEnable enable
  | .setMixToRightFront enable => dev.setMixToRightFront enable
  | .setMixToLeftFront enable => dev.setMixToLeftFront enable
  | .setMixingChannelSoftStep enable => dev.setMixingChannelSoftStep enable
  | .setSubwooferSoftStep enable => dev.setSubwooferSoftStep enable
  | .setSpectrumCouplingMode mode => dev.setSpectrumCouplingMode mode
  | .setExternalClock useExternal => dev.setExternalClock useExternal
  | .setSpectrumReset enable => dev.setSpectrumReset enable
  | .setSpectrumRun enable => dev.setSpectrumRun enable
  | .setSpectrumSource source => dev.setSpectrumSource source
  | .setSpectrumAutoReset enable => dev.setSpectrumAutoReset enable
  | .setSpectrumFilterQ filterQ => dev.setSpectrumFilterQ filterQ

/-- The driver state after the operation `op`. -/
def applyOperation (dev : TDA7419) (op : Operation) : TDA7419 :=
  match op with
  | .setter call => dev.applySetter call
  | .assignDebug value => { dev with debug := value }
  | .begin wire => (dev.begin wire).dev
  | .sendAllRegisters wire => (dev.sendAllRegisters wire).dev
  | .sendChangedRegisters wire => (dev.sendChangedRegisters wire).dev

/-- The driver state after the operations `ops`, performed in order from the left. -/
def run (dev : TDA7419) (ops : List Operation) : TDA7419 :=
  ops.foldl applyOperation dev

end TDA7419

/-- The registers whose bits [6:0] hold a volume code: register 3 and registers 10 to 15. -/
def isVolumeRegister (reg : RegIndex) : Bool :=
  reg = REG_MASTER_VOLUME || (decide (10 ≤ reg.val) && decide (reg.val ≤ 15))

/-- Every volume register holds a code of at most 96 in bits [6:0]. -/
def volumeCodesValid (dev : TDA7419) : Prop :=
  ∀ reg : RegIndex, isVolumeRegister reg = true → (dev.registers reg).value_ % 128 ≤ 96

/-! ## The remaining getters -/

namespace TDA7419

/-- The getter `getMainSource`: the underlying `uint8_t` of the `InputSource` it returns,
`static_cast<InputSource>(readValueAtBit(0, 3))`. -/
def getMainSource (dev : TDA7419) : Nat :=
  (dev.registers REG_MAIN_SOURCE).readValueAtBit 0 3

/-- The getter `getRearSpeakerSource`: the underlying `uint8_t` of the `RearSpeakerSource` it returns,
`static_cast<RearSpeakerSource>(readValueAtBit(7, 1))`. -/
def getRearSpeakerSource (dev : TDA7419) : Nat :=
  (dev.registers REG_SECOND_SOURCE).readValueAtBit 7 1

/-- The getter `getSecondSource`: the underlying `uint8_t` of the `InputSource` it returns,
`static_cast<InputSource>(readValueAtBit(0, 3))`. -/
def getSecondSource (dev : TDA7419) : Nat :=
  (dev.registers REG_SECOND_SOURCE).readValueAtBit 0 3

/-- The getter `getAutoZero`: `readValueAtBit(7, 1) != 0`. -/
def getAutoZero (dev : TDA7419) : Bool :=
  (dev.registers REG_MAIN_SOURCE).readValueAtBit 7 1 != 0

/-- The getter `getLoudnessCenterFreq`: the underlying `uint8_t` of the `LoudnessCenterFreq` it returns,
`static_cast<LoudnessCenterFreq>(readValueAtBit(4, 2))`. -/
def getLoudnessCenterFreq (dev : TDA7419) : Nat :=
  (dev.registers REG_LOUDNESS_CONTROL).readValueAtBit 4 2

/-- The getter `getLoudnessHighBoost`: `readValueAtBit(6, 1) != 0`. -/
def getLoudnessHighBoost (dev : TDA7419) : Bool :=
  (dev.registers REG_LOUDNESS_CONTROL).readValueAtBit 6 1 != 0

/-- The getter `getLoudnessSoftStep`: `readValueAtBit(7, 1) != 0`. -/
def getLoudnessSoftStep (dev : TDA7419) : Bool :=
  (dev.registers REG_LOUDNESS_CONTROL).readValueAtBit 7 1 != 0

/-- The getter `getSoftMute`: `readValueAtBit(0, 1) != 0`. -/
def getSoftMute (dev : TDA7419) : Bool :=
  (dev.registers REG_SOFT_MUTE_CONTROL).readValueAtBit 0 1 != 0

/-- The getter `getMutePinEnable`: `readValueAtBit(1, 1) != 0`. -/
def getMutePinEnable (dev : TDA7419) : Bool :=
  (dev.registers REG_SOFT_MUTE_CONTROL).readValueAtBit 1 1 != 0

/-- The getter `getSoftMuteTime`: the underlying `uint8_t` of the `SoftMuteTime` it returns,
`static_cast<SoftMuteTime>(readValueAtBit(2, 2))`. -/
def getSoftMuteTime (dev : TDA7419) : Nat :=
  (dev.registers REG_SOFT_MUTE_CONTROL).readValueAtBit 2 2

/-- The getter `getSoftStepTime`: the underlying `uint8_t` of the `SoftStepTime` it returns,
`static_cast<SoftStepTime>(readValueAtBit(4, 3))`. -/
def getSoftStepTime (dev : TDA7419) : Nat :=
  (dev.registers REG_SOFT_MUTE_CONTROL).readValueAtBit 4 3

/-- The getter `getClockFastMode`: `readValueAtBit(7, 1) != 0`. -/
def getClockFastMode (dev : TDA7419) : Bool :=
  (dev.registers REG_SOFT_MUTE_CONTROL).readValueAtBit 7 1 != 0

/-- The getter `getMasterVolumeSoftStep`: `readValueAtBit(7, 1) != 0`. -/
def getMasterVolumeSoftStep (dev : TDA7419) : Bool :=
  (dev.registers REG_MASTER_VOLUME).readValueAtBit 7 1 != 0

/-- The getter `getTrebleCenterFreq`: the underlying `uint8_t` of the `TrebleCenterFreq` it returns,
`static_cast<TrebleCenterFreq>(readValueAtBit(5, 2))`. -/
def getTrebleCenterFreq (dev : TDA7419) : Nat :=
  (dev.registers REG_TREBLE_FILTER).readValueAtBit 5 2

/-- The getter `getTrebleReferenceInternal`: `readValueAtBit(7, 1) != 0`. -/
def getTrebleReferenceInternal (dev : TDA7419) : Bool :=
  (dev.registers REG_TREBLE_FILTER).readValueAtBit 7 1 != 0

/-- The getter `getMiddleSoftStepEnabled`: `readValueAtBit(7, 1) != 0`. -/
def getMiddleSoftStepEnabled (dev : TDA7419) : Bool :=
  (dev.registers REG_MIDDLE_FILTER).readValueAtBit 7 1 != 0

/-- The getter `getMiddleQFactor`: the underlying `uint8_t` of the `MiddleQFactor` it returns,
`static_cast<MiddleQFactor>(readValueAtBit(5, 2))`. -/
def getMiddleQFactor (dev : TDA7419) : Nat :=
  (dev.registers REG_MIDDLE_FILTER).readValueAtBit 5 2

/-- The getter `getBassSoftStep`: `readValueAtBit(7, 1) != 0`. -/
def getBassSoftStep (dev : TDA7419) : Bool :=
  (dev.registers REG_BASS_FILTER).readValueAtBit 7 1 != 0

/-- The getter `getBassQFactor`: the underlying `uint8_t` of the `BassQFactor` it returns,
`static_cast<BassQFactor>(readValueAtBit(5, 2))`. -/
def getBassQFactor (dev : TDA7419) : Nat :=
  (dev.registers REG_BASS_FILTER).readValueAtBit 5 2

/-- The getter `getSmoothingFilter`: `readValueAtBit(7, 1) != 0`. -/
def getSmoothingFilter (dev : TDA7419) : Bool :=
  (dev.registers REG_SUB_MID_BASS).readValueAtBit 7 1 != 0

/-- The getter `getBassDcMode`: `readValueAtBit(6, 1) != 0`. -/
def getBassDcMode (dev : TDA7419) : Bool :=
  (dev.registers REG_SUB_MID_BASS).readValueAtBit 6 1 != 0

/-- The getter `getBassCenterFreq`: the underlying `uint8_t` of the `BassCenterFreq` it returns,
`static_cast<BassCenterFreq>(readValueAtBit(4, 2))`. -/
def getBassCenterFreq (dev : TDA7419) : Nat :=
  (dev.registers REG_SUB_MID_BASS).readValueAtBit 4 2

/-- The getter `getMiddleCenterFreq`: the underlying `uint8_t` of the `MiddleCenterFreq` it returns,
`static_cast<MiddleCenterFreq>(readValueAtBit(2, 2))`. -/
def getMiddleCenterFreq (dev : TDA7419) : Nat :=
  (dev.registers REG_SUB_MID_BASS).readValueAtBit 2 2

/-- The getter `getSubCutoffFreq`: the underlying `uint8_t` of the `SubCutoffFreq` it returns,
`static_cast<SubCutoffFreq>(readValueAtBit(0, 2))`. -/
def getSubCutoffFreq (dev : TDA7419) : Nat :=
  (dev.registers REG_SUB_MID_BASS).readValueAtBit 0 2

/-- The getter `getMixingGainEffect`: the underlying `uint8_t` of the `MixingGainEffect` it returns,
`static_cast<MixingGainEffect>(readValueAtBit(4, 4))`. -/
def getMixingGainEffect (dev : TDA7419) : Nat :=
  (dev.registers REG_MIXING_CONTROL).readValueAtBit 4 4

/-- The getter `getSubwooferEnable`: `readValueAtBit(3, 1) != 0`. -/
def getSubwooferEnable (dev : TDA7419) : Bool :=
  (dev.registers REG_MIXING_CONTROL).readValueAtBit 3 1 != 0

/-- The getter `getMixingEnable`: `readValueAtBit(2, 1) != 0`. -/
def getMixingEnable (dev : TDA7419) : Bool :=
  (dev.registers REG_MIXING_CONTROL).readValueAtBit 2 1 != 0

/-- The getter `getMixToRightFront`: `readValueAtBit(1, 1) != 0`. -/
def getMixToRightFront (dev : TDA7419) : Bool :=
  (dev.registers REG_MIXING_CONTROL).readValueAtBit 1 1 != 0

/-- The getter `getMixToLeftFront`: `readValueAtBit(0, 1) != 0`. -/
def getMixToLeftFront (dev : TDA7419) : Bool :=
  (dev.registers REG_MIXING_CONTROL).readValueAtBit 0 1 != 0

/-- The getter `getSpeakerSoftStep`: `readValueAtBit(7, 1) != 0`. -/
def getSpeakerSoftStep (dev : TDA7419) (channel : SpeakerChannel) : Bool :=
  (dev.registers (speakerIndex channel)).readValueAtBit 7 1 != 0

/-- The getter `getMixingChannelSoftStep`: `readValueAtBit(7, 1) != 0`. -/
def getMixingChannelSoftStep (dev : TDA7419) : Bool :=
  (dev.registers REG_MIXING_LEVEL).readValueAtBit 7 1 != 0

/-- The getter `getSubwooferSoftStep`: `readValueAtBit(7, 1) != 0`. -/
def getSubwooferSoftStep (dev : TDA7419) : Bool :=
  (dev.registers REG_SUBWOOFER_LEVEL).readValueAtBit 7 1 != 0

/-- The getter `getSpectrumCouplingMode`: the underlying `uint8_t` of the `SpectrumCouplingMode` it returns,
`static_cast<SpectrumCouplingMode>(readValueAtBit(6, 2))`. -/
def getSpectrumCouplingMode (dev : TDA7419) : Nat :=
  (dev.registers REG_SPECTRUM_ANALYZER).readValueAtBit 6 2

/-- The getter `getExternalClock`: `readValueAtBit(5, 1) != 0`. -/
def getExternalClock (dev : TDA7419) : Bool :=
  (dev.registers REG_SPECTRUM_ANALYZER).readValueAtBit 5 1 != 0

/-- The getter `getSpectrumReset`: `readValueAtBit(4, 1) != 0`. -/
def getSpectrumReset (dev : TDA7419) : Bool :=
  (dev.registers REG_SPECTRUM_ANALYZER).readValueAtBit 4 1 != 0

/-- The getter `getSpectrumRun`: `readValueAtBit(3, 1) != 0`. -/
def getSpectrumRun (dev : TDA7419) : Bool :=
  (dev.registers REG_SPECTRUM_ANALYZER).readValueAtBit 3 1 != 0

/-- The getter `getSpectrumSource`: the underlying `uint8_t` of the `SpectrumSource` it returns,
`static_cast<SpectrumSource>(readValueAtBit(2, 1))`. -/
def getSpectrumSource (dev : TDA7419) : Nat :=
  (dev.registers REG_SPECTRUM_ANALYZER).readValueAtBit 2 1

/-- The getter `getSpectrumAutoReset`: `readValueAtBit(1, 1) != 0`. -/
def getSpectrumAutoReset (dev : TDA7419) : Bool :=
  (dev.registers REG_SPECTRUM_ANALYZER).readValueAtBit 1 1 != 0

/-- The getter `getSpectrumFilterQ`: the underlying `uint8_t` of the `SpectrumFilterQ` it returns,
`static_cast<SpectrumFilterQ>(readValueAtBit(0, 1))`. -/
def getSpectrumFilterQ (dev : TDA7419) : Nat :=
  (dev.registers REG_SPECTRUM_ANALYZER).readValueAtBit 0 1

end TDA7419

/-! ## The parameter bindings -/

/-- The identity of a parameter binding: register index, bit offset and bit length. -/
structure BitRange where
  reg : RegIndex
  pos : Nat
  len : Nat
deriving DecidableEq, Repr

/-- Two bit ranges lie in different registers or share no bit. -/
def BitRange.disjoint (r s : BitRange) : Bool :=
  decide (r.reg ≠ s.reg) || decide (r.pos + r.len ≤ s.pos) || decide (s.pos + s.len ≤ r.pos)

/-- The bit range is valid for `writeValueAtBit` and `readValueAtBit`. -/
def BitRange.valid (r : BitRange) : Bool := decide (1 ≤ r.len) && decide (r.pos + r.len ≤ 8)

/-- The bit range a setter call hands to `writeValueAtBit`. -/
def SetterCall.range : SetterCall → BitRange
  | .setMainSource _ => ⟨REG_MAIN_SOURCE, 0, 3⟩
  | .setInputGain _ => ⟨REG_MAIN_SOURCE, 3, 4⟩
  | .setRearSpeakerSource _ => ⟨REG_SECOND_SOURCE, 7, 1⟩
  | .setSecondSource _ => ⟨REG_SECOND_SOURCE, 0, 3⟩
  | .setSecondSourceInputGain _ => ⟨REG_SECOND_SOURCE, 3, 4⟩
  | .setLoudnessAttenuation _ => ⟨REG_LOUDNESS_CONTROL, 0, 4⟩
  | .setMasterVolume _ => ⟨REG_MASTER_VOLUME, 0, 7⟩
  | .setTrebleLevel _ => ⟨REG_TREBLE_FILTER, 0, 5⟩
  | .setMiddleLevel _ => ⟨REG_MIDDLE_FILTER, 0, 5⟩
  | .setBassLevel _ => ⟨REG_BASS_FILTER, 0, 5⟩
  | .setSpeakerSoftStep channel _ => ⟨TDA7419.speakerIndex channel, 7, 1⟩
  | .setSpeakerVolume channel _ => ⟨TDA7419.speakerIndex channel, 0, 7⟩
  | .setMixingChannelVolume _ => ⟨REG_MIXING_LEVEL, 0, 7⟩
  | .setSubwooferVolume _ => ⟨REG_SUBWOOFER_LEVEL, 0, 7⟩
  | .setAutoZero _ => ⟨REG_MAIN_SOURCE, 7, 1⟩
  | .setLoudnessCenterFreq _ => ⟨REG_LOUDNESS_CONTROL, 4, 2⟩
  | .setLoudnessHighBoost _ => ⟨REG_LOUDNESS_CONTROL, 6, 1⟩
  | .setLoudnessSoftStep _ => ⟨REG_LOUDNESS_CONTROL, 7, 1⟩
  | .setSoftMute _ => ⟨REG_SOFT_MUTE_CONTROL, 0, 1⟩
  | .setMutePinEnable _ => ⟨REG_SOFT_MUTE_CONTROL, 1, 1⟩
  | .setSoftMuteTime _ => ⟨REG_SOFT_MUTE_CONTROL, 2, 2⟩
  | .setSoftStepTime _ => ⟨REG_SOFT_MUTE_CONTROL, 4, 3⟩
  | .setClockFastMode _ => ⟨REG_SOFT_MUTE_CONTROL, 7, 1⟩
  | .setMasterVolumeSoftStep _ => ⟨REG_MASTER_VOLUME, 7, 1⟩
  | .setTrebleCenterFreq _ => ⟨REG_TREBLE_FILTER, 5, 2⟩
  | .setTrebleReferenceInternal _ => ⟨REG_TREBLE_FILTER, 7, 1⟩
  | .setMiddleSoftStep _ => ⟨REG_MIDDLE_FILTER, 7, 1⟩
  | .setMiddleQFactor _ => ⟨REG_MIDDLE_FILTER, 5, 2⟩
  | .setBassSoftStep _ => ⟨REG_BASS_FILTER, 7, 1⟩
  | .setBassQFactor _ => ⟨REG_BASS_FILTER, 5, 2⟩
  | .setSmoothingFilter _ => ⟨REG_SUB_MID_BASS, 7, 1⟩
  | .setBassDcMode _ => ⟨REG_SUB_MID_BASS, 6, 1⟩
  | .setBassCenterFreq _ => ⟨REG_SUB_MID_BASS, 4, 2⟩
  | .setMiddleCenterFreq _ => ⟨REG_SUB_MID_BASS, 2, 2⟩
  | .setSubCutoffFreq _ => ⟨REG_SUB_MID_BASS, 0, 2⟩
  | .setMixingGainEffect _ => ⟨REG_MIXING_CONTROL, 4, 4⟩
  | .setSubwooferEnable _ => ⟨REG_MIXING_CONTROL, 3, 1⟩
  | .setMixingEnable _ => ⟨REG_MIXING_CONTROL, 2, 1⟩
  | .setMixToRightFront _ => ⟨REG_MIXING_CONTROL, 1, 1⟩
  | .setMixToLeftFront _ => ⟨REG_MIXING_CONTROL, 0, 1⟩
  | .setMixingChannelSoftStep _ => ⟨REG_MIXING_LEVEL, 7, 1⟩
  | .setSubwooferSoftStep _ => ⟨REG_SUBWOOFER_LEVEL, 7, 1⟩
  | .setSpectrumCouplingMode _ => ⟨REG_SPECTRUM_ANALYZER, 6, 2⟩
  | .setExternalClock _ => ⟨REG_SPECTRUM_ANALYZER, 5, 1⟩
  | .setSpectrumReset _ => ⟨REG_SPECTRUM_ANALYZER, 4, 1⟩
  | .setSpectrumRun _ => ⟨REG_SPECTRUM_ANALYZER, 3, 1⟩
  | .setSpectrumSource _ => ⟨REG_SPECTRUM_ANALYZER, 2, 1⟩
  | .setSpectrumAutoReset _ => ⟨REG_SPECTRUM_ANALYZER, 1, 1⟩
  | .setSpectrumFilterQ _ => ⟨REG_SPECTRUM_ANALYZER, 0, 1⟩

/-- The value a setter call hands to `writeValueAtBit`. -/
def SetterCall.code : SetterCall → Nat
  | .setMainSource source => source.toUInt8
  | .setInputGain gain => (clampv gain MIN_INPUT_GAIN MAX_INPUT_GAIN)
  | .setRearSpeakerSource source => source.toUInt8
  | .setSecondSource source => source.toUInt8
  | .setSecondSourceInputGain gain => (clampv gain MIN_INPUT_GAIN MAX_INPUT_GAIN)
  | .setLoudnessAttenuation attenuation => (clampv attenuation MIN_INPUT_GAIN MAX_INPUT_GAIN)
  | .setMasterVolume volume => (TDA7419.convertVolumeToRegisterValue (clampv volume MIN_SPEAKER_VOLUME MAX_SPEAKER_VOLUME))
  | .setTrebleLevel level => (TDA7419.convertEQLevelToRegisterValue (clampv level MIN_EQ_LEVEL MAX_EQ_LEVEL))
  | .setMiddleLevel gain => (TDA7419.convertEQLevelToRegisterValue (clampv gain MIN_EQ_LEVEL MAX_EQ_LEVEL))
  | .setBassLevel level => (TDA7419.convertEQLevelToRegisterValue (clampv level MIN_EQ_LEVEL MAX_EQ_LEVEL))
  | .setSpeakerSoftStep _ enable => (if enable then 1 else 0)
  | .setSpeakerVolume _ volume => (TDA7419.convertVolumeToRegisterValue (clampv volume MIN_SPEAKER_VOLUME MAX_SPEAKER_VOLUME))
  | .setMixingChannelVolume volume => (TDA7419.convertVolumeToRegisterValue (clampv volume MIN_SPEAKER_VOLUME MAX_SPEAKER_VOLUME))
  | .setSubwooferVolume volume => (TDA7419.convertVolumeToRegisterValue (clampv volume MIN_SPEAKER_VOLUME MAX_SPEAKER_VOLUME))
  | .setAutoZero enable => (if enable then 1 else 0)
  | .setLoudnessCenterFreq freq => freq.toUInt8
  | .setLoudnessHighBoost enable => (if enable then 1 else 0)
  | .setLoudnessSoftStep enable => (if enable then 1 else 0)
  | .setSoftMute enable => (if enable then 1 else 0)
  | .setMutePinEnable enable => (if enable then 1 else 0)
  | .setSoftMuteTime time => time.toUInt8
  | .setSoftStepTime time => time.toUInt8
  | .setClockFastMode enable => (if enable then 1 else 0)
  | .setMasterVolumeSoftStep enable => (if enable then 1 else 0)
  | .setTrebleCenterFreq freq => freq.toUInt8
  | .setTrebleReferenceInternal useInternalReference => (if useInternalReference then 1 else 0)
  | .setMiddleSoftStep enable => (if enable then 1 else 0)
  | .setMiddleQFactor q => q.toUInt8
  | .setBassSoftStep enable => (if enable then 1 else 0)
  | .setBassQFactor q => q.toUInt8
  | .setSmoothingFilter enable => (if enable then 1 else 0)
  | .setBassDcMode enable => (if enable then 1 else 0)
  | .setBassCenterFreq freq => freq.toUInt8
  | .setMiddleCenterFreq freq => freq.toUInt8
  | .setSubCutoffFreq freq => freq.toUInt8
  | .setMixingGainEffect effect => effect.toUInt8
  | .setSubwooferEnable enable => (if enable then 1 else 0)
  | .setMixingEnable enable => (if enable then 1 else 0)
  | .setMixToRightFront enable => (if enable then 1 else 0)
  | .setMixToLeftFront enable => (if enable then 1 else 0)
  | .setMixingChannelSoftStep enable => (if enable then 1 else 0)
  | .setSubwooferSoftStep enable => (if enable then 1 else 0)
  | .setSpectrumCouplingMode mode => mode.toUInt8
  | .setExternalClock useExternal => (if useExternal then 1 else 0)
  | .setSpectrumReset enable => (if enable then 1 else 0)
  | .setSpectrumRun enable => (if enable then 1 else 0)
  | .setSpectrumSource source => source.toUInt8
  | .setSpectrumAutoReset enable => (if enable then 1 else 0)
  | .setSpectrumFilterQ filterQ => filterQ.toUInt8

/-- A call of one public getter, with its argument. -/
inductive GetterCall where
  | getMainSource
  | getInputGain
  | getRearSpeakerSource
  | getSecondSource
  | getSecondSourceInputGain
  | getAutoZero
  | getLoudnessAttenuation
  | getLoudnessCenterFreq
  | getLoudnessHighBoost
  | getLoudnessSoftStep
  | getSoftMute
  | getMutePinEnable
  | getSoftMuteTime
  | getSoftStepTime
  | getClockFastMode
  | getMasterVolumeSoftStep
  | getMasterVolume
  | getTrebleLevel
  | getTrebleCenterFreq
  | getTrebleReferenceInternal
  | getMiddleSoftStepEnabled
  | getMiddleLevel
  | getMiddleQFactor
  | getBassSoftStep
  | getBassLevel
  | getBassQFactor
  | getSmoothingFilter
  | getBassDcMode
  | getBassCenterFreq
  | getMiddleCenterFreq
  | getSubCutoffFreq
  | getMixingGainEffect
  | getSubwooferEnable
  | getMixingEnable
  | getMixToRightFront
  | getMixToLeftFront
  | getSpeakerSoftStep (channel : SpeakerChannel)
  | getSpeakerVolume (channel : SpeakerChannel)
  | getMixingChannelSoftStep
  | getMixingChannelVolume
  | getSubwooferSoftStep
  | getSubwooferVolume
  | getSpectrumCouplingMode
  | getExternalClock
  | getSpectrumReset
  | getSpectrumRun
  | getSpectrumSource
  | getSpectrumAutoReset
  | getSpectrumFilterQ

/-- The bit range a getter call hands to `readValueAtBit`. -/
def GetterCall.range : GetterCall → BitRange
  | .getMainSource => ⟨REG_MAIN_SOURCE, 0, 3⟩
  | .getInputGain => ⟨REG_MAIN_SOURCE, 3, 4⟩
  | .getRearSpeakerSource => ⟨REG_SECOND_SOURCE, 7, 1⟩
  | .getSecondSource => ⟨REG_SECOND_SOURCE, 0, 3⟩
  | .getSecondSourceInputGain => ⟨REG_SECOND_SOURCE, 3, 4⟩
  | .getAutoZero => ⟨REG_MAIN_SOURCE, 7, 1⟩
  | .getLoudnessAttenuation => ⟨REG_LOUDNESS_CONTROL, 0, 4⟩
  | .getLoudnessCenterFreq => ⟨REG_LOUDNESS_CONTROL, 4, 2⟩
  | .getLoudnessHighBoost => ⟨REG_LOUDNESS_CONTROL, 6, 1⟩
  | .getLoudnessSoftStep => ⟨REG_LOUDNESS_CONTROL, 7, 1⟩
  | .getSoftMute => ⟨REG_SOFT_MUTE_CONTROL, 0, 1⟩
  | .getMutePinEnable => ⟨REG_SOFT_MUTE_CONTROL, 1, 1⟩
  | .getSoftMuteTime => ⟨REG_SOFT_MUTE_CONTROL, 2, 2⟩
  | .getSoftStepTime => ⟨REG_SOFT_MUTE_CONTROL, 4, 3⟩
  | .getClockFastMode => ⟨REG_SOFT_MUTE_CONTROL, 7, 1⟩
  | .getMasterVolumeSoftStep => ⟨REG_MASTER_VOLUME, 7, 1⟩
  | .getMasterVolume => ⟨REG_MASTER_VOLUME, 0, 7⟩
  | .getTrebleLevel => ⟨REG_TREBLE_FILTER, 0, 5⟩
  | .getTrebleCenterFreq => ⟨REG_TREBLE_FILTER, 5, 2⟩
  | .getTrebleReferenceInternal => ⟨REG_TREBLE_FILTER, 7, 1⟩
  | .getMiddleSoftStepEnabled => ⟨REG_MIDDLE_FILTER, 7, 1⟩
  | .getMiddleLevel => ⟨REG_MIDDLE_FILTER, 0, 5⟩
  | .getMiddleQFactor => ⟨REG_MIDDLE_FILTER, 5, 2⟩
  | .getBassSoftStep => ⟨REG_BASS_FILTER, 7, 1⟩
  | .getBassLevel => ⟨REG_BASS_FILTER, 0, 5⟩
  | .getBassQFactor => ⟨REG_BASS_FILTER, 5, 2⟩
  | .getSmoothingFilter => ⟨REG_SUB_MID_BASS, 7, 1⟩
  | .getBassDcMode => ⟨REG_SUB_MID_BASS, 6, 1⟩
  | .getBassCenterFreq => ⟨REG_SUB_MID_BASS, 4, 2⟩
  | .getMiddleCenterFreq => ⟨REG_SUB_MID_BASS, 2, 2⟩
  | .getSubCutoffFreq => ⟨REG_SUB_MID_BASS, 0, 2⟩
  | .getMixingGainEffect => ⟨REG_MIXING_CONTROL, 4, 4⟩
  | .getSubwooferEnable => ⟨REG_MIXING_CONTROL, 3, 1⟩
  | .getMixingEnable => ⟨REG_MIXING_CONTROL, 2, 1⟩
  | .getMixToRightFront => ⟨REG_MIXING_CONTROL, 1, 1⟩
  | .getMixToLeftFront => ⟨REG_MIXING_CONTROL, 0, 1⟩
  | .getSpeakerSoftStep channel => ⟨TDA7419.speakerIndex channel, 7, 1⟩
  | .getSpeakerVolume channel => ⟨TDA7419.speakerIndex channel, 0, 7⟩
  | .getMixingChannelSoftStep => ⟨REG_MIXING_LEVEL, 7, 1⟩
  | .getMixingChannelVolume => ⟨REG_MIXING_LEVEL, 0, 7⟩
  | .getSubwooferSoftStep => ⟨REG_SUBWOOFER_LEVEL, 7, 1⟩
  | .getSubwooferVolume => ⟨REG_SUBWOOFER_LEVEL, 0, 7⟩
  | .getSpectrumCouplingMode => ⟨REG_SPECTRUM_ANALYZER, 6, 2⟩
  | .getExternalClock => ⟨REG_SPECTRUM_ANALYZER, 5, 1⟩
  | .getSpectrumReset => ⟨REG_SPECTRUM_ANALYZER, 4, 1⟩
  | .getSpectrumRun => ⟨REG_SPECTRUM_ANALYZER, 3, 1⟩
  | .getSpectrumSource => ⟨REG_SPECTRUM_ANALYZER, 2, 1⟩
  | .getSpectrumAutoReset => ⟨REG_SPECTRUM_ANALYZER, 1, 1⟩
  | .getSpectrumFilterQ => ⟨REG_SPECTRUM_ANALYZER, 0, 1⟩

/-- What a getter returns: a `bool`, the underlying value of an enumeration, a `uint8_t`
gain or an `int8_t` level. -/
inductive GetterValue where
  | flag (value : Bool)
  | selection (underlying : Nat)
  | gain (value : Nat)
  | level (value : Int)
deriving DecidableEq, Repr

namespace TDA7419

/-- The value the getter call `call` returns in state `dev`. -/
def applyGetter (dev : TDA7419) (call : GetterCall) : GetterValue :=
  match call with
  | .getMainSource => .selection (dev.getMainSource)
  | .getInputGain => .gain (dev.getInputGain)
  | .getRearSpeakerSource => .selection (dev.getRearSpeakerSource)
  | .getSecondSource => .selection (dev.getSecondSource)
  | .getSecondSourceInputGain => .gain (dev.getSecondSourceInputGain)
  | .getAutoZero => .flag (dev.getAutoZero)
  | .getLoudnessAttenuation => .gain (dev.getLoudnessAttenuation)
  | .getLoudnessCenterFreq => .selection (dev.getLoudnessCenterFreq)
  | .getLoudnessHighBoost => .flag (dev.getLoudnessHighBoost)
  | .getLoudnessSoftStep => .flag (dev.getLoudnessSoftStep)
  | .getSoftMute => .flag (dev.getSoftMute)
  | .getMutePinEnable => .flag (dev.getMutePinEnable)
  | .getSoftMuteTime => .selection (dev.getSoftMuteTime)
  | .getSoftStepTime => .selection (dev.getSoftStepTime)
  | .getClockFastMode => .flag (dev.getClockFastMode)
  | .getMasterVolumeSoftStep => .flag (dev.getMasterVolumeSoftStep)
  | .getMasterVolume => .level (dev.getMasterVolume)
  | .getTrebleLevel => .level (dev.getTrebleLevel)
  | .getTrebleCenterFreq => .selection (dev.getTrebleCenterFreq)
  | .getTrebleReferenceInternal => .flag (dev.getTrebleReferenceInternal)
  | .getMiddleSoftStepEnabled => .flag (dev.getMiddleSoftStepEnabled)
  | .getMiddleLevel => .level (dev.getMiddleLevel)
  | .getMiddleQFactor => .selection (dev.getMiddleQFactor)
  | .getBassSoftStep => .flag (dev.getBassSoftStep)
  | .getBassLevel => .level (dev.getBassLevel)
  | .getBassQFactor => .selection (dev.getBassQFactor)
  | .getSmoothingFilter => .flag (dev.getSmoothingFilter)
  | .getBassDcMode => .flag (dev.getBassDcMode)
  | .getBassCenterFreq => .selection (dev.getBassCenterFreq)
  | .getMiddleCenterFreq => .selection (dev.getMiddleCenterFreq)
  | .getSubCutoffFreq => .selection (dev.getSubCutoffFreq)
  | .getMixingGainEffect => .selection (dev.getMixingGainEffect)
  | .getSubwooferEnable => .flag (dev.getSubwooferEnable)
  | .getMixingEnable => .flag (dev.getMixingEnable)
  | .getMixToRightFront => .flag (dev.getMixToRightFront)
  | .getMixToLeftFront => .flag (dev.getMixToLeftFront)
  | .getSpeakerSoftStep channel => .flag (dev.getSpeakerSoftStep channel)
  | .getSpeakerVolume channel => .level (dev.getSpeakerVolume channel)
  | .getMixingChannelSoftStep => .flag (dev.getMixingChannelSoftStep)
  | .getMixingChannelVolume => .level (dev.getMixingChannelVolume)
  | .getSubwooferSoftStep => .flag (dev.getSubwooferSoftStep)
  | .getSubwooferVolume => .level (dev.getSubwooferVolume)
  | .getSpectrumCouplingMode => .selection (dev.getSpectrumCouplingMode)
  | .getExternalClock => .flag (dev.getExternalClock)
  | .getSpectrumReset => .flag (dev.getSpectrumReset)
  | .getSpectrumRun => .flag (dev.getSpectrumRun)
  | .getSpectrumSource => .selection (dev.getSpectrumSource)
  | .getSpectrumAutoReset => .flag (dev.getSpectrumAutoReset)
  | .getSpectrumFilterQ => .selection (dev.getSpectrumFilterQ)

/-- The driver state after the setter calls `calls`, performed in order from the left. -/
def applySetters (dev : TDA7419) (calls : List SetterCall) : TDA7419 :=
  calls.foldl applySetter dev

end TDA7419

/-- One setter call for each parameter binding (the speaker bindings once per channel);
the arguments are of no account. -/
def bindingSetters : List SetterCall :=
  [
    .setMainSource .QD,
    .setInputGain 0,
    .setRearSpeakerSource .mainSource,
    .setSecondSource .QD,
    .setSecondSourceInputGain 0,
    .setLoudnessAttenuation 0,
    .setMasterVolume 0,
    .setTrebleLevel 0,
    .setMiddleLevel 0,
    .setBassLevel 0,
    .setSpeakerSoftStep .LeftFront false,
    .setSpeakerSoftStep .RightFront false,
    .setSpeakerSoftStep .LeftRear false,
    .setSpeakerSoftStep .RightRear false,
    .setSpeakerVolume .LeftFront 0,
    .setSpeakerVolume .RightFront 0,
    .setSpeakerVolume .LeftRear 0,
    .setSpeakerVolume .RightRear 0,
    .setMixingChannelVolume 0,
    .setSubwooferVolume 0,
    .setAutoZero false,
    .setLoudnessCenterFreq .Flat,
    .setLoudnessHighBoost false,
    .setLoudnessSoftStep false,
    .setSoftMute false,
    .setMutePinEnable false,
    .setSoftMuteTime .Ms048,
    .setSoftStepTime .Us160,
    .setClockFastMode false,
    .setMasterVolumeSoftStep false,
    .setTrebleCenterFreq .KHz10,
    .setTrebleReferenceInternal false,
    .setMiddleSoftStep false,
    .setMiddleQFactor .Q0_5,
    .setBassSoftStep false,
    .setBassQFactor .Q1,
    .setSmoothingFilter false,
    .setBassDcMode false,
    .setBassCenterFreq .Hz60,
    .setMiddleCenterFreq .Hz500,
    .setSubCutoffFreq .Flat,
    .setMixingGainEffect .dB4,
    .setSubwooferEnable false,
    .setMixingEnable false,
    .setMixToRightFront false,
    .setMixToLeftFront false,
    .setMixingChannelSoftStep false,
    .setSubwooferSoftStep false,
    .setSpectrumCouplingMode .DC_wo_HPF,
    .setExternalClock false,
    .setSpectrumReset false,
    .setSpectrumRun false,
    .setSpectrumSource .Bass,
    .setSpectrumAutoReset false,
    .setSpectrumFilterQ .Q3_5 ]

/-- The bit ranges of all parameter bindings. -/
def bindingRanges : List BitRange := bindingSetters.map SetterCall.range

/-! ## Sample transports -/

/-- A transport on which every transaction succeeds. -/
def okWire : TwoWire := { sent := [], respond := fun _ => 0 }

/-- A transport on which every transaction ends with status 2 (address not acknowledged). -/
def nackWire : TwoWire := { sent := [], respond := fun _ => 2 }

/-- A transport whose second transaction ends with status 3 (data not acknowledged);
every other transaction succeeds. -/
def secondFailsWire : TwoWire :=
  { sent := [], respond := fun all => if all.length = 2 then 3 else 0 }

/-- A transport on which every transaction ends with status 5 (timeout). -/
def timeoutWire : TwoWire := { sent := [], respond := fun _ => 5 }


/-! ## Auxiliary facts about the loop of `sendChangedRegisters` -/

namespace TDA7419

theorem clearChanged_of_not_isChanged (b : bitStorage) (h : ¬ b.isChanged = true) :
    b.clearChanged = b := by
  cases b with
  | mk v p =>
    simp [bitStorage.isChanged] at h
    simp [bitStorage.clearChanged, h]

theorem isChanged_clearChanged (b : bitStorage) : b.clearChanged.isChanged = false := by
  simp [bitStorage.isChanged, bitStorage.clearChanged]

theorem changedTransactions_congr (dev dev1 : TDA7419) (regs : List RegIndex)
    (hflag : dev1.inputChanged = dev.inputChanged)
    (hregs : ∀ i ∈ regs, dev1.registers i = dev.registers i) :
    dev1.changedTransactions regs = dev.changedTransactions regs := by
  induction regs with
  | nil => rfl
  | cons r rest ih =>
    have hr : dev1.registers r = dev.registers r := hregs r (by simp)
    have ih1 := ih (fun i hi => hregs i (by simp [hi]))
    simp only [changedTransactions] at ih1 ⊢
    simp only [List.filter_cons, hr]
    split
    · simp only [List.map_cons, ih1]
      simp [singleWriteTransaction, singleWriteSubAddress, hflag, hr]
    · exact ih1

theorem sendingEvents_congr (dev dev1 : TDA7419) (regs : List RegIndex)
    (hdebug : dev1.debug = dev.debug)
    (hregs : ∀ i ∈ regs, dev1.registers i = dev.registers i) :
    dev1.sendingEvents regs = dev.sendingEvents regs := by
  have hf : (regs.filter fun reg => (dev1.registers reg).isChanged)
      = (regs.filter fun reg => (dev.registers reg).isChanged) := by
    apply List.filter_congr
    intro i hi
    rw [hregs i hi]
  simp [sendingEvents, hdebug, hf]

/-- While the transactions of a duplicate-free run `pre` of registers all succeed, the loop
clears exactly the registers of `pre` and goes on with the remaining registers. -/
theorem sendChangedLoop_append (pre rest : List RegIndex) (hnd : pre.Nodup) :
    ∀ (dev : TDA7419) (wire : TwoWire) (serial : List SerialEvent),
      (∀ i (hi : i < pre.length), (dev.registers pre[i]).isChanged = true →
        wire.respond (wire.sent ++ dev.changedTransactions (pre.take i)
          ++ [dev.singleWriteTransaction pre[i]]) = 0) →
      sendChangedLoop (pre ++ rest) dev wire serial =
        sendChangedLoop rest (dev.clearRegisters pre)
          { wire with sent := wire.sent ++ dev.changedTransactions pre }
          (serial ++ dev.sendingEvents pre) := by
  induction pre with
  | nil =>
    intro dev wire serial _
    simp [clearRegisters, changedTransactions, sendingEvents]
  | cons r pre ih =>
    intro dev wire serial hok
    have hr : r ∉ pre := (List.nodup_cons.mp hnd).1
    have hnd1 : pre.Nodup := (List.nodup_cons.mp hnd).2
    have hne : ∀ i ∈ pre, i ≠ r := fun i hi h => hr (h ▸ hi)
    by_cases hc : (dev.registers r).isChanged = true
    · have h0 := hok 0 (by simp) hc
      simp [changedTransactions] at h0
      have hregs : ∀ i ∈ pre,
          (dev.modifyRegister r bitStorage.clearChanged).registers i = dev.registers i := by
        intro i hi
        simp [modifyRegister, hne i hi]
      have hstep := ih hnd1 (dev.modifyRegister r bitStorage.clearChanged)
        { wire with sent := wire.sent ++ [dev.singleWriteTransaction r] }
        (if dev.debug then serial ++ [SerialEvent.sendingRegister r.val] else serial)
        (by
          intro i hi hci
          have hmem : pre[i] ∈ pre := List.getElem_mem hi
          rw [hregs _ hmem] at hci
          have h1 := hok (i + 1) (by simpa using hi) (by simpa using hci)
          have hcongr := changedTransactions_congr dev
            (dev.modifyRegister r bitStorage.clearChanged) (pre.take i) rfl
            (fun j hj => hregs j (List.mem_of_mem_take hj))
          rw [hcongr]
          have htx : (dev.modifyRegister r bitStorage.clearChanged).singleWriteTransaction pre[i]
              = dev.singleWriteTransaction pre[i] := by
            simp [singleWriteTransaction, singleWriteSubAddress, hregs _ hmem]
            rfl
          rw [htx]
          simpa [changedTransactions, hc, List.filter_cons] using h1)
      simp only [List.cons_append, sendChangedLoop, hc, if_true, TwoWire.transmit, h0]
      simp only [bne_self_eq_false, Bool.false_eq_true, if_false]
      refine hstep.trans ?_
      have hdev : (dev.modifyRegister r bitStorage.clearChanged).clearRegisters pre
          = dev.clearRegisters (r :: pre) := by
        simp only [clearRegisters, modifyRegister]
        congr 1
        funext i
        by_cases hir : i = r
        · subst hir
          simp [hr]
        · simp [hir]
      have htxs : (dev.modifyRegister r bitStorage.clearChanged).changedTransactions pre
          = dev.changedTransactions pre :=
        changedTransactions_congr dev _ pre rfl hregs
      have hser : (dev.modifyRegister r bitStorage.clearChanged).sendingEvents pre
          = dev.sendingEvents pre :=
        sendingEvents_congr dev _ pre rfl hregs
      rw [hdev, htxs, hser]
      congr 1
      · simp [changedTransactions, hc, List.filter_cons]
      · cases hd : dev.debug <;> simp [sendingEvents, hd, hc, List.filter_cons]
    · have hstep := ih hnd1 dev wire serial
        (by
          intro i hi hci
          have h1 := hok (i + 1) (by simpa using hi) (by simpa using hci)
          simpa [changedTransactions, hc, List.filter_cons] using h1)
      simp only [List.cons_append, sendChangedLoop, hc, Bool.false_eq_true, if_false]
      refine hstep.trans ?_
      have hdev : dev.clearRegisters pre = dev.clearRegisters (r :: pre) := by
        simp only [clearRegisters]
        congr 1
        funext i
        by_cases hir : i = r
        · subst hir
          simp [hr, clearChanged_of_not_isChanged _ hc]
        · simp [hir]
      rw [hdev]
      congr 1
      · simp [changedTransactions, hc, List.filter_cons]
      · cases hd : dev.debug <;> simp [sendingEvents, hd, hc, List.filter_cons]

theorem allRegisters_nodup : allRegisters.Nodup := List.nodup_finRange 17

theorem allRegisters_length : allRegisters.length = 17 := List.length_finRange 17

theorem allRegisters_take_getElem (n i : Nat) (hi : i < (allRegisters.take n).length) :
    ((allRegisters.take n)[i]).val = i := by
  simp [allRegisters, List.getElem_take, List.getElem_finRange]

theorem mem_registersBelow (f r : RegIndex) : r ∈ registersBelow f ↔ r < f := by
  revert f r
  decide

theorem allRegisters_split (f : RegIndex) :
    allRegisters = registersBelow f ++ f :: allRegisters.drop (f.val + 1) := by
  revert f
  decide

/-- The loop on the first `n` registers, when each of their transactions succeeds. -/
theorem sendChangedLoop_take (n : Nat) (rest : List RegIndex) (dev : TDA7419) (wire : TwoWire)
    (serial : List SerialEvent)
    (hok : ∀ r : RegIndex, r.val < n → (dev.registers r).isChanged = true →
      wire.respond (wire.sent ++ dev.changedTransactions (registersBelow r)
        ++ [dev.singleWriteTransaction r]) = 0) :
    sendChangedLoop (allRegisters.take n ++ rest) dev wire serial =
      sendChangedLoop rest (dev.clearRegisters (allRegisters.take n))
        { wire with sent := wire.sent ++ dev.changedTransactions (allRegisters.take n) }
        (serial ++ dev.sendingEvents (allRegisters.take n)) := by
  apply sendChangedLoop_append _ _ (allRegisters_nodup.sublist (List.take_sublist _ _))
  intro i hi hci
  have hval := allRegisters_take_getElem n i hi
  have hin : i < n := by
    have := hi
    simp only [List.length_take] at this
    omega
  have h1 := hok (allRegisters.take n)[i] (by omega) hci
  have htake : (allRegisters.take n).take i = registersBelow (allRegisters.take n)[i] := by
    simp only [registersBelow, hval, List.take_take]
    congr 1
    omega
  rw [htake]
  exact h1

/-- One step of the loop on a changed register whose transaction fails. -/
theorem sendChangedLoop_head_fail (reg : RegIndex) (rest : List RegIndex) (dev : TDA7419)
    (wire : TwoWire) (serial : List SerialEvent)
    (hc : (dev.registers reg).isChanged = true)
    (hfail : wire.respond (wire.sent ++ [dev.singleWriteTransaction reg]) ≠ 0) :
    (sendChangedLoop (reg :: rest) dev wire serial).ok = false ∧
    (sendChangedLoop (reg :: rest) dev wire serial).dev = dev ∧
    (sendChangedLoop (reg :: rest) dev wire serial).wire =
      { wire with sent := wire.sent ++ [dev.singleWriteTransaction reg] } := by
  simp [sendChangedLoop, hc, TwoWire.transmit, hfail]

/-- The outcome of `sendChangedRegisters` when the transaction of every changed register
succeeds. -/
theorem sendChangedRegisters_of_ok (dev : TDA7419) (wire : TwoWire)
    (hok : ∀ r : RegIndex, (dev.registers r).isChanged = true →
      wire.respond (wire.sent ++ dev.changedTransactions (registersBelow r)
        ++ [dev.singleWriteTransaction r]) = 0) :
    (dev.sendChangedRegisters wire).ok = true ∧
    (dev.sendChangedRegisters wire).dev = dev.clearRegisters allRegisters ∧
    (dev.sendChangedRegisters wire).wire =
      { wire with sent := wire.sent ++ dev.changedTransactions allRegisters } := by
  have h := sendChangedLoop_take 17 [] dev wire
    (if dev.debug then [dev.printRegistersDebug, SerialEvent.sendingChanged] else [])
    (fun r _ hc => hok r hc)
  have htake : allRegisters.take 17 = allRegisters :=
    List.take_of_length_le (by simp [allRegisters_length])
  rw [htake, List.append_nil] at h
  have hrun : dev.sendChangedRegisters wire =
      { ok := true, dev := dev.clearRegisters allRegisters,
        wire := { wire with sent := wire.sent ++ dev.changedTransactions allRegisters },
        serial := (if dev.debug then [dev.printRegistersDebug, SerialEvent.sendingChanged] else [])
          ++ dev.sendingEvents allRegisters } := h
  rw [hrun]
  exact ⟨rfl, rfl, rfl⟩

/-- The outcome of `sendChangedRegisters` when the transaction of the changed register `f`
is the first one that fails. -/
theorem sendChangedRegisters_of_fail (dev : TDA7419) (wire : TwoWire) (f : RegIndex)
    (hdirty : (dev.registers f).isChanged = true)
    (hok : ∀ r : RegIndex, r < f → (dev.registers r).isChanged = true →
      wire.respond (wire.sent ++ dev.changedTransactions (registersBelow r)
        ++ [dev.singleWriteTransaction r]) = 0)
    (hfail : wire.respond (wire.sent ++ dev.changedTransactions (registersBelow f)
        ++ [dev.singleWriteTransaction f]) ≠ 0) :
    (dev.sendChangedRegisters wire).ok = false ∧
    (dev.sendChangedRegisters wire).dev = dev.clearRegisters (registersBelow f) ∧
    (dev.sendChangedRegisters wire).wire =
      { wire with sent := wire.sent ++ dev.changedTransactions (registersBelow f)
          ++ [dev.singleWriteTransaction f] } := by
  have h := sendChangedLoop_take f.val (f :: allRegisters.drop (f.val + 1)) dev wire
    (if dev.debug then [dev.printRegistersDebug, SerialEvent.sendingChanged] else [])
    (fun r hr hc => hok r hr hc)
  have hf : ((dev.clearRegisters (registersBelow f)).registers f) = dev.registers f := by
    simp [clearRegisters, mem_registersBelow]
  have htx : (dev.clearRegisters (registersBelow f)).singleWriteTransaction f
      = dev.singleWriteTransaction f := by
    simp only [singleWriteTransaction, hf]
    rfl
  have hstep := sendChangedLoop_head_fail f (allRegisters.drop (f.val + 1))
    (dev.clearRegisters (registersBelow f))
    { wire with sent := wire.sent ++ dev.changedTransactions (registersBelow f) }
    ((if dev.debug then [dev.printRegistersDebug, SerialEvent.sendingChanged] else [])
      ++ dev.sendingEvents (registersBelow f))
    (by rw [hf]; exact hdirty)
    (by rw [htx]; exact hfail)
  rw [htx] at hstep
  have hrun : dev.sendChangedRegisters wire =
      sendChangedLoop (f :: allRegisters.drop (f.val + 1))
        (dev.clearRegisters (registersBelow f))
        { wire with sent := wire.sent ++ dev.changedTransactions (registersBelow f) }
        ((if dev.debug then [dev.printRegistersDebug, SerialEvent.sendingChanged] else [])
          ++ dev.sendingEvents (registersBelow f)) := by
    have hsplit : dev.sendChangedRegisters wire =
        sendChangedLoop (registersBelow f ++ f :: allRegisters.drop (f.val + 1)) dev wire
          (if dev.debug then [dev.printRegistersDebug, SerialEvent.sendingChanged] else []) := by
      rw [← allRegisters_split f]
      rfl
    exact hsplit.trans h
  rw [hrun]
  exact hstep

/-! ## Full write -/

/-- C2: a full write whose transaction ends with a nonzero status returns `false` and
leaves the whole driver state (every register's current value, saved value and changed
flag, and `inputChanged`) as it was before the call. -/
theorem sendAllRegisters_failure_atomic (dev : TDA7419) (wire : TwoWire)
    (hfail : wire.respond (wire.sent ++ [dev.fullWriteTransaction]) ≠ 0) :
    (dev.sendAllRegisters wire).ok = false ∧
    (dev.sendAllRegisters wire).dev = dev ∧
    (∀ reg, ((dev.sendAllRegisters wire).dev.registers reg).getValue
        = (dev.registers reg).getValue) ∧
    (∀ reg, ((dev.sendAllRegisters wire).dev.registers reg).prevValue_
        = (dev.registers reg).prevValue_) ∧
    (∀ reg, ((dev.sendAllRegisters wire).dev.registers reg).isChanged
        = (dev.registers reg).isChanged) ∧
    (dev.sendAllRegisters wire).dev.inputChanged = dev.inputChanged := by
  have hrun : (dev.sendAllRegisters wire).ok = false ∧ (dev.sendAllRegisters wire).dev = dev := by
    simp [sendAllRegisters, TwoWire.transmit, hfail]
  refine ⟨hrun.1, hrun.2, ?_, ?_, ?_, ?_⟩ <;> simp [hrun.2]

/-- C2, at a fresh driver on a bus that never acknowledges. -/
theorem sendAllRegisters_failure_atomic_witness :
    nackWire.respond (nackWire.sent ++ [TDA7419.new.fullWriteTransaction]) ≠ 0 ∧
    (TDA7419.new.sendAllRegisters nackWire).ok = false ∧
    (TDA7419.new.sendAllRegisters nackWire).dev = TDA7419.new :=
  have h := sendAllRegisters_failure_atomic TDA7419.new nackWire (by decide)
  ⟨by decide, h.1, h.2.1⟩

/-- C3: a full write whose transaction ends with status 0 returns `true`; afterwards no
register is changed, `inputChanged` is false, and every register holds the value it held
before the call. -/
theorem sendAllRegisters_success (dev : TDA7419) (wire : TwoWire)
    (hok : wire.respond (wire.sent ++ [dev.fullWriteTransaction]) = 0) :
    (dev.sendAllRegisters wire).ok = true ∧
    (∀ reg, ((dev.sendAllRegisters wire).dev.registers reg).isChanged = false) ∧
    (dev.sendAllRegisters wire).dev.inputChanged = false ∧
    (∀ reg, ((dev.sendAllRegisters wire).dev.registers reg).getValue
        = (dev.registers reg).getValue) := by
  simp [sendAllRegisters, TwoWire.transmit, hok, bitStorage.isChanged, bitStorage.clearChanged,
    bitStorage.getValue]

/-- C3, at a fresh driver on a bus that always succeeds. -/
theorem sendAllRegisters_success_witness :
    okWire.respond (okWire.sent ++ [TDA7419.new.fullWriteTransaction]) = 0 ∧
    (TDA7419.new.sendAllRegisters okWire).ok = true ∧
    (∀ reg, ((TDA7419.new.sendAllRegisters okWire).dev.registers reg).isChanged = false) ∧
    (TDA7419.new.sendAllRegisters okWire).dev.inputChanged = false :=
  have h := sendAllRegisters_success TDA7419.new okWire (by decide)
  ⟨by decide, h.1, h.2.1, h.2.2.1⟩

/-- C4: a full write issues exactly one transaction, to address 0x44, of exactly 18 bytes:
the command byte `0x20 | (inputChanged ? 0 : 0x40)` (0x20 when `inputChanged`, else 0x60,
bits 0-4 zero), then the current values of registers 0 to 16 in this order, whatever the
changed flags are and whatever the bus answers. -/
theorem sendAllRegisters_trace (dev : TDA7419) (wire : TwoWire) :
    ∃ tx : Transaction,
      (dev.sendAllRegisters wire).wire.sent = wire.sent ++ [tx] ∧
      tx.address = 0x44 ∧
      tx.bytes.length = 18 ∧
      tx.bytes[0]? = some (0x20 ||| (if dev.inputChanged then 0 else 0x40)) ∧
      (0x20 ||| (if dev.inputChanged then 0 else 0x40)
        = if dev.inputChanged then 0x20 else 0x60) ∧
      (0x20 ||| (if dev.inputChanged then 0 else 0x40)) % 32 = 0 ∧
      ∀ reg : RegIndex, tx.bytes[reg.val + 1]? = some (dev.registers reg).getValue := by
  refine ⟨dev.fullWriteTransaction, ?_, rfl, ?_, ?_, ?_, ?_, ?_⟩
  · simp only [sendAllRegisters, TwoWire.transmit]
    split <;> rfl
  · simp [fullWriteTransaction, allRegisters]
  · cases h : dev.inputChanged <;> simp [fullWriteTransaction, fullWriteCommand, h] <;> decide
  · cases h : dev.inputChanged <;> decide
  · cases h : dev.inputChanged <;> decide
  · intro reg
    simp [fullWriteTransaction, allRegisters]

/-! ## Incremental write -/

/-- C1: when the transactions of the changed registers below `f` succeed and the one of the
changed register `f` ends with a nonzero status, `sendChangedRegisters` returns `false`,
the transaction of `f` is the last one it issues, every register below `f` is unchanged
(clean) afterwards, `f` and every register after it keep their state (so the changed ones
are still changed), and no current value is modified. -/
theorem sendChangedRegisters_commits_until_failure (dev : TDA7419) (wire : TwoWire) (f : RegIndex)
    (hdirty : (dev.registers f).isChanged = true)
    (hok : ∀ r : RegIndex, r < f → (dev.registers r).isChanged = true →
      wire.respond (wire.sent ++ dev.changedTransactions (registersBelow r)
        ++ [dev.singleWriteTransaction r]) = 0)
    (hfail : wire.respond (wire.sent ++ dev.changedTransactions (registersBelow f)
        ++ [dev.singleWriteTransaction f]) ≠ 0) :
    (dev.sendChangedRegisters wire).ok = false ∧
    (dev.sendChangedRegisters wire).wire.sent =
      wire.sent ++ dev.changedTransactions (registersBelow f)
        ++ [dev.singleWriteTransaction f] ∧
    (∀ r, r < f → ((dev.sendChangedRegisters wire).dev.registers r).isChanged = false) ∧
    ((dev.sendChangedRegisters wire).dev.registers f).isChanged = true ∧
    (∀ r, f ≤ r → (dev.registers r).isChanged = true →
      ((dev.sendChangedRegisters wire).dev.registers r).isChanged = true) ∧
    (∀ r, f ≤ r → (dev.sendChangedRegisters wire).dev.registers r = dev.registers r) ∧
    (∀ r, ((dev.sendChangedRegisters wire).dev.registers r).getValue
        = (dev.registers r).getValue) := by
  obtain ⟨hres, hdev, hwire⟩ := sendChangedRegisters_of_fail dev wire f hdirty hok hfail
  have hkeep : ∀ r, f ≤ r → (dev.sendChangedRegisters wire).dev.registers r = dev.registers r := by
    intro r hr
    have hnot : ¬ r < f := not_lt.mpr hr
    simp [hdev, clearRegisters, mem_registersBelow, hnot]
  refine ⟨hres, ?_, ?_, ?_, ?_, hkeep, ?_⟩
  · rw [hwire]
  · intro r hr
    simp [hdev, clearRegisters, mem_registersBelow, hr, isChanged_clearChanged]
  · rw [hkeep f (le_refl f)]
    exact hdirty
  · intro r hr hc
    rw [hkeep r hr]
    exact hc
  · intro r
    rw [hdev]
    simp only [clearRegisters]
    split <;> rfl

/-- C1, at a fresh driver (registers 0, 1, 2, ... changed) on a bus whose second
transaction fails: register 1 is the failing register. -/
theorem sendChangedRegisters_commits_until_failure_witness :
    (TDA7419.new.registers 1).isChanged = true ∧
    secondFailsWire.respond (secondFailsWire.sent
      ++ TDA7419.new.changedTransactions (registersBelow 1)
      ++ [TDA7419.new.singleWriteTransaction 1]) ≠ 0 ∧
    (TDA7419.new.sendChangedRegisters secondFailsWire).ok = false ∧
    (TDA7419.new.sendChangedRegisters secondFailsWire).wire.sent =
      [⟨0x44, [0x00, 0x1A]⟩, ⟨0x44, [0x41, 0x08]⟩] ∧
    ((TDA7419.new.sendChangedRegisters secondFailsWire).dev.registers 0).isChanged = false ∧
    ((TDA7419.new.sendChangedRegisters secondFailsWire).dev.registers 1).isChanged = true ∧
    ((TDA7419.new.sendChangedRegisters secondFailsWire).dev.registers 2).isChanged = true :=
  have h := sendChangedRegisters_commits_until_failure TDA7419.new secondFailsWire 1
    (by decide) (by decide) (by decide)
  ⟨by decide, by decide, h.1, h.2.1, h.2.2.1 0 (by decide), h.2.2.2.1,
    h.2.2.2.2.1 2 (by decide) (by decide)⟩

/-- The sub-address sum of the code is the bitwise OR of index and flag, and its
bits 0-4 are the register index. -/
theorem singleWriteSubAddress_eq_or (dev : TDA7419) (reg : RegIndex) :
    dev.singleWriteSubAddress reg
      = (reg.val ||| (if reg = REG_MAIN_SOURCE ∧ dev.inputChanged = true then 0 else 0x40)) ∧
    dev.singleWriteSubAddress reg % 32 = reg.val := by
  cases h : dev.inputChanged
  · simp only [singleWriteSubAddress, h]
    revert reg
    decide
  · simp only [singleWriteSubAddress, h]
    revert reg
    decide

/-- C5: when the transaction of every changed register succeeds, `sendChangedRegisters`
returns `true` and issues exactly one transaction per changed register, none for an
unchanged one, in ascending index order (0, 1, ..., 16); each consists of the sub-address
`index | ((index == 0 && inputChanged) ? 0 : 0x40)`, which is the sum the code computes and
has the index in bits 0-4, followed by the register's current value; afterwards no
register is changed. -/
theorem sendChangedRegisters_success_trace (dev : TDA7419) (wire : TwoWire)
    (hok : ∀ r : RegIndex, (dev.registers r).isChanged = true →
      wire.respond (wire.sent ++ dev.changedTransactions (registersBelow r)
        ++ [dev.singleWriteTransaction r]) = 0) :
    (dev.sendChangedRegisters wire).ok = true ∧
    (dev.sendChangedRegisters wire).wire.sent = wire.sent ++
      (([0, 1, 2, 3, 4, 5, 6, 7, 8, 9, 10, 11, 12, 13, 14, 15, 16] : List RegIndex).filter
        fun reg => (dev.registers reg).isChanged).map
        (fun reg =>
          { address := 0x44
            bytes := [reg.val ||| (if reg = 0 ∧ dev.inputChanged = true then 0 else 0x40),
                      (dev.registers reg).getValue] }) ∧
    (∀ reg : RegIndex,
      ((if reg = 0 ∧ dev.inputChanged = true then 0 else 0x40) + reg.val) % 256
        = (reg.val ||| (if reg = 0 ∧ dev.inputChanged = true then 0 else 0x40)) ∧
      (reg.val ||| (if reg = 0 ∧ dev.inputChanged = true then 0 else 0x40)) % 32 = reg.val) ∧
    (∀ reg, ((dev.sendChangedRegisters wire).dev.registers reg).isChanged = false) := by
  obtain ⟨hres, hdev, hwire⟩ := sendChangedRegisters_of_ok dev wire hok
  have hall : allRegisters = [0, 1, 2, 3, 4, 5, 6, 7, 8, 9, 10, 11, 12, 13, 14, 15, 16] := by
    decide
  refine ⟨hres, ?_, ?_, ?_⟩
  · rw [hwire]
    simp only [changedTransactions, hall]
    congr 2
    funext reg
    simp only [singleWriteTransaction, (singleWriteSubAddress_eq_or dev reg).1]
    rfl
  · intro reg
    have h := singleWriteSubAddress_eq_or dev reg
    exact ⟨h.1, h.1 ▸ h.2⟩
  · intro reg
    have hmem : reg ∈ allRegisters := List.mem_finRange reg
    simp [hdev, clearRegisters, hmem, isChanged_clearChanged]

/-- C5, at a fresh driver on a bus that always succeeds. -/
theorem sendChangedRegisters_success_trace_witness :
    (∀ r : RegIndex, (TDA7419.new.registers r).isChanged = true →
      okWire.respond (okWire.sent ++ TDA7419.new.changedTransactions (registersBelow r)
        ++ [TDA7419.new.singleWriteTransaction r]) = 0) ∧
    (TDA7419.new.sendChangedRegisters okWire).ok = true ∧
    (TDA7419.new.sendChangedRegisters okWire).wire.sent =
      [⟨0x44, [0x00, 0x1A]⟩, ⟨0x44, [0x41, 0x08]⟩, ⟨0x44, [0x42, 0xB7]⟩, ⟨0x44, [0x44, 0x80]⟩,
       ⟨0x44, [0x47, 0x41]⟩, ⟨0x44, [0x48, 0xE0]⟩, ⟨0x44, [0x49, 0x27]⟩, ⟨0x44, [0x50, 0x1C]⟩] ∧
    (∀ reg, ((TDA7419.new.sendChangedRegisters okWire).dev.registers reg).isChanged = false) :=
  have h := sendChangedRegisters_success_trace TDA7419.new okWire (fun _ _ => rfl)
  ⟨fun _ _ => rfl, h.1, h.2.1, h.2.2.2⟩

/-- C6 (evaluation of the code): on a fresh driver `inputChanged` is set and register 0 is
changed; `sendChangedRegisters` on a bus that always succeeds sends register 0 first, with
sub-address 0x00, returns `true`, and `inputChanged` is still set afterwards. -/
theorem sendChangedRegisters_keeps_inputChanged_fresh :
    TDA7419.new.inputChanged = true ∧
    (TDA7419.new.registers REG_MAIN_SOURCE).isChanged = true ∧
    (TDA7419.new.sendChangedRegisters okWire).ok = true ∧
    (TDA7419.new.sendChangedRegisters okWire).wire.sent.head? = some ⟨0x44, [0x00, 0x1A]⟩ ∧
    ((TDA7419.new.sendChangedRegisters okWire).dev.registers REG_MAIN_SOURCE).isChanged = false ∧
    (TDA7419.new.sendChangedRegisters okWire).dev.inputChanged = true := by
  decide

/-- Every transaction the loop of `sendChangedRegisters` issues consists of a sub-address
byte of some register and one value byte, whatever the bus answers. -/
theorem sendChangedLoop_sent_shape (regs : List RegIndex) :
    ∀ (dev : TDA7419) (wire : TwoWire) (serial : List SerialEvent),
      ∃ txs : List Transaction,
        (sendChangedLoop regs dev wire serial).wire.sent = wire.sent ++ txs ∧
        ∀ tx ∈ txs, ∃ (reg : RegIndex) (value : Nat),
          tx = ⟨TDA7419_I2C_ADDRESS, [dev.singleWriteSubAddress reg, value]⟩ := by
  induction regs with
  | nil =>
    intro dev wire serial
    exact ⟨[], by simp [sendChangedLoop], by simp⟩
  | cons r rest ih =>
    intro dev wire serial
    by_cases hc : (dev.registers r).isChanged = true
    · by_cases hs : wire.respond (wire.sent ++ [dev.singleWriteTransaction r]) = 0
      · obtain ⟨txs, hsent, hshape⟩ := ih (dev.modifyRegister r bitStorage.clearChanged)
          { wire with sent := wire.sent ++ [dev.singleWriteTransaction r] }
          (if dev.debug then serial ++ [SerialEvent.sendingRegister r.val] else serial)
        refine ⟨dev.singleWriteTransaction r :: txs, ?_, ?_⟩
        · simp only [sendChangedLoop, hc, if_true, TwoWire.transmit, hs, bne_self_eq_false,
            Bool.false_eq_true, if_false]
          rw [hsent]
          simp
        · intro tx htx
          rcases List.mem_cons.mp htx with h | h
          · exact ⟨r, (dev.registers r).getValue, h⟩
          · exact hshape tx h
      · refine ⟨[dev.singleWriteTransaction r], ?_, ?_⟩
        · simp [sendChangedLoop, hc, TwoWire.transmit, hs]
        · intro tx htx
          exact ⟨r, (dev.registers r).getValue, List.mem_singleton.mp htx⟩
    · obtain ⟨txs, hsent, hshape⟩ := ih dev wire serial
      refine ⟨txs, ?_, hshape⟩
      simp only [sendChangedLoop, hc, Bool.false_eq_true, if_false]
      exact hsent

/-- C7 (as stated, refuted): on a fresh driver and a bus that always succeeds,
`sendChangedRegisters` issues eight transactions whose first bytes are 0x00, 0x41, 0x42,
0x44, 0x47, 0x48, 0x49 and 0x50; bit 5 (0x20) is clear in each of them. -/
theorem sendChangedRegisters_auto_increment_counterexample :
    (TDA7419.new.sendChangedRegisters okWire).wire.sent.map (fun tx => tx.bytes.head?)
      = [some 0x00, some 0x41, some 0x42, some 0x44, some 0x47, some 0x48, some 0x49, some 0x50] ∧
    ¬ (∀ tx ∈ (TDA7419.new.sendChangedRegisters okWire).wire.sent,
        ∀ sub ∈ tx.bytes.head?, sub.testBit 5 = true) := by
  decide

/-- C7 (amended): bit 5 (0x20, auto-increment) is set in the command byte of the single
transaction of `sendAllRegisters`, for every value of `inputChanged`; it is clear in the
sub-address byte of every single-register transaction of `sendChangedRegisters`, for
every register index 0..16 and every value of `inputChanged`. -/
theorem auto_increment_flag_only_in_full_write (dev : TDA7419) (wire : TwoWire) :
    (∃ (command : Nat) (values : List Nat),
      (dev.sendAllRegisters wire).wire.sent
        = wire.sent ++ [⟨TDA7419_I2C_ADDRESS, command :: values⟩] ∧
      command.testBit 5 = true) ∧
    (∃ txs : List Transaction,
      (dev.sendChangedRegisters wire).wire.sent = wire.sent ++ txs ∧
      ∀ tx ∈ txs, ∃ sub value : Nat, tx.bytes = [sub, value] ∧ sub.testBit 5 = false) ∧
    (∀ reg : RegIndex, (dev.singleWriteSubAddress reg).testBit 5 = false) := by
  have hbit : ∀ reg : RegIndex, (dev.singleWriteSubAddress reg).testBit 5 = false := by
    intro reg
    cases h : dev.inputChanged
    · simp only [singleWriteSubAddress, h]
      revert reg
      decide
    · simp only [singleWriteSubAddress, h]
      revert reg
      decide
  refine ⟨⟨dev.fullWriteCommand, allRegisters.map fun reg => (dev.registers reg).getValue,
    ?_, ?_⟩, ?_, hbit⟩
  · simp only [sendAllRegisters, TwoWire.transmit]
    split <;> rfl
  · cases h : dev.inputChanged <;> simp only [fullWriteCommand, h] <;> decide
  · obtain ⟨txs, hsent, hshape⟩ := sendChangedLoop_sent_shape allRegisters dev wire
      (if dev.debug then [dev.printRegistersDebug, SerialEvent.sendingChanged] else [])
    refine ⟨txs, hsent, ?_⟩
    intro tx htx
    obtain ⟨reg, value, hreg⟩ := hshape tx htx
    exact ⟨dev.singleWriteSubAddress reg, value, by rw [hreg], hbit reg⟩

/-! ## Source-selection setters -/

/-- C8 (evaluation of the code): after a successful full write of a fresh driver
`inputChanged` is clear; `setSecondSource(SE2)` then changes register 7 from 0x41 to 0x42
and leaves `inputChanged` clear. -/
theorem setSecondSource_keeps_inputChanged_clear :
    (TDA7419.new.sendAllRegisters okWire).dev.inputChanged = false ∧
    ((TDA7419.new.sendAllRegisters okWire).dev.registers REG_SECOND_SOURCE).getValue = 0x41 ∧
    ((((TDA7419.new.sendAllRegisters okWire).dev.setSecondSource InputSource.SE2).registers
      REG_SECOND_SOURCE).getValue = 0x42) ∧
    ((((TDA7419.new.sendAllRegisters okWire).dev.setSecondSource InputSource.SE2).registers
      REG_SECOND_SOURCE).isChanged = true) ∧
    ((TDA7419.new.sendAllRegisters okWire).dev.setSecondSource InputSource.SE2).inputChanged
      = false := by
  decide

/-- C9: `setMainSource` and `setRearSpeakerSource` set `inputChanged`, in every state and
for every argument; so also after a successful full write of a fresh driver, where
`setMainSource(SE2)` and `setRearSpeakerSource(mainSource)` rewrite the bits that
registers 0 and 7 already hold. -/
theorem setMainSource_setRearSpeakerSource_set_inputChanged (dev : TDA7419)
    (s : InputSource) (r : RearSpeakerSource) :
    (dev.setMainSource s).inputChanged = true ∧
    (dev.setRearSpeakerSource r).inputChanged = true ∧
    (((TDA7419.new.sendAllRegisters okWire).dev.setMainSource InputSource.SE2).registers
        REG_MAIN_SOURCE = (TDA7419.new.sendAllRegisters okWire).dev.registers REG_MAIN_SOURCE ∧
      (TDA7419.new.sendAllRegisters okWire).dev.inputChanged = false ∧
      ((TDA7419.new.sendAllRegisters okWire).dev.setMainSource InputSource.SE2).inputChanged
        = true) ∧
    (((TDA7419.new.sendAllRegisters okWire).dev.setRearSpeakerSource
        RearSpeakerSource.mainSource).registers REG_SECOND_SOURCE
        = (TDA7419.new.sendAllRegisters okWire).dev.registers REG_SECOND_SOURCE ∧
      ((TDA7419.new.sendAllRegisters okWire).dev.setRearSpeakerSource
        RearSpeakerSource.mainSource).inputChanged = true) :=
  ⟨rfl, rfl, by decide, by decide⟩

/-- C10: when `setMainSource(s)` is followed directly by `sendAllRegisters`, the one
transaction of the full write starts with the byte 0x20: bit 5 set, bit 6 clear. -/
theorem setMainSource_then_sendAllRegisters_command (dev : TDA7419) (s : InputSource)
    (wire : TwoWire) :
    ∃ values : List Nat,
      ((dev.setMainSource s).sendAllRegisters wire).wire.sent
        = wire.sent ++ [⟨0x44, 0x20 :: values⟩] ∧
      Nat.testBit 0x20 5 = true ∧ Nat.testBit 0x20 6 = false := by
  refine ⟨allRegisters.map fun reg => ((dev.setMainSource s).registers reg).getValue,
    ?_, by decide, by decide⟩
  simp only [sendAllRegisters, TwoWire.transmit]
  split <;> rfl

/-! ## Bit-level facts about `bitStorage` -/

theorem testBit_segmentMask (p l i : Nat) :
    (bitStorage.segmentMask p l).testBit i = (decide (i < 16) && (decide (p ≤ i) && decide (i - p < l))) := by
  have h16 : (65536 : Nat) = 2 ^ 16 := by norm_num
  simp only [bitStorage.segmentMask, h16, Nat.testBit_mod_two_pow, Nat.testBit_shiftLeft,
    Nat.one_shiftLeft, Nat.testBit_two_pow_sub_one, ge_iff_le]

theorem testBit_notMask (m i : Nat) :
    (bitStorage.notMask m).testBit i = xor (m.testBit i) (decide (i < 16)) := by
  have h : (65535 : Nat) = 2 ^ 16 - 1 := by norm_num
  simp only [bitStorage.notMask, h, Nat.testBit_xor, Nat.testBit_two_pow_sub_one]

/-- The bits of the byte after a `writeValueAtBit` on a valid range. -/
theorem testBit_writeValueAtBit (b : bitStorage) (p v l i : Nat)
    (hl : 1 ≤ l) (hpl : p + l ≤ 8) :
    (b.writeValueAtBit p v l).value_.testBit i =
      if i < 8 then (if p ≤ i ∧ i < p + l then v.testBit (i - p) else b.value_.testBit i)
      else false := by
  have hguard : ¬ (l = 0 ∨ p > 7 ∨ p + l > 8) := by omega
  have h256 : (256 : Nat) = 2 ^ 8 := by norm_num
  simp only [bitStorage.writeValueAtBit, hguard, if_false, h256, Nat.testBit_mod_two_pow,
    Nat.testBit_or, Nat.testBit_and, testBit_notMask, testBit_segmentMask,
    Nat.testBit_shiftLeft, ge_iff_le]
  by_cases h8 : i < 8
  · have hi16 : i < 16 := by omega
    by_cases hp : p ≤ i
    · by_cases hlt : i - p < l
      · have hin : p ≤ i ∧ i < p + l := ⟨hp, by omega⟩
        simp [h8, hi16, hp, hlt, hin]
      · have hout : ¬ (i < p + l) := by omega
        simp [h8, hi16, hp, hlt, hout]
    · have hout : ¬ (p ≤ i ∧ i < p + l) := by omega
      simp [h8, hi16, hp, hout]
  · simp [h8]

/-- The bits of the value `readValueAtBit` returns on a valid range. -/
theorem testBit_readValueAtBit (b : bitStorage) (p l j : Nat)
    (hl : 1 ≤ l) (hpl : p + l ≤ 8) :
    (b.readValueAtBit p l).testBit j = (decide (j < l) && b.value_.testBit (p + j)) := by
  have hguard : ¬ (l = 0 ∨ p > 7 ∨ p + l > 8) := by omega
  have h256 : (256 : Nat) = 2 ^ 8 := by norm_num
  simp only [bitStorage.readValueAtBit, hguard, if_false, h256, Nat.testBit_mod_two_pow,
    Nat.testBit_and, testBit_segmentMask, Nat.testBit_shiftRight]
  by_cases hj : j < l
  · have h1 : j < 8 := by omega
    have h2 : p + j < 16 := by omega
    have h3 : p ≤ p + j := by omega
    have h4 : p + j - p < l := by omega
    simp [hj, h1, h2, h4]
  · have h4 : ¬ (p + j - p < l) := by omega
    simp [hj, h4]

/-- Reading a valid range back after writing it gives the value written, when it fits. -/
theorem readValueAtBit_writeValueAtBit (b : bitStorage) (p v l : Nat)
    (hl : 1 ≤ l) (hpl : p + l ≤ 8) (hv : v < 2 ^ l) :
    (b.writeValueAtBit p v l).readValueAtBit p l = v := by
  apply Nat.eq_of_testBit_eq
  intro j
  rw [testBit_readValueAtBit _ _ _ _ hl hpl, testBit_writeValueAtBit _ _ _ _ _ hl hpl]
  by_cases hj : j < l
  · have h1 : p + j < 8 := by omega
    have h2 : p ≤ p + j ∧ p + j < p + l := by omega
    have h3 : p + j - p = j := by omega
    simp [hj, h1, h2, h3]
  · have hlow : v < 2 ^ j := lt_of_lt_of_le hv (Nat.pow_le_pow_right (by norm_num) (by omega))
    simp [hj, Nat.testBit_lt_two_pow hlow]

/-! ## Numeric encoders -/

/-- The volume encoder in closed form. -/
theorem convertVolumeToRegisterValue_eq (x : Int) :
    (convertVolumeToRegisterValue x : Int) =
      if x < -80 then 96 else if x > 15 then 15 else if 0 ≤ x then x else 16 - x := by
  simp only [convertVolumeToRegisterValue, toUInt8]
  rcases abs_cases x with h | h <;> rcases abs_cases (-80 : Int) with h1 | h1 <;>
    rcases abs_cases (15 : Int) with h2 | h2 <;>
    split <;> split <;> split <;> omega

/-- The volume decoder in closed form, on every `uint8_t`. -/
theorem convertRegisterValueToVolume_eq (code : Nat) (hcode : code < 256) :
    convertRegisterValueToVolume code =
      if code < 16 then (code : Int)
      else if code < 144 then 16 - (code : Int)
      else if code = 144 then -128 else 272 - (code : Int) := by
  simp only [convertRegisterValueToVolume, toInt8]
  split_ifs <;> omega

/-- The equalizer encoder in closed form. -/
theorem convertEQLevelToRegisterValue_eq (x : Int) :
    (convertEQLevelToRegisterValue x : Int) =
      if x < -15 then 15 else if x > 15 then 31 else if 0 ≤ x then 16 + x else -x := by
  simp only [convertEQLevelToRegisterValue, toUInt8]
  rcases abs_cases x with h | h <;> rcases abs_cases (-15 : Int) with h1 | h1 <;>
    rcases abs_cases (15 : Int) with h2 | h2 <;>
    split <;> split <;> split <;> omega

/-- The equalizer decoder in closed form, on every `uint8_t`. -/
theorem convertRegisterValueToEQLevel_eq (code : Nat) (hcode : code < 256) :
    convertRegisterValueToEQLevel code =
      if code < 16 then -(code : Int)
      else if code < 144 then (code : Int) - 16 else (code : Int) - 272 := by
  simp only [convertRegisterValueToEQLevel, toInt8]
  split_ifs <;> omega

/-- The volume encoder yields at most 96, the equalizer encoder at most 31. -/
theorem convertVolumeToRegisterValue_le (x : Int) : convertVolumeToRegisterValue x ≤ 96 := by
  have h := convertVolumeToRegisterValue_eq x
  split_ifs at h <;> omega

theorem convertEQLevelToRegisterValue_le (x : Int) : convertEQLevelToRegisterValue x ≤ 31 := by
  have h := convertEQLevelToRegisterValue_eq x
  split_ifs at h <;> omega

/-- The code's `clampv` at the volume bounds and at the equalizer bounds is the saturating
clamp. -/
theorem clampv_volume_eq (x : Int) :
    clampv x MIN_SPEAKER_VOLUME MAX_SPEAKER_VOLUME = max (-80) (min x 15) := by
  simp only [clampv, MIN_SPEAKER_VOLUME, MAX_SPEAKER_VOLUME]
  split_ifs <;> omega

theorem clampv_eq_level_eq (x : Int) :
    clampv x MIN_EQ_LEVEL MAX_EQ_LEVEL = max (-15) (min x 15) := by
  simp only [clampv, MIN_EQ_LEVEL, MAX_EQ_LEVEL]
  split_ifs <;> omega

theorem clampv_gain_eq (g : Nat) : clampv g MIN_INPUT_GAIN MAX_INPUT_GAIN = min g 15 := by
  simp only [clampv, MIN_INPUT_GAIN, MAX_INPUT_GAIN]
  split_ifs <;> omega

/-- Decoding an encoded volume gives the saturated input. -/
theorem volume_decode_encode (x : Int) :
    convertRegisterValueToVolume (convertVolumeToRegisterValue x) = max (-80) (min x 15) := by
  have h := convertVolumeToRegisterValue_eq x
  have hle := convertVolumeToRegisterValue_le x
  rw [convertRegisterValueToVolume_eq _ (by omega)]
  split_ifs at h ⊢ <;> omega

/-- Decoding an encoded equalizer level gives the saturated input. -/
theorem eq_level_decode_encode (x : Int) :
    convertRegisterValueToEQLevel (convertEQLevelToRegisterValue x) = max (-15) (min x 15) := by
  have h := convertEQLevelToRegisterValue_eq x
  have hle := convertEQLevelToRegisterValue_le x
  rw [convertRegisterValueToEQLevel_eq _ (by omega)]
  split_ifs at h ⊢ <;> omega

/-- C11: for every integer `x`, in particular every `int8_t`, decoding the encoded volume
gives `x` saturated to [-80, 15]; it gives `x` itself when `x` lies in [-80, 15]. -/
theorem volume_codec_round_trip (x : Int) :
    convertRegisterValueToVolume (convertVolumeToRegisterValue x) = max (-80) (min x 15) ∧
    (-80 ≤ x → x ≤ 15 →
      convertRegisterValueToVolume (convertVolumeToRegisterValue x) = x) := by
  have h := volume_decode_encode x
  refine ⟨h, fun hlo hhi => ?_⟩
  rw [h]
  omega

/-- C11, at an input below the range, at one above it and at one inside it. -/
theorem volume_codec_round_trip_witness :
    convertRegisterValueToVolume (convertVolumeToRegisterValue (-128)) = max (-80) (min (-128) 15) ∧
    convertRegisterValueToVolume (convertVolumeToRegisterValue 127) = max (-80) (min 127 15) ∧
    convertRegisterValueToVolume (convertVolumeToRegisterValue (-37)) = -37 :=
  ⟨(volume_codec_round_trip (-128)).1, (volume_codec_round_trip 127).1,
    (volume_codec_round_trip (-37)).2 (by decide) (by decide)⟩

/-- C12: for every integer `x`, in particular every `int8_t`, decoding the encoded
equalizer level gives `x` saturated to [-15, 15]; it gives `x` itself when `x` lies in
[-15, 15]. -/
theorem eq_level_codec_round_trip (x : Int) :
    convertRegisterValueToEQLevel (convertEQLevelToRegisterValue x) = max (-15) (min x 15) ∧
    (-15 ≤ x → x ≤ 15 →
      convertRegisterValueToEQLevel (convertEQLevelToRegisterValue x) = x) := by
  have h := eq_level_decode_encode x
  refine ⟨h, fun hlo hhi => ?_⟩
  rw [h]
  omega

/-- C12, at an input below the range, at one above it and at one inside it. -/
theorem eq_level_codec_round_trip_witness :
    convertRegisterValueToEQLevel (convertEQLevelToRegisterValue (-128))
      = max (-15) (min (-128) 15) ∧
    convertRegisterValueToEQLevel (convertEQLevelToRegisterValue 127) = max (-15) (min 127 15) ∧
    convertRegisterValueToEQLevel (convertEQLevelToRegisterValue (-7)) = -7 :=
  ⟨(eq_level_codec_round_trip (-128)).1, (eq_level_codec_round_trip 127).1,
    (eq_level_codec_round_trip (-7)).2 (by decide) (by decide)⟩

/-- C13: on [-80, 15] the volume encoder maps `v >= 0` to `v` and `v < 0` to `16 + |v|`;
on every 7-bit code the decoder maps `code < 16` to `code` and `code >= 16` to
`-(code - 16)`. -/
theorem volume_codec_reference (v : Int) (code : Nat)
    (hlo : -80 ≤ v) (hhi : v ≤ 15) (hcode : code < 128) :
    ((convertVolumeToRegisterValue v : Int) = if 0 ≤ v then v else 16 + |v|) ∧
    (convertRegisterValueToVolume code
      = if code < 16 then (code : Int) else -((code : Int) - 16)) := by
  have h := convertVolumeToRegisterValue_eq v
  have hd := convertRegisterValueToVolume_eq code (by omega)
  constructor
  · rcases abs_cases v with ha | ha <;> split_ifs at h ⊢ <;> omega
  · rw [hd]
    split_ifs <;> omega

/-- C13, at the volume -10 and the code 26. -/
theorem volume_codec_reference_witness :
    (-80 : Int) ≤ -10 ∧ (-10 : Int) ≤ 15 ∧ 26 < 128 ∧
    ((convertVolumeToRegisterValue (-10) : Int) = if (0 : Int) ≤ -10 then -10 else 16 + |(-10)|) ∧
    (convertRegisterValueToVolume 26
      = if 26 < 16 then ((26 : Nat) : Int) else -(((26 : Nat) : Int) - 16)) :=
  ⟨by decide, by decide, by decide,
    volume_codec_reference (-10) 26 (by decide) (by decide) (by decide)⟩

/-- C14 (as stated, refuted): the volume -1 is encoded as 17, not 16, and the volume -80
as 96, which is above 95. -/
theorem volume_code_range_counterexample :
    convertVolumeToRegisterValue (-1) = 17 ∧
    convertVolumeToRegisterValue (-80) = 96 ∧
    ¬ (convertVolumeToRegisterValue (-1) = 16) ∧
    ¬ (convertVolumeToRegisterValue (-80) ≤ 95) := by
  decide

/-- C14 (amended): for every `v` in -1..-80 the volume code is `16 + |v|` and lies in
17..96, with -1 mapped to 17 and -80 mapped to 96. -/
theorem volume_code_range_negative (v : Int) (hlo : -80 ≤ v) (hhi : v ≤ -1) :
    17 ≤ convertVolumeToRegisterValue v ∧
    convertVolumeToRegisterValue v ≤ 96 ∧
    (convertVolumeToRegisterValue v : Int) = 16 + |v| ∧
    convertVolumeToRegisterValue (-1) = 17 ∧
    convertVolumeToRegisterValue (-80) = 96 := by
  have h := convertVolumeToRegisterValue_eq v
  refine ⟨?_, ?_, ?_, by decide, by decide⟩
  · split_ifs at h <;> omega
  · split_ifs at h <;> omega
  · rcases abs_cases v with ha | ha <;> split_ifs at h <;> omega

/-- C14 (amended), at the volume -40. -/
theorem volume_code_range_negative_witness :
    (-80 : Int) ≤ -40 ∧ (-40 : Int) ≤ -1 ∧
    17 ≤ convertVolumeToRegisterValue (-40) ∧
    convertVolumeToRegisterValue (-40) ≤ 96 ∧
    (convertVolumeToRegisterValue (-40) : Int) = 16 + |(-40)| :=
  have h := volume_code_range_negative (-40) (by decide) (by decide)
  ⟨by decide, by decide, h.1, h.2.1, h.2.2.1⟩

/-- C15: on [-15, 15] the equalizer encoder maps `v >= 0` to `16 + v` and `v < 0` to
`|v|`, so the bias sits on the non-negative side (the volume encoder maps 0 to 0, this
one maps 0 to 16); -15 gives 15, 0 gives 16, 15 gives 31, and every result is below 32. -/
theorem eq_level_encoder_reference (v : Int) (hlo : -15 ≤ v) (hhi : v ≤ 15) :
    ((convertEQLevelToRegisterValue v : Int) = if 0 ≤ v then 16 + v else |v|) ∧
    convertEQLevelToRegisterValue v < 2 ^ 5 ∧
    convertEQLevelToRegisterValue (-15) = 15 ∧
    convertEQLevelToRegisterValue 0 = 16 ∧
    convertEQLevelToRegisterValue 15 = 31 ∧
    convertVolumeToRegisterValue 0 = 0 ∧
    (∀ x : Int, convertEQLevelToRegisterValue x < 2 ^ 5) := by
  have h := convertEQLevelToRegisterValue_eq v
  refine ⟨?_, ?_, by decide, by decide, by decide, by decide, ?_⟩
  · rcases abs_cases v with ha | ha <;> split_ifs at h ⊢ <;> omega
  · have := convertEQLevelToRegisterValue_le v
    norm_num
    omega
  · intro x
    have := convertEQLevelToRegisterValue_le x
    norm_num
    omega

/-- C15, at the level -7. -/
theorem eq_level_encoder_reference_witness :
    (-15 : Int) ≤ -7 ∧ (-7 : Int) ≤ 15 ∧
    ((convertEQLevelToRegisterValue (-7) : Int) = if (0 : Int) ≤ -7 then 16 + -7 else |(-7)|) ∧
    convertEQLevelToRegisterValue (-7) < 2 ^ 5 :=
  have h := eq_level_encoder_reference (-7) (by decide) (by decide)
  ⟨by decide, by decide, h.1, h.2.1⟩

/-- C16: both encoders saturate: below the lower bound they give the code of the lower
bound, above the upper bound the code of the upper bound. -/
theorem encoders_clamp_law (x : Int) :
    (x < -80 → convertVolumeToRegisterValue x = convertVolumeToRegisterValue (-80)) ∧
    (x > 15 → convertVolumeToRegisterValue x = convertVolumeToRegisterValue 15) ∧
    (x < -15 → convertEQLevelToRegisterValue x = convertEQLevelToRegisterValue (-15)) ∧
    (x > 15 → convertEQLevelToRegisterValue x = convertEQLevelToRegisterValue 15) ∧
    convertVolumeToRegisterValue x = convertVolumeToRegisterValue (max (-80) (min x 15)) ∧
    convertEQLevelToRegisterValue x = convertEQLevelToRegisterValue (max (-15) (min x 15)) := by
  have hv := convertVolumeToRegisterValue_eq x
  have he := convertEQLevelToRegisterValue_eq x
  have hv1 := convertVolumeToRegisterValue_eq (max (-80) (min x 15))
  have he1 := convertEQLevelToRegisterValue_eq (max (-15) (min x 15))
  have hvlo : convertVolumeToRegisterValue (-80) = 96 := by decide
  have hvhi : convertVolumeToRegisterValue 15 = 15 := by decide
  have helo : convertEQLevelToRegisterValue (-15) = 15 := by decide
  have hehi : convertEQLevelToRegisterValue 15 = 31 := by decide
  refine ⟨fun h => ?_, fun h => ?_, fun h => ?_, fun h => ?_, ?_, ?_⟩
  · rw [hvlo]
    split_ifs at hv
    all_goals omega
  · rw [hvhi]
    split_ifs at hv
    all_goals omega
  · rw [helo]
    split_ifs at he
    all_goals omega
  · rw [hehi]
    split_ifs at he
    all_goals omega
  · split_ifs at hv hv1 <;> omega
  · split_ifs at he he1 <;> omega

/-- C16, at the `int8_t` extremes -128 and 127. -/
theorem encoders_clamp_law_witness :
    convertVolumeToRegisterValue (-128) = convertVolumeToRegisterValue (-80) ∧
    convertVolumeToRegisterValue 127 = convertVolumeToRegisterValue 15 ∧
    convertEQLevelToRegisterValue (-128) = convertEQLevelToRegisterValue (-15) ∧
    convertEQLevelToRegisterValue 127 = convertEQLevelToRegisterValue 15 :=
  ⟨(encoders_clamp_law (-128)).1 (by decide), (encoders_clamp_law 127).2.1 (by decide),
    (encoders_clamp_law (-128)).2.2.1 (by decide), (encoders_clamp_law 127).2.2.2.1 (by decide)⟩

/-! ## Level and gain bindings -/

theorem registers_modifyRegister_same (dev : TDA7419) (reg : RegIndex)
    (f : bitStorage → bitStorage) :
    (dev.modifyRegister reg f).registers reg = f (dev.registers reg) := by
  simp [modifyRegister]

theorem registers_modifyRegister_other (dev : TDA7419) (reg other : RegIndex)
    (f : bitStorage → bitStorage) (h : other ≠ reg) :
    (dev.modifyRegister reg f).registers other = dev.registers other := by
  simp [modifyRegister, h]

/-- On a valid range `readValueAtBit` returns the bits `[p+l-1 : p]` of the byte. -/
theorem readValueAtBit_eq_div_mod (b : bitStorage) (p l : Nat) (hl : 1 ≤ l) (hpl : p + l ≤ 8) :
    b.readValueAtBit p l = b.value_ / 2 ^ p % 2 ^ l := by
  apply Nat.eq_of_testBit_eq
  intro j
  rw [testBit_readValueAtBit _ _ _ _ hl hpl, Nat.testBit_mod_two_pow, ← Nat.shiftRight_eq_div_pow,
    Nat.testBit_shiftRight]

/-- The bits outside a valid range and the saved value survive `writeValueAtBit`. -/
theorem testBit_writeValueAtBit_outside (b : bitStorage) (p v l i : Nat)
    (hl : 1 ≤ l) (hpl : p + l ≤ 8) (hi : i < 8) (hout : i < p ∨ p + l ≤ i) :
    (b.writeValueAtBit p v l).value_.testBit i = b.value_.testBit i := by
  rw [testBit_writeValueAtBit _ _ _ _ _ hl hpl]
  have h : ¬ (p ≤ i ∧ i < p + l) := by omega
  simp [hi, h]

/-- C17: after `setMasterVolume(v)` bits [6:0] of register 3 hold the volume code of `v`
saturated to [-80, 15] (26 for -10, 5 for 5); bit 7 of register 3 and every other
register are as before. -/
theorem setMasterVolume_stores_code (dev : TDA7419) (v : Int) :
    ((dev.setMasterVolume v).registers REG_MASTER_VOLUME).value_ % 2 ^ 7
      = convertVolumeToRegisterValue (max (-80) (min v 15)) ∧
    ((dev.setMasterVolume v).registers REG_MASTER_VOLUME).value_.testBit 7
      = (dev.registers REG_MASTER_VOLUME).value_.testBit 7 ∧
    (∀ reg, reg ≠ REG_MASTER_VOLUME → (dev.setMasterVolume v).registers reg = dev.registers reg) ∧
    ((dev.setMasterVolume (-10)).registers REG_MASTER_VOLUME).value_ % 2 ^ 7 = 26 ∧
    ((dev.setMasterVolume 5).registers REG_MASTER_VOLUME).value_ % 2 ^ 7 = 5 := by
  have hcode : ∀ w : Int,
      ((dev.setMasterVolume w).registers REG_MASTER_VOLUME).value_ % 2 ^ 7
        = convertVolumeToRegisterValue (max (-80) (min w 15)) := by
    intro w
    have hle := convertVolumeToRegisterValue_le (max (-80) (min w 15))
    have hread := readValueAtBit_writeValueAtBit (dev.registers REG_MASTER_VOLUME) 0
      (convertVolumeToRegisterValue (max (-80) (min w 15))) 7 (by omega) (by omega)
      (by norm_num; omega)
    rw [readValueAtBit_eq_div_mod _ _ _ (by omega) (by omega)] at hread
    simp only [setMasterVolume, registers_modifyRegister_same, clampv_volume_eq]
    simpa using hread
  refine ⟨hcode v, ?_, ?_, ?_, ?_⟩
  · simp only [setMasterVolume, registers_modifyRegister_same]
    exact testBit_writeValueAtBit_outside _ _ _ _ _ (by omega) (by omega) (by omega) (by omega)
  · intro reg hreg
    simp only [setMasterVolume]
    exact registers_modifyRegister_other _ _ _ _ hreg
  · rw [hcode (-10)]
    decide
  · rw [hcode 5]
    decide

/-- C18: after `setBassLevel(level)` bits [4:0] of register 6 hold the equalizer code of
`level` saturated to [-15, 15] (15 for -15, 31 for 15); bits [7:5] of register 6 and every
other register are as before. -/
theorem setBassLevel_stores_code (dev : TDA7419) (level : Int) :
    ((dev.setBassLevel level).registers REG_BASS_FILTER).value_ % 2 ^ 5
      = convertEQLevelToRegisterValue (max (-15) (min level 15)) ∧
    (∀ i, 5 ≤ i → i < 8 →
      ((dev.setBassLevel level).registers REG_BASS_FILTER).value_.testBit i
        = (dev.registers REG_BASS_FILTER).value_.testBit i) ∧
    (∀ reg, reg ≠ REG_BASS_FILTER → (dev.setBassLevel level).registers reg = dev.registers reg) ∧
    ((dev.setBassLevel (-15)).registers REG_BASS_FILTER).value_ % 2 ^ 5 = 15 ∧
    ((dev.setBassLevel 15).registers REG_BASS_FILTER).value_ % 2 ^ 5 = 31 := by
  have hcode : ∀ w : Int,
      ((dev.setBassLevel w).registers REG_BASS_FILTER).value_ % 2 ^ 5
        = convertEQLevelToRegisterValue (max (-15) (min w 15)) := by
    intro w
    have hle := convertEQLevelToRegisterValue_le (max (-15) (min w 15))
    have hread := readValueAtBit_writeValueAtBit (dev.registers REG_BASS_FILTER) 0
      (convertEQLevelToRegisterValue (max (-15) (min w 15))) 5 (by omega) (by omega)
      (by norm_num; omega)
    rw [readValueAtBit_eq_div_mod _ _ _ (by omega) (by omega)] at hread
    simp only [setBassLevel, registers_modifyRegister_same, clampv_eq_level_eq]
    simpa using hread
  refine ⟨hcode level, ?_, ?_, ?_, ?_⟩
  · intro i h5 h8
    simp only [setBassLevel, registers_modifyRegister_same]
    exact testBit_writeValueAtBit_outside _ _ _ _ _ (by omega) (by omega) h8 (by omega)
  · intro reg hreg
    simp only [setBassLevel]
    exact registers_modifyRegister_other _ _ _ _ hreg
  · rw [hcode (-15)]
    decide
  · rw [hcode 15]
    decide

/-- Reading a volume binding back after its setter wrote it. -/
theorem volume_read_back (b : bitStorage) (v : Int) :
    convertRegisterValueToVolume
      ((b.writeValueAtBit 0 (convertVolumeToRegisterValue
        (clampv v MIN_SPEAKER_VOLUME MAX_SPEAKER_VOLUME)) 7).readValueAtBit 0 7)
      = max (-80) (min v 15) := by
  have hle := convertVolumeToRegisterValue_le (clampv v MIN_SPEAKER_VOLUME MAX_SPEAKER_VOLUME)
  rw [readValueAtBit_writeValueAtBit _ _ _ _ (by omega) (by omega) (by norm_num; omega),
    volume_decode_encode, clampv_volume_eq]
  omega

/-- Reading an equalizer binding back after its setter wrote it. -/
theorem eq_level_read_back (b : bitStorage) (v : Int) :
    convertRegisterValueToEQLevel
      ((b.writeValueAtBit 0 (convertEQLevelToRegisterValue
        (clampv v MIN_EQ_LEVEL MAX_EQ_LEVEL)) 5).readValueAtBit 0 5)
      = max (-15) (min v 15) := by
  have hle := convertEQLevelToRegisterValue_le (clampv v MIN_EQ_LEVEL MAX_EQ_LEVEL)
  rw [readValueAtBit_writeValueAtBit _ _ _ _ (by omega) (by omega) (by norm_num; omega),
    eq_level_decode_encode, clampv_eq_level_eq]
  omega

/-- Reading a gain binding back after its setter wrote it. -/
theorem gain_read_back (b : bitStorage) (p g : Nat) (hp : p + 4 ≤ 8) :
    (b.writeValueAtBit p (clampv g MIN_INPUT_GAIN MAX_INPUT_GAIN) 4).readValueAtBit p 4
      = min g 15 := by
  rw [clampv_gain_eq]
  exact readValueAtBit_writeValueAtBit _ _ _ _ (by omega) hp
    (lt_of_le_of_lt (Nat.min_le_right g 15) (by norm_num))

/-- C19: for every state and every integer `v`, in particular every `int8_t`, each volume
getter returns `v` saturated to [-80, 15] after the matching setter was called with `v`
(master, mixing channel, subwoofer and each of the four speaker channels), and each
equalizer getter returns `v` saturated to [-15, 15] (treble, middle, bass). -/
theorem level_getters_invert_setters (dev : TDA7419) (v : Int) :
    (dev.setMasterVolume v).getMasterVolume = max (-80) (min v 15) ∧
    (dev.setMixingChannelVolume v).getMixingChannelVolume = max (-80) (min v 15) ∧
    (dev.setSubwooferVolume v).getSubwooferVolume = max (-80) (min v 15) ∧
    (∀ c : SpeakerChannel, (dev.setSpeakerVolume c v).getSpeakerVolume c = max (-80) (min v 15)) ∧
    (dev.setTrebleLevel v).getTrebleLevel = max (-15) (min v 15) ∧
    (dev.setMiddleLevel v).getMiddleLevel = max (-15) (min v 15) ∧
    (dev.setBassLevel v).getBassLevel = max (-15) (min v 15) := by
  refine ⟨?_, ?_, ?_, ?_, ?_, ?_, ?_⟩
  · simp only [setMasterVolume, getMasterVolume, registers_modifyRegister_same]
    exact volume_read_back _ v
  · simp only [setMixingChannelVolume, getMixingChannelVolume, registers_modifyRegister_same]
    exact volume_read_back _ v
  · simp only [setSubwooferVolume, getSubwooferVolume, registers_modifyRegister_same]
    exact volume_read_back _ v
  · intro c
    simp only [setSpeakerVolume, getSpeakerVolume, registers_modifyRegister_same]
    exact volume_read_back _ v
  · simp only [setTrebleLevel, getTrebleLevel, registers_modifyRegister_same]
    exact eq_level_read_back _ v
  · simp only [setMiddleLevel, getMiddleLevel, registers_modifyRegister_same]
    exact eq_level_read_back _ v
  · simp only [setBassLevel, getBassLevel, registers_modifyRegister_same]
    exact eq_level_read_back _ v

/-- C20: for every state and every natural number `g`, in particular every `uint8_t`, the
three gain getters return `min(g, 15)` after the matching setter was called with `g` (15
for 16, where `16 mod 16` is 0), and the setter leaves the bits of its register outside
the 4-bit field as they were: bits 0-2 and 7 of register 0 and of register 7, bits 4-7 of
register 1. -/
theorem gain_setters_saturate (dev : TDA7419) (g : Nat) :
    (dev.setInputGain g).getInputGain = min g 15 ∧
    (dev.setSecondSourceInputGain g).getSecondSourceInputGain = min g 15 ∧
    (dev.setLoudnessAttenuation g).getLoudnessAttenuation = min g 15 ∧
    (∀ i, i < 3 ∨ i = 7 →
      ((dev.setInputGain g).registers REG_MAIN_SOURCE).value_.testBit i
        = (dev.registers REG_MAIN_SOURCE).value_.testBit i) ∧
    (∀ i, i < 3 ∨ i = 7 →
      ((dev.setSecondSourceInputGain g).registers REG_SECOND_SOURCE).value_.testBit i
        = (dev.registers REG_SECOND_SOURCE).value_.testBit i) ∧
    (∀ i, 4 ≤ i → i < 8 →
      ((dev.setLoudnessAttenuation g).registers REG_LOUDNESS_CONTROL).value_.testBit i
        = (dev.registers REG_LOUDNESS_CONTROL).value_.testBit i) ∧
    ((dev.setInputGain 16).getInputGain = 15 ∧ 16 % 16 = 0) := by
  have hin : ∀ g1 : Nat, (dev.setInputGain g1).getInputGain = min g1 15 := by
    intro g1
    simp only [setInputGain, getInputGain, registers_modifyRegister_same]
    exact gain_read_back _ 3 g1 (by omega)
  refine ⟨hin g, ?_, ?_, ?_, ?_, ?_, hin 16, rfl⟩
  · simp only [setSecondSourceInputGain, getSecondSourceInputGain,
      registers_modifyRegister_same]
    exact gain_read_back _ 3 g (by omega)
  · simp only [setLoudnessAttenuation, getLoudnessAttenuation, registers_modifyRegister_same]
    exact gain_read_back _ 0 g (by omega)
  · intro i hi
    simp only [setInputGain, registers_modifyRegister_same]
    exact testBit_writeValueAtBit_outside _ _ _ _ _ (by omega) (by omega) (by omega) (by omega)
  · intro i hi
    simp only [setSecondSourceInputGain, registers_modifyRegister_same]
    exact testBit_writeValueAtBit_outside _ _ _ _ _ (by omega) (by omega) (by omega) (by omega)
  · intro i h4 h8
    simp only [setLoudnessAttenuation, registers_modifyRegister_same]
    exact testBit_writeValueAtBit_outside _ _ _ _ _ (by omega) (by omega) h8 (by omega)

/-! ## The bit-field `bitStorage` -/

/-- The saved value survives `writeValueAtBit` on a valid range. -/
theorem prevValue_writeValueAtBit (b : bitStorage) (pos len value : Nat)
    (hlen : 1 ≤ len) (hrange : pos + len ≤ 8) :
    (b.writeValueAtBit pos value len).prevValue_ = b.prevValue_ := by
  have hguard : ¬ (len = 0 ∨ pos > 7 ∨ pos + len > 8) := by omega
  simp [bitStorage.writeValueAtBit, hguard]

/-- C24: for every stored byte, every `pos` and `len` with `pos + len <= 8` and every `v`
below `2^len`, `readValueAtBit(pos, len)` after `writeValueAtBit(pos, v, len)` returns `v`
(for `len = 0` the write does nothing and the read returns 0, the only such `v`). -/
theorem bitfield_round_trip (b : bitStorage) (pos len v : Nat)
    (hrange : pos + len ≤ 8) (hv : v < 2 ^ len) :
    (b.writeValueAtBit pos v len).readValueAtBit pos len = v := by
  by_cases hl : len = 0
  · subst hl
    have hv0 : v = 0 := by simpa using hv
    simp [bitStorage.readValueAtBit, hv0]
  · exact readValueAtBit_writeValueAtBit b pos v len (by omega) hrange hv

/-- C24, at the byte 0xB7, bits 4-6 and the value 5. -/
theorem bitfield_round_trip_witness :
    4 + 3 ≤ 8 ∧ 5 < 2 ^ 3 ∧
    ((⟨0xB7, 0⟩ : bitStorage).writeValueAtBit 4 5 3).readValueAtBit 4 3 = 5 :=
  ⟨by decide, by decide, bitfield_round_trip ⟨0xB7, 0⟩ 4 3 5 (by decide) (by decide)⟩

/-- C25: for every stored byte, every `pos` and `len` with `pos + len <= 8` and every value,
`writeValueAtBit(pos, value, len)` leaves each of the bits 0-7 outside `[pos, pos+len)` and
the saved value as they were. -/
theorem bitfield_write_frame (b : bitStorage) (pos len value : Nat)
    (hrange : pos + len ≤ 8) :
    (∀ i, i < 8 → (i < pos ∨ pos + len ≤ i) →
      (b.writeValueAtBit pos value len).value_.testBit i = b.value_.testBit i) ∧
    (b.writeValueAtBit pos value len).prevValue_ = b.prevValue_ := by
  by_cases hl : len = 0
  · subst hl
    simp [bitStorage.writeValueAtBit]
  · constructor
    · intro i hi hout
      exact testBit_writeValueAtBit_outside b pos value len i (by omega) hrange hi hout
    · have hguard : ¬ (len = 0 ∨ pos > 7 ∨ pos + len > 8) := by omega
      simp [bitStorage.writeValueAtBit, hguard]

/-- C25, at the byte 0xB7 with saved value 0x41, writing 0xFF into bits 2-3. -/
theorem bitfield_write_frame_witness :
    2 + 2 ≤ 8 ∧
    ((⟨0xB7, 0x41⟩ : bitStorage).writeValueAtBit 2 0xFF 2).value_ = 0xBF ∧
    (∀ i, i < 8 → (i < 2 ∨ 2 + 2 ≤ i) →
      ((⟨0xB7, 0x41⟩ : bitStorage).writeValueAtBit 2 0xFF 2).value_.testBit i
        = (0xB7 : Nat).testBit i) ∧
    ((⟨0xB7, 0x41⟩ : bitStorage).writeValueAtBit 2 0xFF 2).prevValue_ = 0x41 :=
  have h := bitfield_write_frame ⟨0xB7, 0x41⟩ 2 2 0xFF (by decide)
  ⟨by decide, by decide, h.1, h.2⟩

/-- C26: on every valid range (`1 <= len`, `pos <= 7`, `pos + len <= 8`), for every stored
byte and every value, `writeValueAtBit(pos, value, len)` gives the same state as
`writeValueAtBit(pos, value mod 2^len, len)`, and a following `readValueAtBit(pos, len)`
returns `value mod 2^len`. -/
theorem bitfield_write_truncates (b : bitStorage) (pos len value : Nat)
    (hlen : 1 ≤ len) (_hpos : pos ≤ 7) (hrange : pos + len ≤ 8) :
    b.writeValueAtBit pos value len = b.writeValueAtBit pos (value % 2 ^ len) len ∧
    (b.writeValueAtBit pos value len).readValueAtBit pos len = value % 2 ^ len := by
  have hsame : b.writeValueAtBit pos value len = b.writeValueAtBit pos (value % 2 ^ len) len := by
    have hprev : ∀ w, (b.writeValueAtBit pos w len).prevValue_ = b.prevValue_ := fun w =>
      (prevValue_writeValueAtBit b pos len w hlen hrange)
    have hval : (b.writeValueAtBit pos value len).value_
        = (b.writeValueAtBit pos (value % 2 ^ len) len).value_ := by
      apply Nat.eq_of_testBit_eq
      intro i
      rw [testBit_writeValueAtBit _ _ _ _ _ hlen hrange,
        testBit_writeValueAtBit _ _ _ _ _ hlen hrange, Nat.testBit_mod_two_pow]
      by_cases h8 : i < 8
      · by_cases hin : pos ≤ i ∧ i < pos + len
        · have hlt : i - pos < len := by omega
          simp [h8, hin, hlt]
        · simp [h8, hin]
      · simp [h8]
    cases hb : b.writeValueAtBit pos value len with
    | mk v1 p1 =>
      cases hc : b.writeValueAtBit pos (value % 2 ^ len) len with
      | mk v2 p2 =>
        have e1 := hprev value
        have e2 := hprev (value % 2 ^ len)
        rw [hb] at hval e1
        rw [hc] at hval e2
        simp only at hval e1 e2
        rw [hval, e1, e2]
  refine ⟨hsame, ?_⟩
  rw [hsame]
  exact readValueAtBit_writeValueAtBit b pos (value % 2 ^ len) len hlen hrange
    (Nat.mod_lt _ (by positivity))

/-- C26, at the byte 0x1A, bits 3-6 and the value 0xF5, which is truncated to 5. -/
theorem bitfield_write_truncates_witness :
    1 ≤ 4 ∧ 3 ≤ 7 ∧ 3 + 4 ≤ 8 ∧
    (⟨0x1A, 0⟩ : bitStorage).writeValueAtBit 3 0xF5 4
      = (⟨0x1A, 0⟩ : bitStorage).writeValueAtBit 3 (0xF5 % 2 ^ 4) 4 ∧
    ((⟨0x1A, 0⟩ : bitStorage).writeValueAtBit 3 0xF5 4).readValueAtBit 3 4 = 0xF5 % 2 ^ 4 ∧
    0xF5 % 2 ^ 4 = 5 :=
  have h := bitfield_write_truncates ⟨0x1A, 0⟩ 3 4 0xF5 (by decide) (by decide) (by decide)
  ⟨by decide, by decide, by decide, h.1, h.2, by decide⟩

/-- C27: when `pos > 7` or `pos + len > 8` (the sum taken in `int`, without 8-bit
wrap-around), `writeValueAtBit(pos, value, len)` leaves the bit-field as it was and
`readValueAtBit(pos, len)` returns 0, for every stored byte and every value. -/
theorem bitfield_invalid_range_noop (b : bitStorage) (pos len value : Nat)
    (hinvalid : pos > 7 ∨ pos + len > 8) :
    b.writeValueAtBit pos value len = b ∧
    (b.writeValueAtBit pos value len).value_ = b.value_ ∧
    b.readValueAtBit pos len = 0 := by
  have hguard : len = 0 ∨ pos > 7 ∨ pos + len > 8 := Or.inr hinvalid
  simp [bitStorage.writeValueAtBit, bitStorage.readValueAtBit, hguard]

/-- C27, at position 8 with length 1, and at position 200 with length 100, where the sum
would wrap around to 44 in 8 bits. -/
theorem bitfield_invalid_range_noop_witness :
    ((8 : Nat) > 7 ∨ 8 + 1 > 8) ∧
    (⟨0xB7, 0⟩ : bitStorage).writeValueAtBit 8 1 1 = ⟨0xB7, 0⟩ ∧
    (⟨0xB7, 0⟩ : bitStorage).readValueAtBit 8 1 = 0 ∧
    (⟨0xB7, 0⟩ : bitStorage).writeValueAtBit 200 0xFF 100 = ⟨0xB7, 0⟩ ∧
    (⟨0xB7, 0⟩ : bitStorage).readValueAtBit 200 100 = 0 :=
  have h := bitfield_invalid_range_noop ⟨0xB7, 0⟩ 8 1 1 (by decide)
  have h1 := bitfield_invalid_range_noop ⟨0xB7, 0⟩ 200 100 0xFF (by decide)
  ⟨by decide, h.1, h.2.2, h1.1, h1.2.2⟩

/-- The single-bit methods above bit 7, where the shift `1 << bitPosition` is defined: the
shifted bit lies outside the byte and the stored byte stays as it was. -/
theorem single_bit_ops_above_byte (intBits : Nat) (b : bitStorage) (pos : Nat) (flag : Bool)
    (hbyte : b.value_ < 256) (hpos : 7 < pos) (hdef : pos + 1 < intBits) :
    b.setBit intBits pos = some b ∧ b.clearBit intBits pos = some b ∧
    b.toggleBit intBits pos = some b ∧ b.writeBit intBits pos flag = some b := by
  have hd : bitStorage.shiftDefined intBits pos = true := by
    simp [bitStorage.shiftDefined, hdef]
  have h256 : (256 : Nat) = 2 ^ 8 := by norm_num
  have h16 : (65536 : Nat) = 2 ^ 16 := by norm_num
  have hhigh : ∀ i, 8 ≤ i → b.value_.testBit i = false := by
    intro i hi
    apply Nat.testBit_lt_two_pow
    exact lt_of_lt_of_le hbyte (by rw [h256]; exact Nat.pow_le_pow_right (by norm_num) hi)
  have hset : (b.value_ ||| (1 <<< pos)) % 256 = b.value_ := by
    apply Nat.eq_of_testBit_eq
    intro i
    rw [h256, Nat.testBit_mod_two_pow, Nat.testBit_or, Nat.one_shiftLeft, Nat.testBit_two_pow]
    by_cases h8 : i < 8
    · have hne : ¬ pos = i := by omega
      simp [h8, hne]
    · simp [h8, hhigh i (by omega)]
  have hclear : (b.value_ &&& bitStorage.notMask ((1 <<< pos) % 65536)) % 256 = b.value_ := by
    apply Nat.eq_of_testBit_eq
    intro i
    rw [h256, Nat.testBit_mod_two_pow, Nat.testBit_and, testBit_notMask, h16,
      Nat.testBit_mod_two_pow, Nat.one_shiftLeft, Nat.testBit_two_pow]
    by_cases h8 : i < 8
    · have hne : ¬ pos = i := by omega
      have hlt : i < 16 := by omega
      simp [h8, hne, hlt]
    · simp [h8, hhigh i (by omega)]
  have htoggle : (b.value_ ^^^ (1 <<< pos)) % 256 = b.value_ := by
    apply Nat.eq_of_testBit_eq
    intro i
    rw [h256, Nat.testBit_mod_two_pow, Nat.testBit_xor, Nat.one_shiftLeft, Nat.testBit_two_pow]
    by_cases h8 : i < 8
    · have hne : ¬ pos = i := by omega
      simp [h8, hne]
    · simp [h8, hhigh i (by omega)]
  have h1 : b.setBit intBits pos = some b := by
    simp [bitStorage.setBit, hd, hset]
  have h2 : b.clearBit intBits pos = some b := by
    simp [bitStorage.clearBit, hd, hclear]
  refine ⟨h1, h2, ?_, ?_⟩
  · simp [bitStorage.toggleBit, hd, htoggle]
  · cases flag <;> simp [bitStorage.writeBit, h1, h2]

/-- C28 (evaluation of the code): the single-bit methods have no bounds check. At bit
position 8 the shifted bit falls outside the byte and the byte 0x1A stays as it was; at
bit position 16 with a 16-bit `int`, and at bit position 32 with a 32-bit `int`, the
shift `1 << bitPosition` has no defined value, so `setBit`, `clearBit`, `toggleBit` and
`writeBit` have no defined result. -/
theorem single_bit_ops_unguarded :
    (⟨0x1A, 0x1A⟩ : bitStorage).setBit 32 8 = some ⟨0x1A, 0x1A⟩ ∧
    (⟨0x1A, 0x1A⟩ : bitStorage).setBit 16 16 = none ∧
    (⟨0x1A, 0x1A⟩ : bitStorage).setBit 32 32 = none ∧
    (⟨0x1A, 0x1A⟩ : bitStorage).clearBit 32 32 = none ∧
    (⟨0x1A, 0x1A⟩ : bitStorage).toggleBit 32 32 = none ∧
    (⟨0x1A, 0x1A⟩ : bitStorage).writeBit 32 32 true = none ∧
    (⟨0x1A, 0x1A⟩ : bitStorage).writeBit 32 32 false = none ∧
    (⟨0x1A, 0x1A⟩ : bitStorage).writeValueAtBit 32 1 1 = ⟨0x1A, 0x1A⟩ := by
  decide

/-- C29: `isChanged()` is true exactly when the current value differs from the saved one;
it is false right after construction and right after `clearChanged()` in every state;
`clearChanged()` applied twice gives the same state as applied once, and it never changes
the current value. -/
theorem bitfield_dirty_flag (b : bitStorage) :
    (b.isChanged = true ↔ b.value_ ≠ b.prevValue_) ∧
    bitStorage.new.isChanged = false ∧
    b.clearChanged.isChanged = false ∧
    b.clearChanged.clearChanged = b.clearChanged ∧
    b.clearChanged.getValue = b.getValue := by
  refine ⟨?_, by decide, isChanged_clearChanged b, rfl, rfl⟩
  simp [bitStorage.isChanged]

/-- After a write that keeps the saved value, a clean bit-field is changed exactly when
the stored byte differs from the one before. -/
theorem isChanged_after_write (b after : bitStorage) (hclean : b.isChanged = false)
    (hprev : after.prevValue_ = b.prevValue_) :
    (after.value_ ≠ b.value_ → after.isChanged = true) ∧
    (after.value_ = b.value_ → after.isChanged = false) := by
  have hb : b.value_ = b.prevValue_ := by
    simpa [bitStorage.isChanged] using hclean
  constructor
  · intro h
    simp only [bitStorage.isChanged, hprev, ← hb]
    simpa using h
  · intro h
    simp [bitStorage.isChanged, hprev, ← hb, h]

/-- C30: on a clean bit-field (`isChanged()` false, as right after construction or
`clearChanged()`), each write (`setValue`, `writeValueAtBit`, and `setBit`, `clearBit`,
`toggleBit`, `writeBit` where they have a result) makes `isChanged()` true when it alters
the stored byte and leaves `isChanged()` false when it stores the same byte again. -/
theorem change_detection_on_write (intBits : Nat) (b : bitStorage) (value pos len : Nat)
    (flag : Bool) (hclean : b.isChanged = false) :
    (((b.setValue value).value_ ≠ b.value_ → (b.setValue value).isChanged = true) ∧
      ((b.setValue value).value_ = b.value_ → (b.setValue value).isChanged = false)) ∧
    (((b.writeValueAtBit pos value len).value_ ≠ b.value_ →
        (b.writeValueAtBit pos value len).isChanged = true) ∧
      ((b.writeValueAtBit pos value len).value_ = b.value_ →
        (b.writeValueAtBit pos value len).isChanged = false)) ∧
    (∀ after, (b.setBit intBits pos = some after ∨ b.clearBit intBits pos = some after ∨
        b.toggleBit intBits pos = some after ∨ b.writeBit intBits pos flag = some after) →
      (after.value_ ≠ b.value_ → after.isChanged = true) ∧
      (after.value_ = b.value_ → after.isChanged = false)) ∧
    (bitStorage.new.isChanged = false ∧ b.clearChanged.isChanged = false) := by
  have hset : ∀ after, b.setBit intBits pos = some after → after.prevValue_ = b.prevValue_ := by
    intro after h
    simp only [bitStorage.setBit] at h
    split at h
    · cases h
      rfl
    · cases h
  have hclear : ∀ after, b.clearBit intBits pos = some after →
      after.prevValue_ = b.prevValue_ := by
    intro after h
    simp only [bitStorage.clearBit] at h
    split at h
    · cases h
      rfl
    · cases h
  have htoggle : ∀ after, b.toggleBit intBits pos = some after →
      after.prevValue_ = b.prevValue_ := by
    intro after h
    simp only [bitStorage.toggleBit] at h
    split at h
    · cases h
      rfl
    · cases h
  have hwrite : (b.writeValueAtBit pos value len).prevValue_ = b.prevValue_ := by
    simp only [bitStorage.writeValueAtBit]
    split <;> rfl
  refine ⟨isChanged_after_write b _ hclean rfl, isChanged_after_write b _ hclean hwrite, ?_,
    by decide, isChanged_clearChanged b⟩
  intro after h
  apply isChanged_after_write b after hclean
  rcases h with h | h | h | h
  · exact hset after h
  · exact hclear after h
  · exact htoggle after h
  · cases flag
    · exact hclear after (by simpa [bitStorage.writeBit] using h)
    · exact hset after (by simpa [bitStorage.writeBit] using h)

/-- C30, at a freshly constructed bit-field: writing 5 alters the byte and sets the flag,
writing 0 again keeps it clear, `setBit(3)` alters the byte, `clearBit(3)` does not. -/
theorem change_detection_on_write_witness :
    bitStorage.new.isChanged = false ∧
    (bitStorage.new.setValue 5).isChanged = true ∧
    (bitStorage.new.setValue 0).isChanged = false ∧
    (bitStorage.new.writeValueAtBit 0 5 3).isChanged = true ∧
    (bitStorage.new.writeValueAtBit 0 0 3).isChanged = false ∧
    bitStorage.new.setBit 16 3 = some ⟨8, 0⟩ ∧
    (⟨8, 0⟩ : bitStorage).isChanged = true ∧
    bitStorage.new.clearBit 16 3 = some ⟨0, 0⟩ ∧
    (⟨0, 0⟩ : bitStorage).isChanged = false :=
  have h := change_detection_on_write 16 bitStorage.new 5 0 3 false (by decide)
  have h0 := change_detection_on_write 16 bitStorage.new 0 0 3 false (by decide)
  have h3 := change_detection_on_write 16 bitStorage.new 5 3 1 false (by decide)
  ⟨by decide, h.1.1 (by decide), h0.1.2 (by decide), h.2.1.1 (by decide),
    h0.2.1.2 (by decide), by decide,
    (h3.2.2.1 ⟨8, 0⟩ (Or.inl (by decide))).1 (by decide), by decide,
    (h3.2.2.1 ⟨0, 0⟩ (Or.inr (Or.inl (by decide)))).2 (by decide)⟩

/-! ## Output range of the decoders and of the level getters -/

/-- Writing bit 7 keeps bits [6:0]. -/
theorem low7_writeValueAtBit_bit7 (b : bitStorage) (v : Nat) :
    (b.writeValueAtBit 7 v 1).value_ % 128 = b.value_ % 128 := by
  have h128 : (128 : Nat) = 2 ^ 7 := by norm_num
  apply Nat.eq_of_testBit_eq
  intro i
  rw [h128, Nat.testBit_mod_two_pow, Nat.testBit_mod_two_pow]
  by_cases hi : i < 7
  · rw [testBit_writeValueAtBit_outside b 7 v 1 i (by omega) (by omega) (by omega) (by omega)]
  · simp [hi]

/-- Writing a 7-bit code into bits [6:0] stores it there. -/
theorem low7_writeValueAtBit_code (b : bitStorage) (v : Nat) (hv : v < 128) :
    (b.writeValueAtBit 0 v 7).value_ % 128 = v := by
  have hread := readValueAtBit_writeValueAtBit b 0 v 7 (by omega) (by omega)
    (by norm_num; omega)
  rw [readValueAtBit_eq_div_mod _ _ _ (by omega) (by omega)] at hread
  simpa using hread

/-- A setter that writes one bit range of one register keeps the volume codes valid when
the register is no volume register, or the range is bit 7, or the range is bits [6:0] and
the value written is at most 96. -/
theorem volumeCodesValid_modifyRegister (dev after : TDA7419) (target : RegIndex)
    (p v l : Nat)
    (hregs : after.registers
      = (dev.modifyRegister target (fun b => b.writeValueAtBit p v l)).registers)
    (hcase : isVolumeRegister target = false ∨ (p = 7 ∧ l = 1) ∨ (p = 0 ∧ l = 7 ∧ v ≤ 96))
    (h : volumeCodesValid dev) : volumeCodesValid after := by
  intro reg hreg
  rw [hregs]
  by_cases heq : reg = target
  · subst heq
    rw [registers_modifyRegister_same]
    rcases hcase with hc | ⟨hp, hl⟩ | ⟨hp, hl, hv⟩
    · rw [hc] at hreg
      cases hreg
    · subst hp
      subst hl
      rw [low7_writeValueAtBit_bit7]
      exact h reg hreg
    · subst hp
      subst hl
      rw [low7_writeValueAtBit_code _ _ (by omega)]
      exact hv
  · rw [registers_modifyRegister_other _ _ _ _ heq]
    exact h reg hreg

/-- Every public setter keeps the volume codes valid. -/
theorem volumeCodesValid_applySetter (dev : TDA7419) (call : SetterCall)
    (h : volumeCodesValid dev) : volumeCodesValid (dev.applySetter call) := by
  cases call <;>
    refine volumeCodesValid_modifyRegister dev _ _ _ _ _ rfl ?_ h <;>
    first
      | exact Or.inl (by decide)
      | exact Or.inr (Or.inl ⟨rfl, rfl⟩)
      | exact Or.inr (Or.inr ⟨rfl, rfl, convertVolumeToRegisterValue_le _⟩)

/-- The loop of `sendChangedRegisters` changes no current value, whatever the bus answers. -/
theorem sendChangedLoop_value (regs : List RegIndex) :
    ∀ (dev : TDA7419) (wire : TwoWire) (serial : List SerialEvent) (reg : RegIndex),
      ((sendChangedLoop regs dev wire serial).dev.registers reg).value_
        = (dev.registers reg).value_ := by
  induction regs with
  | nil =>
    intro dev wire serial reg
    rfl
  | cons r rest ih =>
    intro dev wire serial reg
    by_cases hc : (dev.registers r).isChanged = true
    · by_cases hs : wire.respond (wire.sent ++ [dev.singleWriteTransaction r]) = 0
      · simp only [sendChangedLoop, hc, if_true, TwoWire.transmit, hs, bne_self_eq_false,
          Bool.false_eq_true, if_false]
        rw [ih]
        simp only [modifyRegister]
        split <;> rfl
      · simp [sendChangedLoop, hc, TwoWire.transmit, hs]
    · simp only [sendChangedLoop, hc, Bool.false_eq_true, if_false]
      exact ih dev wire serial reg

/-- The send operations change no current value, whatever the bus answers. -/
theorem send_operations_keep_values (dev : TDA7419) (wire : TwoWire) (reg : RegIndex) :
    ((dev.sendAllRegisters wire).dev.registers reg).value_ = (dev.registers reg).value_ ∧
    ((dev.sendChangedRegisters wire).dev.registers reg).value_ = (dev.registers reg).value_ := by
  constructor
  · simp only [sendAllRegisters, TwoWire.transmit]
    split <;> rfl
  · exact sendChangedLoop_value allRegisters dev wire _ reg

/-- Every public operation keeps the volume codes valid. -/
theorem volumeCodesValid_applyOperation (dev : TDA7419) (op : Operation)
    (h : volumeCodesValid dev) : volumeCodesValid (dev.applyOperation op) := by
  cases op with
  | setter call => exact volumeCodesValid_applySetter dev call h
  | assignDebug value => exact h
  | begin wire =>
    intro reg hreg
    simp only [applyOperation, begin, (send_operations_keep_values dev wire reg).1]
    exact h reg hreg
  | sendAllRegisters wire =>
    intro reg hreg
    simp only [applyOperation, (send_operations_keep_values dev wire reg).1]
    exact h reg hreg
  | sendChangedRegisters wire =>
    intro reg hreg
    simp only [applyOperation, (send_operations_keep_values dev wire reg).2]
    exact h reg hreg

/-- The volume codes are valid in every state reached from a state where they are. -/
theorem volumeCodesValid_run (ops : List Operation) :
    ∀ dev : TDA7419, volumeCodesValid dev → volumeCodesValid (dev.run ops) := by
  induction ops with
  | nil =>
    intro dev h
    exact h
  | cons op rest ih =>
    intro dev h
    exact ih (dev.applyOperation op) (volumeCodesValid_applyOperation dev op h)

/-- The volume codes of a freshly constructed driver are valid. -/
theorem volumeCodesValid_new : volumeCodesValid TDA7419.new := by
  unfold volumeCodesValid
  decide

/-- A volume getter on a register whose code is at most 96 returns a value in [-80, 15]. -/
theorem volume_getter_range (b : bitStorage) (h : b.value_ % 128 ≤ 96) :
    -80 ≤ convertRegisterValueToVolume (b.readValueAtBit 0 7) ∧
    convertRegisterValueToVolume (b.readValueAtBit 0 7) ≤ 15 := by
  have hread : b.readValueAtBit 0 7 = b.value_ % 128 := by
    rw [readValueAtBit_eq_div_mod _ _ _ (by omega) (by omega)]
    simp
  rw [hread, convertRegisterValueToVolume_eq _ (by omega)]
  split_ifs <;> omega

/-- C21: in every state reached from the constructor through any sequence of public
setter calls (with valid enumeration arguments), assignments to `debug` and send
operations on any bus, `getMasterVolume`, `getMixingChannelVolume`, `getSubwooferVolume`
and `getSpeakerVolume` of each of the four channels return a value in [-80, 15]. -/
theorem volume_getters_in_range_when_reachable (ops : List Operation) :
    (-80 ≤ (TDA7419.new.run ops).getMasterVolume ∧
      (TDA7419.new.run ops).getMasterVolume ≤ 15) ∧
    (-80 ≤ (TDA7419.new.run ops).getMixingChannelVolume ∧
      (TDA7419.new.run ops).getMixingChannelVolume ≤ 15) ∧
    (-80 ≤ (TDA7419.new.run ops).getSubwooferVolume ∧
      (TDA7419.new.run ops).getSubwooferVolume ≤ 15) ∧
    (∀ c : SpeakerChannel, -80 ≤ (TDA7419.new.run ops).getSpeakerVolume c ∧
      (TDA7419.new.run ops).getSpeakerVolume c ≤ 15) := by
  have h := volumeCodesValid_run ops TDA7419.new volumeCodesValid_new
  refine ⟨?_, ?_, ?_, ?_⟩
  · exact volume_getter_range _ (h REG_MASTER_VOLUME (by decide))
  · exact volume_getter_range _ (h REG_MIXING_LEVEL (by decide))
  · exact volume_getter_range _ (h REG_SUBWOOFER_LEVEL (by decide))
  · intro c
    exact volume_getter_range _ (h (speakerIndex c) (by cases c <;> decide))

/-- The decoder does not saturate: the codes 97 and 127 decode to -81 and -111, below -80,
and so would `getMasterVolume` if register 3 held 0x7F. No public operation stores such a
code in a volume register (`volumeCodesValid_run`). -/
theorem volume_decoder_below_range :
    convertRegisterValueToVolume 97 = -81 ∧
    convertRegisterValueToVolume 127 = -111 ∧
    ¬ (-80 ≤ convertRegisterValueToVolume 127) ∧
    (TDA7419.new.modifyRegister REG_MASTER_VOLUME (fun b => b.setValue 0x7F)).getMasterVolume
      = -111 := by
  decide

/-- C23: for every 5-bit code (0..31) the equalizer decoder returns a level in [-15, 15];
hence `getTrebleLevel`, `getMiddleLevel` and `getBassLevel` return a value in [-15, 15]
in every state of the registers. -/
theorem eq_level_decoder_range (regValue : Nat) (dev : TDA7419) (hcode : regValue < 32) :
    (-15 ≤ convertRegisterValueToEQLevel regValue ∧
      convertRegisterValueToEQLevel regValue ≤ 15) ∧
    (-15 ≤ dev.getTrebleLevel ∧ dev.getTrebleLevel ≤ 15) ∧
    (-15 ≤ dev.getMiddleLevel ∧ dev.getMiddleLevel ≤ 15) ∧
    (-15 ≤ dev.getBassLevel ∧ dev.getBassLevel ≤ 15) := by
  have hdec : ∀ code : Nat, code < 32 →
      -15 ≤ convertRegisterValueToEQLevel code ∧ convertRegisterValueToEQLevel code ≤ 15 := by
    intro code hc
    rw [convertRegisterValueToEQLevel_eq _ (by omega)]
    split_ifs <;> omega
  have hread : ∀ b : bitStorage, b.readValueAtBit 0 5 < 32 := by
    intro b
    rw [readValueAtBit_eq_div_mod _ _ _ (by omega) (by omega)]
    exact Nat.mod_lt _ (by norm_num)
  exact ⟨hdec regValue hcode, hdec _ (hread _), hdec _ (hread _), hdec _ (hread _)⟩

/-- C23, at the code 31 and a freshly constructed driver. -/
theorem eq_level_decoder_range_witness :
    31 < 32 ∧
    (-15 ≤ convertRegisterValueToEQLevel 31 ∧ convertRegisterValueToEQLevel 31 ≤ 15) ∧
    (-15 ≤ TDA7419.new.getTrebleLevel ∧ TDA7419.new.getTrebleLevel ≤ 15) :=
  have h := eq_level_decoder_range 31 TDA7419.new (by decide)
  ⟨by decide, h.1, h.2.1⟩

/-! ## The parameter bindings -/

/-- Every setter writes the bit range of its binding, and nothing else, into the
registers. -/
theorem applySetter_registers (dev : TDA7419) (call : SetterCall) :
    (dev.applySetter call).registers
      = (dev.modifyRegister call.range.reg
          (fun b => b.writeValueAtBit call.range.pos call.code call.range.len)).registers := by
  cases call <;> rfl

theorem setterCall_range_valid (call : SetterCall) : call.range.valid = true := by
  cases call <;> rfl

theorem getterCall_range_valid (call : GetterCall) : call.range.valid = true := by
  cases call <;> rfl

theorem setterCall_range_mem (call : SetterCall) : call.range ∈ bindingRanges := by
  cases call with
  | setSpeakerSoftStep channel enable =>
    cases channel <;> simp only [SetterCall.range] <;> decide
  | setSpeakerVolume channel volume =>
    cases channel <;> simp only [SetterCall.range] <;> decide
  | _ =>
    simp only [SetterCall.range]
    decide

theorem getterCall_range_mem (call : GetterCall) : call.range ∈ bindingRanges := by
  cases call with
  | getSpeakerSoftStep channel =>
    cases channel <;> simp only [GetterCall.range] <;> decide
  | getSpeakerVolume channel =>
    cases channel <;> simp only [GetterCall.range] <;> decide
  | _ =>
    simp only [GetterCall.range]
    decide

/-- Two different binding ranges lie in different registers or share no bit. -/
theorem bindingRanges_disjoint :
    ∀ r ∈ bindingRanges, ∀ s ∈ bindingRanges, r ≠ s → r.disjoint s = true := by
  decide

/-- The binding ranges cover every bit of every register. -/
theorem bindingRanges_cover :
    ∀ (reg : RegIndex) (i : Fin 8),
      ∃ r ∈ bindingRanges, r.reg = reg ∧ r.pos ≤ i.val ∧ i.val < r.pos + r.len := by
  decide

/-- A read of a valid range sees nothing of a write to a valid range that shares no bit
with it. -/
theorem readValueAtBit_writeValueAtBit_disjoint (b : bitStorage) (p v l q m : Nat)
    (hl : 1 ≤ l) (hpl : p + l ≤ 8) (hm : 1 ≤ m) (hqm : q + m ≤ 8)
    (hdisj : p + l ≤ q ∨ q + m ≤ p) :
    (b.writeValueAtBit p v l).readValueAtBit q m = b.readValueAtBit q m := by
  apply Nat.eq_of_testBit_eq
  intro j
  rw [testBit_readValueAtBit _ _ _ _ hm hqm, testBit_readValueAtBit _ _ _ _ hm hqm]
  by_cases hj : j < m
  · rw [testBit_writeValueAtBit_outside b p v l (q + j) hl hpl (by omega) (by omega)]
  · simp [hj]

/-- Writes to two valid ranges that share no bit can be swapped. -/
theorem writeValueAtBit_comm (b : bitStorage) (p v l q w m : Nat)
    (hl : 1 ≤ l) (hpl : p + l ≤ 8) (hm : 1 ≤ m) (hqm : q + m ≤ 8)
    (hdisj : p + l ≤ q ∨ q + m ≤ p) :
    (b.writeValueAtBit p v l).writeValueAtBit q w m
      = (b.writeValueAtBit q w m).writeValueAtBit p v l := by
  have hval : ((b.writeValueAtBit p v l).writeValueAtBit q w m).value_
      = ((b.writeValueAtBit q w m).writeValueAtBit p v l).value_ := by
    apply Nat.eq_of_testBit_eq
    intro i
    rw [testBit_writeValueAtBit _ _ _ _ _ hm hqm, testBit_writeValueAtBit _ _ _ _ _ hl hpl,
      testBit_writeValueAtBit _ _ _ _ _ hl hpl, testBit_writeValueAtBit _ _ _ _ _ hm hqm]
    by_cases h8 : i < 8
    · by_cases h1 : p ≤ i ∧ i < p + l
      · have h2 : ¬ (q ≤ i ∧ i < q + m) := by omega
        simp [h8, h1, h2]
      · simp [h8, h1]
    · simp [h8]
  have hprev : ((b.writeValueAtBit p v l).writeValueAtBit q w m).prevValue_
      = ((b.writeValueAtBit q w m).writeValueAtBit p v l).prevValue_ := by
    rw [prevValue_writeValueAtBit _ _ _ _ hm hqm, prevValue_writeValueAtBit _ _ _ _ hl hpl,
      prevValue_writeValueAtBit _ _ _ _ hl hpl, prevValue_writeValueAtBit _ _ _ _ hm hqm]
  cases h1 : (b.writeValueAtBit p v l).writeValueAtBit q w m with
  | mk v1 p1 =>
    cases h2 : (b.writeValueAtBit q w m).writeValueAtBit p v l with
    | mk v2 p2 =>
      rw [h1, h2] at hval hprev
      simp only at hval hprev
      rw [hval, hprev]

/-- A getter depends only on what `readValueAtBit` returns on its bit range. -/
theorem applyGetter_congr (dev after : TDA7419) (call : GetterCall)
    (h : (after.registers call.range.reg).readValueAtBit call.range.pos call.range.len
      = (dev.registers call.range.reg).readValueAtBit call.range.pos call.range.len) :
    after.applyGetter call = dev.applyGetter call := by
  cases call <;> simp only [GetterCall.range] at h <;>
    simp only [applyGetter, getMainSource, getInputGain, getRearSpeakerSource, getSecondSource,
      getSecondSourceInputGain, getAutoZero, getLoudnessAttenuation, getLoudnessCenterFreq,
      getLoudnessHighBoost, getLoudnessSoftStep, getSoftMute, getMutePinEnable, getSoftMuteTime,
      getSoftStepTime, getClockFastMode, getMasterVolumeSoftStep, getMasterVolume,
      getTrebleLevel, getTrebleCenterFreq, getTrebleReferenceInternal,
      getMiddleSoftStepEnabled, getMiddleLevel, getMiddleQFactor, getBassSoftStep, getBassLevel,
      getBassQFactor, getSmoothingFilter, getBassDcMode, getBassCenterFreq,
      getMiddleCenterFreq, getSubCutoffFreq, getMixingGainEffect, getSubwooferEnable,
      getMixingEnable, getMixToRightFront, getMixToLeftFront, getSpeakerSoftStep,
      getSpeakerVolume, getMixingChannelSoftStep, getMixingChannelVolume,
      getSubwooferSoftStep, getSubwooferVolume, getSpectrumCouplingMode, getExternalClock,
      getSpectrumReset, getSpectrumRun, getSpectrumSource, getSpectrumAutoReset,
      getSpectrumFilterQ, h]

/-- What valid and disjoint mean for two bit ranges of the same register. -/
theorem bitRange_facts (r s : BitRange) (hr : r.valid = true) (hs : s.valid = true)
    (hd : r.disjoint s = true) :
    1 ≤ r.len ∧ r.pos + r.len ≤ 8 ∧ 1 ≤ s.len ∧ s.pos + s.len ≤ 8 ∧
    (r.reg = s.reg → r.pos + r.len ≤ s.pos ∨ s.pos + s.len ≤ r.pos) := by
  simp only [BitRange.valid, BitRange.disjoint, Bool.and_eq_true, Bool.or_eq_true,
    decide_eq_true_eq] at hr hs hd
  refine ⟨hr.1, hr.2, hs.1, hs.2, fun heq => ?_⟩
  rcases hd with (h | h) | h
  · exact absurd heq h
  · exact Or.inl h
  · exact Or.inr h

/-- The setter of one binding leaves the getter of every other binding as it was. -/
theorem applyGetter_applySetter_other (dev : TDA7419) (a : SetterCall) (b : GetterCall)
    (hab : a.range ≠ b.range) :
    (dev.applySetter a).applyGetter b = dev.applyGetter b := by
  have hd := bindingRanges_disjoint a.range (setterCall_range_mem a) b.range
    (getterCall_range_mem b) hab
  obtain ⟨h1, h2, h3, h4, h5⟩ :=
    bitRange_facts a.range b.range (setterCall_range_valid a) (getterCall_range_valid b) hd
  apply applyGetter_congr
  rw [applySetter_registers]
  by_cases hreg : b.range.reg = a.range.reg
  · rw [hreg, registers_modifyRegister_same]
    exact readValueAtBit_writeValueAtBit_disjoint _ _ _ _ _ _ h1 h2 h3 h4 (h5 hreg.symm)
  · rw [registers_modifyRegister_other _ _ _ _ hreg]

/-- The setters of two different bindings give the same registers in either order. -/
theorem applySetter_comm (dev : TDA7419) (a c : SetterCall) (hac : a.range ≠ c.range) :
    ((dev.applySetter a).applySetter c).registers
      = ((dev.applySetter c).applySetter a).registers := by
  have hd := bindingRanges_disjoint a.range (setterCall_range_mem a) c.range
    (setterCall_range_mem c) hac
  obtain ⟨h1, h2, h3, h4, h5⟩ :=
    bitRange_facts a.range c.range (setterCall_range_valid a) (setterCall_range_valid c) hd
  rw [applySetter_registers, applySetter_registers]
  funext reg
  simp only [modifyRegister, applySetter_registers]
  by_cases hra : reg = a.range.reg
  · by_cases hrc : reg = c.range.reg
    · have heq : a.range.reg = c.range.reg := hra ▸ hrc
      simp only [hra, heq, if_true]
      exact (writeValueAtBit_comm _ _ _ _ _ _ _ h1 h2 h3 h4 (h5 heq))
    · have hne : ¬ a.range.reg = c.range.reg := fun h => hrc (hra.trans h)
      simp [hra, hne]
  · by_cases hrc : reg = c.range.reg
    · have hne : ¬ c.range.reg = a.range.reg := fun h => hra (hrc.trans h)
      simp [hrc, hne]
    · simp [hra, hrc]

/-- C37: the 55 parameter bindings (register, bit offset, bit length; the speaker bindings
once per channel) have pairwise different bit ranges, two of them lie in different
registers or share no bit, and together they cover all 8 bits of each of the 17
registers. So in every state the setter of binding `a`, with any argument, leaves the
value returned by the getter of a different binding `b` as it was, and the setters of two
different bindings `a` and `c` give the same register bytes in either order. -/
theorem distinct_bindings_do_not_interfere (dev : TDA7419) (a c : SetterCall)
    (b : GetterCall) (hab : a.range ≠ b.range) (hac : a.range ≠ c.range) :
    (bindingRanges.length = 55 ∧ bindingRanges.Nodup) ∧
    (∀ r ∈ bindingRanges, ∀ s ∈ bindingRanges, r ≠ s →
      r.reg ≠ s.reg ∨ r.pos + r.len ≤ s.pos ∨ s.pos + s.len ≤ r.pos) ∧
    (∀ (reg : RegIndex) (i : Fin 8),
      ∃ r ∈ bindingRanges, r.reg = reg ∧ r.pos ≤ i.val ∧ i.val < r.pos + r.len) ∧
    (a.range ∈ bindingRanges ∧ b.range ∈ bindingRanges ∧ c.range ∈ bindingRanges) ∧
    (dev.applySetter a).applyGetter b = dev.applyGetter b ∧
    (∀ reg, (((dev.applySetter a).applySetter c).registers reg).getValue
      = (((dev.applySetter c).applySetter a).registers reg).getValue) := by
  refine ⟨⟨by decide, by decide⟩, ?_, bindingRanges_cover,
    ⟨setterCall_range_mem a, getterCall_range_mem b, setterCall_range_mem c⟩,
    applyGetter_applySetter_other dev a b hab, ?_⟩
  · intro r hr s hs hne
    have hd := bindingRanges_disjoint r hr s hs hne
    simp only [BitRange.disjoint, Bool.or_eq_true, decide_eq_true_eq] at hd
    rcases hd with (h | h) | h
    · exact Or.inl h
    · exact Or.inr (Or.inl h)
    · exact Or.inr (Or.inr h)
  · intro reg
    rw [applySetter_comm dev a c hac]

/-- C37, at a fresh driver: `setInputGain(9)` against `getMainSource` (both on register 0)
and against `setAutoZero(true)`. -/
theorem distinct_bindings_do_not_interfere_witness :
    (SetterCall.setInputGain 9).range ≠ GetterCall.getMainSource.range ∧
    (SetterCall.setInputGain 9).range ≠ (SetterCall.setAutoZero true).range ∧
    (TDA7419.new.applySetter (.setInputGain 9)).applyGetter .getMainSource
      = TDA7419.new.applyGetter .getMainSource ∧
    (∀ reg, (((TDA7419.new.applySetter (.setInputGain 9)).applySetter
        (.setAutoZero true)).registers reg).getValue
      = (((TDA7419.new.applySetter (.setAutoZero true)).applySetter
        (.setInputGain 9)).registers reg).getValue) :=
  have h := distinct_bindings_do_not_interfere TDA7419.new (.setInputGain 9) (.setAutoZero true)
    .getMainSource (by decide) (by decide)
  ⟨by decide, by decide, h.2.2.2.2.1, h.2.2.2.2.2⟩

/-! ## More facts about the loop of `sendChangedRegisters` -/

/-- Clearing the changed flag of one register changes no transaction of the others. -/
theorem singleWriteTransaction_modifyRegister (dev : TDA7419) (r reg : RegIndex) :
    (dev.modifyRegister r bitStorage.clearChanged).singleWriteTransaction reg
      = dev.singleWriteTransaction reg := by
  have hval : ((dev.modifyRegister r bitStorage.clearChanged).registers reg).getValue
      = (dev.registers reg).getValue := by
    simp only [modifyRegister, bitStorage.getValue]
    split <;> rfl
  simp only [singleWriteTransaction, hval]
  rfl

/-- Every transaction the loop issues is the transaction of a register that was changed
when the loop started, whatever the bus answers. -/
theorem sendChangedLoop_sent_changed (regs : List RegIndex) :
    ∀ (dev : TDA7419) (wire : TwoWire) (serial : List SerialEvent),
      ∃ txs : List Transaction,
        (sendChangedLoop regs dev wire serial).wire.sent = wire.sent ++ txs ∧
        ∀ tx ∈ txs, ∃ reg : RegIndex,
          (dev.registers reg).isChanged = true ∧ tx = dev.singleWriteTransaction reg := by
  induction regs with
  | nil =>
    intro dev wire serial
    exact ⟨[], by simp [sendChangedLoop], by simp⟩
  | cons r rest ih =>
    intro dev wire serial
    by_cases hc : (dev.registers r).isChanged = true
    · by_cases hs : wire.respond (wire.sent ++ [dev.singleWriteTransaction r]) = 0
      · obtain ⟨txs, hsent, hshape⟩ := ih (dev.modifyRegister r bitStorage.clearChanged)
          { wire with sent := wire.sent ++ [dev.singleWriteTransaction r] }
          (if dev.debug then serial ++ [SerialEvent.sendingRegister r.val] else serial)
        refine ⟨dev.singleWriteTransaction r :: txs, ?_, ?_⟩
        · simp only [sendChangedLoop, hc, if_true, TwoWire.transmit, hs, bne_self_eq_false,
            Bool.false_eq_true, if_false]
          rw [hsent]
          simp
        · intro tx htx
          rcases List.mem_cons.mp htx with h | h
          · exact ⟨r, hc, h⟩
          · obtain ⟨reg, hreg, htxeq⟩ := hshape tx h
            have hne : reg ≠ r := by
              intro heq
              rw [heq, registers_modifyRegister_same, isChanged_clearChanged] at hreg
              cases hreg
            rw [registers_modifyRegister_other _ _ _ _ hne] at hreg
            rw [singleWriteTransaction_modifyRegister] at htxeq
            exact ⟨reg, hreg, htxeq⟩
      · refine ⟨[dev.singleWriteTransaction r], ?_, ?_⟩
        · simp [sendChangedLoop, hc, TwoWire.transmit, hs]
        · intro tx htx
          exact ⟨r, hc, List.mem_singleton.mp htx⟩
    · obtain ⟨txs, hsent, hshape⟩ := ih dev wire serial
      refine ⟨txs, ?_, hshape⟩
      simp only [sendChangedLoop, hc, Bool.false_eq_true, if_false]
      exact hsent

/-- The loop leaves a register as it was, or it has issued the transaction of that
register, the bus has answered it with status 0, and the register got `clearChanged()`. -/
theorem sendChangedLoop_snapshot (regs : List RegIndex) :
    ∀ (dev : TDA7419) (wire : TwoWire) (serial : List SerialEvent) (reg : RegIndex),
      (sendChangedLoop regs dev wire serial).dev.registers reg = dev.registers reg ∨
      (∃ before after : List Transaction,
        (sendChangedLoop regs dev wire serial).wire.sent
          = wire.sent ++ before ++ [dev.singleWriteTransaction reg] ++ after ∧
        wire.respond (wire.sent ++ before ++ [dev.singleWriteTransaction reg]) = 0 ∧
        (sendChangedLoop regs dev wire serial).dev.registers reg
          = (dev.registers reg).clearChanged) := by
  induction regs with
  | nil =>
    intro dev wire serial reg
    exact Or.inl rfl
  | cons r rest ih =>
    intro dev wire serial reg
    by_cases hc : (dev.registers r).isChanged = true
    · by_cases hs : wire.respond (wire.sent ++ [dev.singleWriteTransaction r]) = 0
      · have hrun : sendChangedLoop (r :: rest) dev wire serial
            = sendChangedLoop rest (dev.modifyRegister r bitStorage.clearChanged)
                { wire with sent := wire.sent ++ [dev.singleWriteTransaction r] }
                (if dev.debug then serial ++ [SerialEvent.sendingRegister r.val]
                  else serial) := by
          simp only [sendChangedLoop, hc, if_true, TwoWire.transmit, hs, bne_self_eq_false,
            Bool.false_eq_true, if_false]
        rw [hrun]
        obtain ⟨txs, hsent, _⟩ := sendChangedLoop_sent_changed rest
          (dev.modifyRegister r bitStorage.clearChanged)
          { wire with sent := wire.sent ++ [dev.singleWriteTransaction r] }
          (if dev.debug then serial ++ [SerialEvent.sendingRegister r.val] else serial)
        rcases ih (dev.modifyRegister r bitStorage.clearChanged)
          { wire with sent := wire.sent ++ [dev.singleWriteTransaction r] }
          (if dev.debug then serial ++ [SerialEvent.sendingRegister r.val] else serial) reg
          with h | ⟨before, after, h1, h2, h3⟩
        · by_cases heq : reg = r
          · right
            refine ⟨[], txs, ?_, ?_, ?_⟩
            · rw [hsent, heq]
              simp
            · rw [heq]
              simpa using hs
            · rw [h, heq, registers_modifyRegister_same]
          · left
            rw [h, registers_modifyRegister_other _ _ _ _ heq]
        · right
          by_cases heq : reg = r
          · refine ⟨[], txs, ?_, ?_, ?_⟩
            · rw [hsent, heq]
              simp
            · rw [heq]
              simpa using hs
            · rw [h3, heq, registers_modifyRegister_same]
              rfl
          · refine ⟨dev.singleWriteTransaction r :: before, after, ?_, ?_, ?_⟩
            · rw [h1, singleWriteTransaction_modifyRegister]
              simp
            · rw [singleWriteTransaction_modifyRegister] at h2
              simpa using h2
            · rw [h3, registers_modifyRegister_other _ _ _ _ heq]
      · left
        simp [sendChangedLoop, hc, TwoWire.transmit, hs]
    · simp only [sendChangedLoop, hc, Bool.false_eq_true, if_false]
      exact ih dev wire serial reg

/-- The loop run with another value of `debug` gives the same result, the same transport
and the same driver state up to `debug`; it differs in the `Serial` output only. -/
theorem sendChangedLoop_debug (regs : List RegIndex) (d : Bool) :
    ∀ (dev : TDA7419) (wire : TwoWire) (serial serial1 : List SerialEvent),
      (sendChangedLoop regs { dev with debug := d } wire serial1).ok
        = (sendChangedLoop regs dev wire serial).ok ∧
      (sendChangedLoop regs { dev with debug := d } wire serial1).wire
        = (sendChangedLoop regs dev wire serial).wire ∧
      (sendChangedLoop regs { dev with debug := d } wire serial1).dev
        = { (sendChangedLoop regs dev wire serial).dev with debug := d } := by
  induction regs with
  | nil =>
    intro dev wire serial serial1
    exact ⟨rfl, rfl, rfl⟩
  | cons r rest ih =>
    intro dev wire serial serial1
    have htx : ({ dev with debug := d } : TDA7419).singleWriteTransaction r
        = dev.singleWriteTransaction r := rfl
    have hreg : (({ dev with debug := d } : TDA7419).registers r) = dev.registers r := rfl
    by_cases hc : (dev.registers r).isChanged = true
    · by_cases hs : wire.respond (wire.sent ++ [dev.singleWriteTransaction r]) = 0
      · simp only [sendChangedLoop, hreg, htx, hc, if_true, TwoWire.transmit, hs,
          bne_self_eq_false, Bool.false_eq_true, if_false]
        exact ih (dev.modifyRegister r bitStorage.clearChanged) _ _ _
      · simp [sendChangedLoop, hreg, htx, hc, TwoWire.transmit, hs]
    · simp only [sendChangedLoop, hreg, hc, Bool.false_eq_true, if_false]
      exact ih dev wire serial serial1

/-- No `writeValueAtBit` changes the saved value. -/
theorem prevValue_writeValueAtBit_any (b : bitStorage) (p v l : Nat) :
    (b.writeValueAtBit p v l).prevValue_ = b.prevValue_ := by
  simp only [bitStorage.writeValueAtBit]
  split <;> rfl

/-- No setter changes the saved value of a register. -/
theorem prevValue_applySetter (dev : TDA7419) (call : SetterCall) (reg : RegIndex) :
    ((dev.applySetter call).registers reg).prevValue_ = (dev.registers reg).prevValue_ := by
  rw [applySetter_registers]
  simp only [modifyRegister]
  split
  · exact prevValue_writeValueAtBit_any _ _ _ _
  · rfl

theorem prevValue_applySetters (calls : List SetterCall) :
    ∀ (dev : TDA7419) (reg : RegIndex),
      ((dev.applySetters calls).registers reg).prevValue_ = (dev.registers reg).prevValue_ := by
  induction calls with
  | nil =>
    intro dev reg
    rfl
  | cons call rest ih =>
    intro dev reg
    have h := ih (dev.applySetter call) reg
    rw [prevValue_applySetter] at h
    exact h

/-- A setter leaves `inputChanged` set when it is set. -/
theorem inputChanged_applySetter (dev : TDA7419) (call : SetterCall)
    (h : dev.inputChanged = true) : (dev.applySetter call).inputChanged = true := by
  cases call <;> first | rfl | exact h

theorem inputChanged_applySetters (calls : List SetterCall) :
    ∀ dev : TDA7419, dev.inputChanged = true → (dev.applySetters calls).inputChanged = true := by
  induction calls with
  | nil =>
    intro dev h
    exact h
  | cons call rest ih =>
    intro dev h
    exact ih (dev.applySetter call) (inputChanged_applySetter dev call h)

theorem allRegisters_take_succ (f : RegIndex) :
    allRegisters.take (f.val + 1) = registersBelow f ++ [f] := by
  revert f
  decide

/-- When the transactions of the changed registers below the changed register `f` succeed,
`sendChangedRegisters` goes on to issue the transaction of `f`. -/
theorem sendChangedRegisters_reaches (dev : TDA7419) (wire : TwoWire) (f : RegIndex)
    (hdirty : (dev.registers f).isChanged = true)
    (hok : ∀ r : RegIndex, r < f → (dev.registers r).isChanged = true →
      wire.respond (wire.sent ++ dev.changedTransactions (registersBelow r)
        ++ [dev.singleWriteTransaction r]) = 0) :
    ∃ after : List Transaction,
      (dev.sendChangedRegisters wire).wire.sent
        = wire.sent ++ dev.changedTransactions (registersBelow f)
          ++ [dev.singleWriteTransaction f] ++ after := by
  by_cases hs : wire.respond (wire.sent ++ dev.changedTransactions (registersBelow f)
      ++ [dev.singleWriteTransaction f]) = 0
  · have hall : ∀ r : RegIndex, r.val < f.val + 1 → (dev.registers r).isChanged = true →
        wire.respond (wire.sent ++ dev.changedTransactions (registersBelow r)
          ++ [dev.singleWriteTransaction r]) = 0 := by
      intro r hr hc
      by_cases hlt : r < f
      · exact hok r hlt hc
      · have heq : r = f := Fin.ext (by have := Fin.lt_def.not.mp hlt; omega)
        rw [heq]
        exact hs
    have h := sendChangedLoop_take (f.val + 1) (allRegisters.drop (f.val + 1)) dev wire
      (if dev.debug then [dev.printRegistersDebug, SerialEvent.sendingChanged] else []) hall
    have hrun : dev.sendChangedRegisters wire
        = sendChangedLoop (allRegisters.take (f.val + 1) ++ allRegisters.drop (f.val + 1)) dev
            wire (if dev.debug then [dev.printRegistersDebug, SerialEvent.sendingChanged]
              else []) := by
      rw [List.take_append_drop]
      rfl
    obtain ⟨txs, hsent, _⟩ := sendChangedLoop_sent_changed (allRegisters.drop (f.val + 1))
      (dev.clearRegisters (allRegisters.take (f.val + 1)))
      { wire with sent := wire.sent ++ dev.changedTransactions (allRegisters.take (f.val + 1)) }
      ((if dev.debug then [dev.printRegistersDebug, SerialEvent.sendingChanged] else [])
        ++ dev.sendingEvents (allRegisters.take (f.val + 1)))
    have htake := allRegisters_take_succ f
    refine ⟨txs, ?_⟩
    rw [hrun, h, hsent, htake]
    simp [changedTransactions, List.filter_append, hdirty]
  · obtain ⟨_, _, hwire⟩ := sendChangedRegisters_of_fail dev wire f hdirty hok hs
    exact ⟨[], by rw [hwire]; simp⟩

/-- When no register is changed, `sendChangedRegisters` issues no transaction, returns
`true` and leaves the driver state as it was. -/
theorem sendChangedRegisters_of_clean (dev : TDA7419) (wire : TwoWire)
    (hclean : ∀ reg, (dev.registers reg).isChanged = false) :
    (dev.sendChangedRegisters wire).ok = true ∧
    (dev.sendChangedRegisters wire).wire.sent = wire.sent ∧
    (dev.sendChangedRegisters wire).dev.registers = dev.registers := by
  obtain ⟨hres, hdev, hwire⟩ := sendChangedRegisters_of_ok dev wire
    (fun r hc => by rw [hclean r] at hc; cases hc)
  have hnone : dev.changedTransactions allRegisters = [] := by
    simp [changedTransactions, hclean]
  refine ⟨hres, ?_, ?_⟩
  · rw [hwire, hnone]
    simp
  · rw [hdev]
    funext reg
    simp only [clearRegisters]
    split
    · exact clearChanged_of_not_isChanged _ (by rw [hclean reg]; simp)
    · rfl

/-! ## Saved values, the debug flag and the fresh driver -/

/-- C31: no setter changes the saved value (committed snapshot) of any register; a failed
`sendAllRegisters` changes none, a successful one sets each to the byte it transmitted;
and `sendChangedRegisters` leaves register `reg` exactly as it was unless it issued the
transaction of `reg` and the bus answered it with status 0, in which case the saved value
is the byte transmitted. -/
theorem snapshot_changes_only_on_success (dev : TDA7419) (call : SetterCall)
    (wire : TwoWire) (reg : RegIndex) :
    ((dev.applySetter call).registers reg).prevValue_ = (dev.registers reg).prevValue_ ∧
    (wire.respond (wire.sent ++ [dev.fullWriteTransaction]) ≠ 0 →
      ((dev.sendAllRegisters wire).dev.registers reg).prevValue_
        = (dev.registers reg).prevValue_) ∧
    (wire.respond (wire.sent ++ [dev.fullWriteTransaction]) = 0 →
      ((dev.sendAllRegisters wire).dev.registers reg).prevValue_
        = (dev.registers reg).getValue) ∧
    ((dev.sendChangedRegisters wire).dev.registers reg = dev.registers reg ∨
      ∃ before after : List Transaction,
        (dev.sendChangedRegisters wire).wire.sent = wire.sent ++ before
          ++ [⟨0x44, [dev.singleWriteSubAddress reg, (dev.registers reg).getValue]⟩] ++ after ∧
        wire.respond (wire.sent ++ before
          ++ [⟨0x44, [dev.singleWriteSubAddress reg, (dev.registers reg).getValue]⟩]) = 0 ∧
        ((dev.sendChangedRegisters wire).dev.registers reg).prevValue_
          = (dev.registers reg).getValue) := by
  refine ⟨prevValue_applySetter dev call reg, ?_, ?_, ?_⟩
  · intro hfail
    simp [sendAllRegisters, TwoWire.transmit, hfail]
  · intro hok
    simp [sendAllRegisters, TwoWire.transmit, hok, bitStorage.clearChanged, bitStorage.getValue]
  · rcases sendChangedLoop_snapshot allRegisters dev wire
      (if dev.debug then [dev.printRegistersDebug, SerialEvent.sendingChanged] else []) reg
      with h | ⟨before, after, h1, h2, h3⟩
    · exact Or.inl h
    · refine Or.inr ⟨before, after, h1, h2, ?_⟩
      have h4 : ((dev.sendChangedRegisters wire).dev.registers reg)
          = (dev.registers reg).clearChanged := h3
      rw [h4]
      rfl

/-- C31, at a fresh driver: `setInputGain(9)` keeps the saved value 0 of register 0, a
full write that is not acknowledged keeps it, and an incremental write whose second
transaction fails sets the saved value of register 0 to the byte 0x1A it transmitted and
leaves register 1 as it was. -/
theorem snapshot_changes_only_on_success_witness :
    ((TDA7419.new.applySetter (.setInputGain 9)).registers 0).prevValue_ = 0 ∧
    nackWire.respond (nackWire.sent ++ [TDA7419.new.fullWriteTransaction]) ≠ 0 ∧
    ((TDA7419.new.sendAllRegisters nackWire).dev.registers 0).prevValue_ = 0 ∧
    ((TDA7419.new.sendChangedRegisters secondFailsWire).dev.registers 0).prevValue_ = 0x1A ∧
    (TDA7419.new.sendChangedRegisters secondFailsWire).dev.registers 1
      = TDA7419.new.registers 1 :=
  have h := snapshot_changes_only_on_success TDA7419.new (.setInputGain 9) nackWire 0
  ⟨h.1, by decide, h.2.1 (by decide), by decide, by decide⟩

/-- C33: two states that differ only in `debug` give, on every bus, the same result of
`sendAllRegisters` and of `sendChangedRegisters`, the same transactions on the bus, and the
same registers (current and saved values) and `inputChanged` afterwards. -/
theorem debug_flag_has_no_effect (dev : TDA7419) (d : Bool) (wire : TwoWire) :
    (({ dev with debug := d } : TDA7419).sendAllRegisters wire).ok
        = (dev.sendAllRegisters wire).ok ∧
    (({ dev with debug := d } : TDA7419).sendAllRegisters wire).wire.sent
        = (dev.sendAllRegisters wire).wire.sent ∧
    (({ dev with debug := d } : TDA7419).sendAllRegisters wire).dev.registers
        = (dev.sendAllRegisters wire).dev.registers ∧
    (({ dev with debug := d } : TDA7419).sendAllRegisters wire).dev.inputChanged
        = (dev.sendAllRegisters wire).dev.inputChanged ∧
    (({ dev with debug := d } : TDA7419).sendChangedRegisters wire).ok
        = (dev.sendChangedRegisters wire).ok ∧
    (({ dev with debug := d } : TDA7419).sendChangedRegisters wire).wire.sent
        = (dev.sendChangedRegisters wire).wire.sent ∧
    (({ dev with debug := d } : TDA7419).sendChangedRegisters wire).dev.registers
        = (dev.sendChangedRegisters wire).dev.registers ∧
    (({ dev with debug := d } : TDA7419).sendChangedRegisters wire).dev.inputChanged
        = (dev.sendChangedRegisters wire).dev.inputChanged := by
  have htx : ({ dev with debug := d } : TDA7419).fullWriteTransaction
      = dev.fullWriteTransaction := rfl
  obtain ⟨h1, h2, h3⟩ := sendChangedLoop_debug allRegisters d dev wire
    (if dev.debug then [dev.printRegistersDebug, SerialEvent.sendingChanged] else [])
    (if d then [({ dev with debug := d } : TDA7419).printRegistersDebug,
      SerialEvent.sendingChanged] else [])
  have hrun : ({ dev with debug := d } : TDA7419).sendChangedRegisters wire
      = sendChangedLoop allRegisters { dev with debug := d } wire
          (if d then [({ dev with debug := d } : TDA7419).printRegistersDebug,
            SerialEvent.sendingChanged] else []) := rfl
  have hrun0 : dev.sendChangedRegisters wire
      = sendChangedLoop allRegisters dev wire
          (if dev.debug then [dev.printRegistersDebug, SerialEvent.sendingChanged]
            else []) := rfl
  refine ⟨?_, ?_, ?_, ?_, ?_, ?_, ?_, ?_⟩
  · simp only [sendAllRegisters, TwoWire.transmit, htx]
    split <;> rfl
  · simp only [sendAllRegisters, TwoWire.transmit, htx]
    split <;> rfl
  · simp only [sendAllRegisters, TwoWire.transmit, htx]
    split <;> rfl
  · simp only [sendAllRegisters, TwoWire.transmit, htx]
    split <;> rfl
  · rw [hrun, hrun0, h1]
  · rw [hrun, hrun0, h2]
  · rw [hrun, hrun0, h3]
  · rw [hrun, hrun0, h3]

/-- No single-register write uses the sub-address 0x07: register 7 is sent as 0x47. -/
theorem singleWriteSubAddress_ne_seven (dev : TDA7419) (reg : RegIndex) :
    dev.singleWriteSubAddress reg ≠ 0x07 := by
  cases h : dev.inputChanged
  · simp only [singleWriteSubAddress, h]
    revert reg
    decide
  · simp only [singleWriteSubAddress, h]
    revert reg
    decide

/-- C34: after `setRearSpeakerSource(r)`, `inputChanged` is set; when register 7 is changed
and the transactions of the changed registers below it succeed, `sendChangedRegisters`
sends register 7 with sub-address 0x47, which has bit 6 set. On every bus no transaction
of `sendChangedRegisters` carries sub-address 0x07, and in every state the sub-address of
a register lacks bit 6 only for register 0 with `inputChanged` set. -/
theorem rear_source_register_keeps_auto_zero_remain (dev : TDA7419) (r : RearSpeakerSource)
    (wire : TwoWire)
    (hdirty : ((dev.setRearSpeakerSource r).registers REG_SECOND_SOURCE).isChanged = true)
    (hok : ∀ reg : RegIndex, reg < REG_SECOND_SOURCE →
      ((dev.setRearSpeakerSource r).registers reg).isChanged = true →
      wire.respond (wire.sent
        ++ (dev.setRearSpeakerSource r).changedTransactions (registersBelow reg)
        ++ [(dev.setRearSpeakerSource r).singleWriteTransaction reg]) = 0) :
    (dev.setRearSpeakerSource r).inputChanged = true ∧
    (∃ after : List Transaction,
      ((dev.setRearSpeakerSource r).sendChangedRegisters wire).wire.sent
        = wire.sent
          ++ (dev.setRearSpeakerSource r).changedTransactions (registersBelow REG_SECOND_SOURCE)
          ++ [⟨0x44, [0x47,
              ((dev.setRearSpeakerSource r).registers REG_SECOND_SOURCE).getValue]⟩]
          ++ after) ∧
    Nat.testBit 0x47 6 = true ∧
    (∀ (state : TDA7419) (bus : TwoWire), ∃ txs : List Transaction,
      (state.sendChangedRegisters bus).wire.sent = bus.sent ++ txs ∧
      ∀ tx ∈ txs, ∀ value : Nat, tx ≠ ⟨0x44, [0x07, value]⟩) ∧
    (∀ (state : TDA7419) (reg : RegIndex),
      (state.singleWriteSubAddress reg).testBit 6 = false
        ↔ (reg = REG_MAIN_SOURCE ∧ state.inputChanged = true)) := by
  refine ⟨rfl, ?_, by decide, ?_, ?_⟩
  · exact sendChangedRegisters_reaches (dev.setRearSpeakerSource r) wire REG_SECOND_SOURCE
      hdirty hok
  · intro state bus
    obtain ⟨txs, hsent, htxs⟩ := sendChangedLoop_sent_changed allRegisters state bus
      (if state.debug then [state.printRegistersDebug, SerialEvent.sendingChanged] else [])
    refine ⟨txs, hsent, ?_⟩
    intro tx htx value heq
    obtain ⟨reg, _, hreg⟩ := htxs tx htx
    rw [hreg] at heq
    have hsub : state.singleWriteSubAddress reg = 0x07 := by
      simp only [singleWriteTransaction, Transaction.mk.injEq, List.cons.injEq] at heq
      exact heq.2.1
    exact singleWriteSubAddress_ne_seven state reg hsub
  · intro state reg
    cases h : state.inputChanged
    · simp only [singleWriteSubAddress, h]
      revert reg
      decide
    · simp only [singleWriteSubAddress, h]
      revert reg
      decide

/-- C34, at a driver whose registers are all clean after a successful full write, where
`setRearSpeakerSource(secondSource)` changes register 7 from 0x41 to 0xC1. -/
theorem rear_source_register_keeps_auto_zero_remain_witness :
    (((TDA7419.new.sendAllRegisters okWire).dev.setRearSpeakerSource
      RearSpeakerSource.secondSource).registers REG_SECOND_SOURCE).isChanged = true ∧
    (∃ after : List Transaction,
      (((TDA7419.new.sendAllRegisters okWire).dev.setRearSpeakerSource
        RearSpeakerSource.secondSource).sendChangedRegisters okWire).wire.sent
        = okWire.sent
          ++ ((TDA7419.new.sendAllRegisters okWire).dev.setRearSpeakerSource
            RearSpeakerSource.secondSource).changedTransactions
              (registersBelow REG_SECOND_SOURCE)
          ++ [⟨0x44, [0x47,
              (((TDA7419.new.sendAllRegisters okWire).dev.setRearSpeakerSource
                RearSpeakerSource.secondSource).registers REG_SECOND_SOURCE).getValue]⟩]
          ++ after) ∧
    (((TDA7419.new.sendAllRegisters okWire).dev.setRearSpeakerSource
      RearSpeakerSource.secondSource).sendChangedRegisters okWire).wire.sent
      = [⟨0x44, [0x47, 0xC1]⟩] :=
  have h := rear_source_register_keeps_auto_zero_remain (TDA7419.new.sendAllRegisters okWire).dev
    RearSpeakerSource.secondSource okWire (by decide) (fun _ _ _ => rfl)
  ⟨by decide, h.2.1, by decide⟩

/-- C35: on a freshly constructed driver a register is changed exactly when its default
byte is nonzero, that is exactly registers 0, 1, 2, 4, 7, 8, 9 and 16; when every
transaction succeeds `sendChangedRegisters` returns `true` and issues exactly the eight
transactions of those registers, in index order; and on every bus each transaction it
issues is the one of a register whose default byte is nonzero. -/
theorem fresh_driver_changed_registers (wire : TwoWire)
    (hok : ∀ r : RegIndex, (TDA7419.new.registers r).isChanged = true →
      wire.respond (wire.sent ++ TDA7419.new.changedTransactions (registersBelow r)
        ++ [TDA7419.new.singleWriteTransaction r]) = 0) :
    (∀ reg : RegIndex, (TDA7419.new.registers reg).isChanged = true ↔ defaultValue reg ≠ 0) ∧
    allRegisters.filter (fun reg => (TDA7419.new.registers reg).isChanged)
      = [0, 1, 2, 4, 7, 8, 9, 16] ∧
    allRegisters.filter (fun reg => !(TDA7419.new.registers reg).isChanged)
      = [3, 5, 6, 10, 11, 12, 13, 14, 15] ∧
    (TDA7419.new.sendChangedRegisters wire).ok = true ∧
    (TDA7419.new.sendChangedRegisters wire).wire.sent = wire.sent ++
      [⟨0x44, [0x00, 0x1A]⟩, ⟨0x44, [0x41, 0x08]⟩, ⟨0x44, [0x42, 0xB7]⟩, ⟨0x44, [0x44, 0x80]⟩,
       ⟨0x44, [0x47, 0x41]⟩, ⟨0x44, [0x48, 0xE0]⟩, ⟨0x44, [0x49, 0x27]⟩, ⟨0x44, [0x50, 0x1C]⟩] ∧
    (∀ bus : TwoWire, ∃ txs : List Transaction,
      (TDA7419.new.sendChangedRegisters bus).wire.sent = bus.sent ++ txs ∧
      ∀ tx ∈ txs, ∃ reg : RegIndex,
        defaultValue reg ≠ 0 ∧ tx = TDA7419.new.singleWriteTransaction reg) := by
  have hiff : ∀ reg : RegIndex,
      (TDA7419.new.registers reg).isChanged = true ↔ defaultValue reg ≠ 0 := by decide
  obtain ⟨hres, _, hwire⟩ := sendChangedRegisters_of_ok TDA7419.new wire hok
  refine ⟨hiff, by decide, by decide, hres, ?_, ?_⟩
  · rw [hwire]
    have hlist : TDA7419.new.changedTransactions allRegisters =
        [⟨0x44, [0x00, 0x1A]⟩, ⟨0x44, [0x41, 0x08]⟩, ⟨0x44, [0x42, 0xB7]⟩,
         ⟨0x44, [0x44, 0x80]⟩, ⟨0x44, [0x47, 0x41]⟩, ⟨0x44, [0x48, 0xE0]⟩,
         ⟨0x44, [0x49, 0x27]⟩, ⟨0x44, [0x50, 0x1C]⟩] := by decide
    rw [hlist]
  · intro bus
    obtain ⟨txs, hsent, htxs⟩ := sendChangedLoop_sent_changed allRegisters TDA7419.new bus
      (if TDA7419.new.debug then [TDA7419.new.printRegistersDebug, SerialEvent.sendingChanged]
        else [])
    refine ⟨txs, hsent, ?_⟩
    intro tx htx
    obtain ⟨reg, hc, hreg⟩ := htxs tx htx
    exact ⟨reg, (hiff reg).mp hc, hreg⟩

/-- C35, on the transport on which every transaction succeeds. -/
theorem fresh_driver_changed_registers_witness :
    (TDA7419.new.sendChangedRegisters okWire).ok = true ∧
    (TDA7419.new.sendChangedRegisters okWire).wire.sent =
      [⟨0x44, [0x00, 0x1A]⟩, ⟨0x44, [0x41, 0x08]⟩, ⟨0x44, [0x42, 0xB7]⟩, ⟨0x44, [0x44, 0x80]⟩,
       ⟨0x44, [0x47, 0x41]⟩, ⟨0x44, [0x48, 0xE0]⟩, ⟨0x44, [0x49, 0x27]⟩, ⟨0x44, [0x50, 0x1C]⟩] :=
  have h := fresh_driver_changed_registers okWire (fun _ _ => rfl)
  ⟨h.2.2.2.1, h.2.2.2.2.1⟩

/-- C36: `inputChanged` is set on a freshly constructed driver and stays set under every
sequence of setters, so on every bus, whatever it answers, the first `sendAllRegisters`
(also through `begin`) writes the command byte 0x20 followed by the 17 register values;
and when that transaction succeeds, `inputChanged` is cleared and a second
`sendAllRegisters` right after it writes the command byte 0x60. -/
theorem first_full_write_omits_auto_zero_remain (calls : List SetterCall) (wire : TwoWire) :
    TDA7419.new.inputChanged = true ∧
    (TDA7419.new.applySetters calls).inputChanged = true ∧
    (TDA7419.new.applySetters calls).fullWriteCommand = 0x20 ∧
    ((TDA7419.new.applySetters calls).sendAllRegisters wire).wire.sent
      = wire.sent ++ [⟨0x44, 0x20 :: allRegisters.map fun reg =>
          ((TDA7419.new.applySetters calls).registers reg).getValue⟩] ∧
    ((TDA7419.new.applySetters calls).begin wire).wire.sent
      = wire.sent ++ [⟨0x44, 0x20 :: allRegisters.map fun reg =>
          ((TDA7419.new.applySetters calls).registers reg).getValue⟩] ∧
    (wire.respond
        (wire.sent ++ [(TDA7419.new.applySetters calls).fullWriteTransaction]) = 0 →
      ((TDA7419.new.applySetters calls).sendAllRegisters wire).ok = true ∧
      ((TDA7419.new.applySetters calls).sendAllRegisters wire).dev.inputChanged = false ∧
      ((TDA7419.new.applySetters calls).sendAllRegisters wire).dev.fullWriteCommand = 0x60 ∧
      ((((TDA7419.new.applySetters calls).sendAllRegisters wire).dev.sendAllRegisters
          ((TDA7419.new.applySetters calls).sendAllRegisters wire).wire).wire.sent
        = wire.sent ++
          [⟨0x44, 0x20 :: allRegisters.map fun reg =>
            ((TDA7419.new.applySetters calls).registers reg).getValue⟩,
           ⟨0x44, 0x60 :: allRegisters.map fun reg =>
            ((TDA7419.new.applySetters calls).registers reg).getValue⟩])) := by
  have hin : (TDA7419.new.applySetters calls).inputChanged = true :=
    inputChanged_applySetters calls TDA7419.new rfl
  have hcmd : (TDA7419.new.applySetters calls).fullWriteCommand = 0x20 := by
    simp only [fullWriteCommand, hin]
    rfl
  have htx : (TDA7419.new.applySetters calls).fullWriteTransaction
      = ⟨0x44, 0x20 :: allRegisters.map fun reg =>
          ((TDA7419.new.applySetters calls).registers reg).getValue⟩ := by
    simp only [fullWriteTransaction, hcmd]
    rfl
  have hsent : ∀ (d : TDA7419) (w : TwoWire),
      (d.sendAllRegisters w).wire.sent = w.sent ++ [d.fullWriteTransaction] := by
    intro d w
    simp only [sendAllRegisters, TwoWire.transmit]
    split <;> rfl
  refine ⟨rfl, hin, hcmd, ?_, ?_, ?_⟩
  · rw [hsent, htx]
  · rw [begin, hsent, htx]
  · intro hok
    have hrun : (TDA7419.new.applySetters calls).sendAllRegisters wire =
        { ok := true
          dev := { (TDA7419.new.applySetters calls) with
            registers := fun reg =>
              ((TDA7419.new.applySetters calls).registers reg).clearChanged
            inputChanged := false }
          wire := { wire with
            sent := wire.sent ++ [(TDA7419.new.applySetters calls).fullWriteTransaction] }
          serial := if (TDA7419.new.applySetters calls).debug then
            [(TDA7419.new.applySetters calls).printRegistersDebug, SerialEvent.sendingAll]
            else [] } := by
      simp [sendAllRegisters, TwoWire.transmit, hok]
    rw [hrun]
    refine ⟨rfl, rfl, rfl, ?_⟩
    rw [hsent, htx]
    simp [fullWriteTransaction, fullWriteCommand, bitStorage.clearChanged, bitStorage.getValue,
      SUBADDR_AUTO_INCREMENT_BIT, SUBADDR_AUTOZERO_REMAIN_BIT, TDA7419_I2C_ADDRESS]

/-- C36, for the setter sequence `setMasterVolume(-20)`: on the transport that answers
every transaction with status 2 the first full write still starts with 0x20, and on the
transport on which every transaction succeeds the second full write starts with 0x60. -/
theorem first_full_write_omits_auto_zero_remain_witness :
    ((TDA7419.new.applySetters [.setMasterVolume (-20)]).sendAllRegisters nackWire).wire.sent
      = nackWire.sent ++ [⟨0x44, 0x20 :: allRegisters.map fun reg =>
          ((TDA7419.new.applySetters [.setMasterVolume (-20)]).registers reg).getValue⟩] ∧
    okWire.respond (okWire.sent
      ++ [(TDA7419.new.applySetters [.setMasterVolume (-20)]).fullWriteTransaction]) = 0 ∧
    ((TDA7419.new.applySetters [.setMasterVolume (-20)]).sendAllRegisters
      okWire).dev.fullWriteCommand = 0x60 :=
  ⟨(first_full_write_omits_auto_zero_remain [.setMasterVolume (-20)] nackWire).2.2.2.1,
    rfl,
    ((first_full_write_omits_auto_zero_remain [.setMasterVolume (-20)] okWire).2.2.2.2.2
      rfl).2.2.1⟩

/-! ## The result of a failed transmission -/

theorem sendChangedLoop_head_fail_serial (reg : RegIndex) (rest : List RegIndex)
    (dev : TDA7419) (wire : TwoWire) (serial : List SerialEvent)
    (hc : (dev.registers reg).isChanged = true)
    (hfail : wire.respond (wire.sent ++ [dev.singleWriteTransaction reg]) ≠ 0) :
    ∃ before : List SerialEvent,
      (sendChangedLoop (reg :: rest) dev wire serial).serial = before ++
        [SerialEvent.transmissionError
          (wire.respond (wire.sent ++ [dev.singleWriteTransaction reg]))] := by
  refine ⟨if dev.debug then serial ++ [SerialEvent.sendingRegister reg.val] else serial, ?_⟩
  simp [sendChangedLoop, hc, TwoWire.transmit, hfail]

/-- When the transaction of the changed register `f` is the first one that fails,
the last thing `sendChangedRegisters` prints is the status of that transaction. -/
theorem sendChangedRegisters_fail_serial (dev : TDA7419) (wire : TwoWire) (f : RegIndex)
    (hdirty : (dev.registers f).isChanged = true)
    (hok : ∀ r : RegIndex, r < f → (dev.registers r).isChanged = true →
      wire.respond (wire.sent ++ dev.changedTransactions (registersBelow r)
        ++ [dev.singleWriteTransaction r]) = 0)
    (hfail : wire.respond (wire.sent ++ dev.changedTransactions (registersBelow f)
        ++ [dev.singleWriteTransaction f]) ≠ 0) :
    ∃ before : List SerialEvent,
      (dev.sendChangedRegisters wire).serial = before ++
        [SerialEvent.transmissionError
          (wire.respond (wire.sent ++ dev.changedTransactions (registersBelow f)
            ++ [dev.singleWriteTransaction f]))] := by
  have h := sendChangedLoop_take f.val (f :: allRegisters.drop (f.val + 1)) dev wire
    (if dev.debug then [dev.printRegistersDebug, SerialEvent.sendingChanged] else [])
    (fun r hr hc => hok r hr hc)
  have hf : ((dev.clearRegisters (registersBelow f)).registers f) = dev.registers f := by
    simp [clearRegisters, mem_registersBelow]
  have htx : (dev.clearRegisters (registersBelow f)).singleWriteTransaction f
      = dev.singleWriteTransaction f := by
    simp only [singleWriteTransaction, hf]
    rfl
  have hstep := sendChangedLoop_head_fail_serial f (allRegisters.drop (f.val + 1))
    (dev.clearRegisters (registersBelow f))
    { wire with sent := wire.sent ++ dev.changedTransactions (registersBelow f) }
    ((if dev.debug then [dev.printRegistersDebug, SerialEvent.sendingChanged] else [])
      ++ dev.sendingEvents (registersBelow f))
    (by rw [hf]; exact hdirty)
    (by rw [htx]; exact hfail)
  rw [htx] at hstep
  have hrun : dev.sendChangedRegisters wire =
      sendChangedLoop (f :: allRegisters.drop (f.val + 1))
        (dev.clearRegisters (registersBelow f))
        { wire with sent := wire.sent ++ dev.changedTransactions (registersBelow f) }
        ((if dev.debug then [dev.printRegistersDebug, SerialEvent.sendingChanged] else [])
          ++ dev.sendingEvents (registersBelow f)) := by
    have hsplit : dev.sendChangedRegisters wire =
        sendChangedLoop (registersBelow f ++ f :: allRegisters.drop (f.val + 1)) dev wire
          (if dev.debug then [dev.printRegistersDebug, SerialEvent.sendingChanged] else []) := by
      rw [← allRegisters_split f]
      rfl
    exact hsplit.trans h
  rw [hrun]
  exact hstep

/-- The result of `sendAllRegisters` only tells whether the status was zero. -/
theorem sendAllRegisters_ok_eq (dev : TDA7419) (wire : TwoWire) :
    (dev.sendAllRegisters wire).ok
      = (wire.respond (wire.sent ++ [dev.fullWriteTransaction]) == 0) := by
  by_cases h : wire.respond (wire.sent ++ [dev.fullWriteTransaction]) = 0
  · simp [sendAllRegisters, TwoWire.transmit, h]
  · simp [sendAllRegisters, TwoWire.transmit, h]

/-- C32 (evaluation of the code): on a freshly constructed driver a transport that answers
every transaction with status 2 (address not acknowledged) and one that answers with
status 5 (timeout) fail with different status codes, yet `sendAllRegisters` returns the
same result `false` on both, and so does `sendChangedRegisters`; the status appears only
in what `printTransmissionError` prints on `Serial`. In every state and on every bus the
result of `sendAllRegisters` is `true` exactly when the status is zero. -/
theorem failure_result_hides_status :
    nackWire.respond (nackWire.sent ++ [TDA7419.new.fullWriteTransaction]) = 2 ∧
    timeoutWire.respond (timeoutWire.sent ++ [TDA7419.new.fullWriteTransaction]) = 5 ∧
    (TDA7419.new.sendAllRegisters nackWire).ok = false ∧
    (TDA7419.new.sendAllRegisters timeoutWire).ok = false ∧
    (TDA7419.new.sendAllRegisters nackWire).ok = (TDA7419.new.sendAllRegisters timeoutWire).ok ∧
    (TDA7419.new.sendAllRegisters nackWire).serial = [SerialEvent.transmissionError 2] ∧
    (TDA7419.new.sendAllRegisters timeoutWire).serial = [SerialEvent.transmissionError 5] ∧
    nackWire.respond (nackWire.sent ++ [TDA7419.new.singleWriteTransaction 0]) = 2 ∧
    timeoutWire.respond (timeoutWire.sent ++ [TDA7419.new.singleWriteTransaction 0]) = 5 ∧
    (TDA7419.new.sendChangedRegisters nackWire).ok = false ∧
    (TDA7419.new.sendChangedRegisters timeoutWire).ok = false ∧
    (TDA7419.new.sendChangedRegisters nackWire).ok
      = (TDA7419.new.sendChangedRegisters timeoutWire).ok ∧
    (TDA7419.new.sendChangedRegisters nackWire).serial = [SerialEvent.transmissionError 2] ∧
    (TDA7419.new.sendChangedRegisters timeoutWire).serial
      = [SerialEvent.transmissionError 5] ∧
    (∀ (dev : TDA7419) (wire : TwoWire), (dev.sendAllRegisters wire).ok
      = (wire.respond (wire.sent ++ [dev.fullWriteTransaction]) == 0)) := by
  refine ⟨by decide, by decide, by decide, by decide, by decide, by decide, by decide,
    by decide, by decide, by decide, by decide, by decide, by decide, by decide, ?_⟩
  exact sendAllRegisters_ok_eq

/-! ## Round trips from a register code -/

/-- C38: every 7-bit volume code `c` in 0..96 other than 16 is reproduced by decoding and
re-encoding; code 16 decodes to 0, as code 0 does, and re-encodes to 0; the codes the
encoder produces on the `int8_t` inputs are exactly 0..15 and 17..96, and every code it
produces, on any input, is among them and below 128. -/
theorem volume_code_round_trip_except_sixteen (c : Nat) (hc : c ≤ 96) (hne : c ≠ 16) :
    convertVolumeToRegisterValue (convertRegisterValueToVolume c) = c ∧
    convertRegisterValueToVolume 16 = 0 ∧
    convertRegisterValueToVolume 0 = 0 ∧
    convertVolumeToRegisterValue (convertRegisterValueToVolume 16) = 0 ∧
    (∀ code : Nat, (∃ x : Int, -128 ≤ x ∧ x ≤ 127 ∧ convertVolumeToRegisterValue x = code)
      ↔ (code ≤ 15 ∨ (17 ≤ code ∧ code ≤ 96))) ∧
    (∀ x : Int, (convertVolumeToRegisterValue x ≤ 15 ∨
      (17 ≤ convertVolumeToRegisterValue x ∧ convertVolumeToRegisterValue x ≤ 96)) ∧
      convertVolumeToRegisterValue x < 128) := by
  have hall : ∀ x : Int, (convertVolumeToRegisterValue x ≤ 15 ∨
      (17 ≤ convertVolumeToRegisterValue x ∧ convertVolumeToRegisterValue x ≤ 96)) ∧
      convertVolumeToRegisterValue x < 128 := by
    intro x
    have h := convertVolumeToRegisterValue_eq x
    split_ifs at h <;> omega
  refine ⟨?_, by decide, by decide, by decide, ?_, hall⟩
  · have hd := convertRegisterValueToVolume_eq c (by omega)
    have he := convertVolumeToRegisterValue_eq (convertRegisterValueToVolume c)
    generalize convertRegisterValueToVolume c = v at hd he ⊢
    split_ifs at hd he <;> omega
  · intro code
    constructor
    · rintro ⟨x, _, _, hx⟩
      rw [← hx]
      exact (hall x).1
    · intro hcode
      by_cases hlow : code ≤ 15
      · refine ⟨(code : Int), by omega, by omega, ?_⟩
        have he := convertVolumeToRegisterValue_eq (code : Int)
        split_ifs at he <;> omega
      · refine ⟨16 - (code : Int), by omega, by omega, ?_⟩
        have he := convertVolumeToRegisterValue_eq (16 - (code : Int))
        split_ifs at he <;> omega

/-- C38, at code 50, which decodes to -34. -/
theorem volume_code_round_trip_except_sixteen_witness :
    convertRegisterValueToVolume 50 = -34 ∧
    convertVolumeToRegisterValue (convertRegisterValueToVolume 50) = 50 :=
  ⟨by decide, (volume_code_round_trip_except_sixteen 50 (by decide) (by decide)).1⟩

/-- C39: every 5-bit equalizer code `c` other than 0 is reproduced by decoding and
re-encoding, and code 0 re-encodes to 16. On a freshly constructed driver `getMiddleLevel`
returns 0 while bits 0-4 of the clean register 5 hold code 0, and
`setMiddleLevel(getMiddleLevel())` changes register 5 from 0x00 to 0x10 and makes it
changed; the same holds for `getBassLevel`, `setBassLevel` and register 6. -/
theorem eq_level_write_back_changes_code_zero (c : Nat) (hc : c < 32) (hne : c ≠ 0) :
    convertEQLevelToRegisterValue (convertRegisterValueToEQLevel c) = c ∧
    convertEQLevelToRegisterValue (convertRegisterValueToEQLevel 0) = 16 ∧
    (TDA7419.new.getMiddleLevel = 0 ∧
      (TDA7419.new.registers REG_MIDDLE_FILTER).readValueAtBit 0 5 = 0 ∧
      (TDA7419.new.registers REG_MIDDLE_FILTER).getValue = 0x00 ∧
      (TDA7419.new.registers REG_MIDDLE_FILTER).isChanged = false ∧
      ((TDA7419.new.setMiddleLevel TDA7419.new.getMiddleLevel).registers
        REG_MIDDLE_FILTER).getValue = 0x10 ∧
      ((TDA7419.new.setMiddleLevel TDA7419.new.getMiddleLevel).registers
        REG_MIDDLE_FILTER).isChanged = true) ∧
    (TDA7419.new.getBassLevel = 0 ∧
      (TDA7419.new.registers REG_BASS_FILTER).readValueAtBit 0 5 = 0 ∧
      (TDA7419.new.registers REG_BASS_FILTER).getValue = 0x00 ∧
      (TDA7419.new.registers REG_BASS_FILTER).isChanged = false ∧
      ((TDA7419.new.setBassLevel TDA7419.new.getBassLevel).registers
        REG_BASS_FILTER).getValue = 0x10 ∧
      ((TDA7419.new.setBassLevel TDA7419.new.getBassLevel).registers
        REG_BASS_FILTER).isChanged = true) := by
  refine ⟨?_, by decide, by decide, by decide⟩
  have hd := convertRegisterValueToEQLevel_eq c (by omega)
  have he := convertEQLevelToRegisterValue_eq (convertRegisterValueToEQLevel c)
  generalize convertRegisterValueToEQLevel c = v at hd he ⊢
  split_ifs at hd he <;> omega

/-- C39, at code 7, which decodes to -7. -/
theorem eq_level_write_back_changes_code_zero_witness :
    convertRegisterValueToEQLevel 7 = -7 ∧
    convertEQLevelToRegisterValue (convertRegisterValueToEQLevel 7) = 7 :=
  ⟨by decide, (eq_level_write_back_changes_code_zero 7 (by decide) (by decide)).1⟩

/-! ## Registers whose value equals the saved value -/

/-- When the loop returns `true`, every register it visited and every register that was
unchanged before is unchanged afterwards. -/
theorem sendChangedLoop_ok_clean (regs : List RegIndex) :
    ∀ (dev : TDA7419) (wire : TwoWire) (serial : List SerialEvent),
      (sendChangedLoop regs dev wire serial).ok = true →
      ∀ reg : RegIndex, (reg ∈ regs ∨ (dev.registers reg).isChanged = false) →
        ((sendChangedLoop regs dev wire serial).dev.registers reg).isChanged = false := by
  induction regs with
  | nil =>
    intro dev wire serial _ reg hreg
    rcases hreg with hmem | hcl
    · cases hmem
    · exact hcl
  | cons r rest ih =>
    intro dev wire serial hres reg hreg
    by_cases hc : (dev.registers r).isChanged = true
    · by_cases hs : wire.respond (wire.sent ++ [dev.singleWriteTransaction r]) = 0
      · have hrun : sendChangedLoop (r :: rest) dev wire serial
            = sendChangedLoop rest (dev.modifyRegister r bitStorage.clearChanged)
                { wire with sent := wire.sent ++ [dev.singleWriteTransaction r] }
                (if dev.debug then serial ++ [SerialEvent.sendingRegister r.val]
                  else serial) := by
          simp only [sendChangedLoop, hc, if_true, TwoWire.transmit, hs, bne_self_eq_false,
            Bool.false_eq_true, if_false]
        rw [hrun] at hres ⊢
        apply ih _ _ _ hres reg
        by_cases heq : reg = r
        · right
          rw [heq, registers_modifyRegister_same]
          exact isChanged_clearChanged _
        · rcases hreg with hmem | hcl
          · rcases List.mem_cons.mp hmem with h | h
            · exact absurd h heq
            · exact Or.inl h
          · right
            rw [registers_modifyRegister_other _ _ _ _ heq]
            exact hcl
      · have hfalse := (sendChangedLoop_head_fail r rest dev wire serial hc hs).1
        rw [hfalse] at hres
        cases hres
    · have hrun : sendChangedLoop (r :: rest) dev wire serial
          = sendChangedLoop rest dev wire serial := by
        simp only [sendChangedLoop, hc, Bool.false_eq_true, if_false]
      rw [hrun] at hres ⊢
      apply ih _ _ _ hres reg
      rcases hreg with hmem | hcl
      · rcases List.mem_cons.mp hmem with h | h
        · right
          rw [h]
          simpa using hc
        · exact Or.inl h
      · exact Or.inr hcl

/-- In one driver state the sub-address byte determines the register. -/
theorem singleWriteSubAddress_injective (dev : TDA7419) (r s : RegIndex)
    (h : dev.singleWriteSubAddress r = dev.singleWriteSubAddress s) : r = s := by
  cases hin : dev.inputChanged
  · simp only [singleWriteSubAddress, hin] at h
    revert r s
    decide
  · simp only [singleWriteSubAddress, hin] at h
    revert r s
    decide

/-- C40: when a sequence of setter calls leaves the byte of register `reg` equal to its
saved value, whatever values it took in between, the register is unchanged
(`isChanged() == false`) and a following `sendChangedRegisters` issues, on every bus, only
transactions of other registers, none with the sub-address of `reg`. In particular right
after a successful `sendAllRegisters` or `sendChangedRegisters`, `sendChangedRegisters`
issues no transaction and returns `true`. -/
theorem changed_flag_follows_values (dev : TDA7419) (calls : List SetterCall)
    (reg : RegIndex) (wire : TwoWire)
    (hrestored : ((dev.applySetters calls).registers reg).getValue
      = (dev.registers reg).prevValue_) :
    ((dev.applySetters calls).registers reg).isChanged = false ∧
    (∃ txs : List Transaction,
      ((dev.applySetters calls).sendChangedRegisters wire).wire.sent = wire.sent ++ txs ∧
      (∀ tx ∈ txs, ∃ r : RegIndex,
        r ≠ reg ∧ tx = (dev.applySetters calls).singleWriteTransaction r) ∧
      (∀ tx ∈ txs, ∀ value : Nat,
        tx ≠ ⟨0x44, [(dev.applySetters calls).singleWriteSubAddress reg, value]⟩)) ∧
    (∀ (state : TDA7419) (bus : TwoWire),
      bus.respond (bus.sent ++ [state.fullWriteTransaction]) = 0 →
        ((state.sendAllRegisters bus).dev.sendChangedRegisters
          (state.sendAllRegisters bus).wire).ok = true ∧
        ((state.sendAllRegisters bus).dev.sendChangedRegisters
          (state.sendAllRegisters bus).wire).wire.sent = (state.sendAllRegisters bus).wire.sent) ∧
    (∀ (state : TDA7419) (bus : TwoWire),
      (state.sendChangedRegisters bus).ok = true →
        ((state.sendChangedRegisters bus).dev.sendChangedRegisters
          (state.sendChangedRegisters bus).wire).ok = true ∧
        ((state.sendChangedRegisters bus).dev.sendChangedRegisters
          (state.sendChangedRegisters bus).wire).wire.sent
            = (state.sendChangedRegisters bus).wire.sent) := by
  have hclean : ((dev.applySetters calls).registers reg).isChanged = false := by
    have hprev := prevValue_applySetters calls dev reg
    simp only [bitStorage.isChanged, bitStorage.getValue] at hrestored ⊢
    rw [hprev, hrestored]
    simp
  refine ⟨hclean, ?_, ?_, ?_⟩
  · obtain ⟨txs, hsent, htxs⟩ := sendChangedLoop_sent_changed allRegisters
      (dev.applySetters calls) wire
      (if (dev.applySetters calls).debug then
        [(dev.applySetters calls).printRegistersDebug, SerialEvent.sendingChanged] else [])
    have hother : ∀ tx ∈ txs, ∃ r : RegIndex,
        r ≠ reg ∧ tx = (dev.applySetters calls).singleWriteTransaction r := by
      intro tx htx
      obtain ⟨r, hc, hr⟩ := htxs tx htx
      refine ⟨r, ?_, hr⟩
      intro heq
      rw [heq, hclean] at hc
      cases hc
    refine ⟨txs, hsent, hother, ?_⟩
    intro tx htx value heq
    obtain ⟨r, hne, hr⟩ := hother tx htx
    rw [hr] at heq
    have hsub : (dev.applySetters calls).singleWriteSubAddress r
        = (dev.applySetters calls).singleWriteSubAddress reg := by
      simp only [singleWriteTransaction, Transaction.mk.injEq, List.cons.injEq] at heq
      exact heq.2.1
    exact hne (singleWriteSubAddress_injective _ _ _ hsub)
  · intro state bus hok
    have hall : ∀ r, ((state.sendAllRegisters bus).dev.registers r).isChanged = false := by
      intro r
      simp [sendAllRegisters, TwoWire.transmit, hok, isChanged_clearChanged]
    obtain ⟨h1, h2, _⟩ := sendChangedRegisters_of_clean (state.sendAllRegisters bus).dev
      (state.sendAllRegisters bus).wire hall
    exact ⟨h1, h2⟩
  · intro state bus hres
    have hall : ∀ r, ((state.sendChangedRegisters bus).dev.registers r).isChanged = false := by
      intro r
      exact sendChangedLoop_ok_clean allRegisters state bus
        (if state.debug then [state.printRegistersDebug, SerialEvent.sendingChanged] else [])
        hres r (Or.inl (List.mem_finRange r))
    obtain ⟨h1, h2, _⟩ := sendChangedRegisters_of_clean (state.sendChangedRegisters bus).dev
      (state.sendChangedRegisters bus).wire hall
    exact ⟨h1, h2⟩

/-- C40, on a driver made clean by a successful `sendAllRegisters`: `setInputGain(9)`
changes register 0, `setInputGain(3)` restores its byte 0x1A, after which the register is
unchanged and `sendChangedRegisters` issues no transaction. -/
theorem changed_flag_follows_values_witness :
    (((TDA7419.new.sendAllRegisters okWire).dev.applySetters
      [.setInputGain 9]).registers 0).isChanged = true ∧
    (((TDA7419.new.sendAllRegisters okWire).dev.applySetters
      [.setInputGain 9, .setInputGain 3]).registers 0).getValue
        = ((TDA7419.new.sendAllRegisters okWire).dev.registers 0).prevValue_ ∧
    (((TDA7419.new.sendAllRegisters okWire).dev.applySetters
      [.setInputGain 9, .setInputGain 3]).registers 0).isChanged = false ∧
    (((TDA7419.new.sendAllRegisters okWire).dev.applySetters
      [.setInputGain 9, .setInputGain 3]).sendChangedRegisters okWire).wire.sent = [] :=
  have h := changed_flag_follows_values (TDA7419.new.sendAllRegisters okWire).dev
    [.setInputGain 9, .setInputGain 3] 0 okWire (by decide)
  ⟨by decide, by decide, h.1, by decide⟩

end TDA7419

end TDA7419
